import Mathlib

/-!
# Damage cruncher (`damage/js/cruncher.js`)

A shallow embedding of the damage-crunching engine and theorems about it.

Modelling conventions.

* JavaScript numbers are embedded as exact rationals (`ℚ`); the decimal literals
  `0.3`, `0.6`, `1.35`, `0.1`, `0.5` are the rationals `3/10`, `6/10`, `135/100`, `1/10`, `1/2`.
  A division is only meaningful for a non-zero divisor.
* Where the rounding of IEEE 754 doubles decides the outcome, the expression is embedded a
  second time with every operation rounded by `roundDouble` (`getAttackOfUnitDouble`).
* A value that may be `undefined` or `NaN` is an `Option`: `none` absorbs arithmetic and makes
  every `<` comparison false, as both do in JavaScript.
* A `TypeError` (calling an absent property as a function) is `Except.error`.
* A hit modifier is the string the source compares against (`'Miss'`, `'Good'`, ...).
* An object property that may be absent (`hasOwnProperty`) is an `Option` field.
* An event callback is a function from the module state to an `Outcome`: the state it leaves,
  the `numbersCrunched` events it triggered and the exception it ended with. The `units` and
  `captains` tables and `new Function` are parameters (`Env`): every unit number picked has an
  entry in `units`, and every formula of the `captains` table compiles.
* The team is a list of six slots; slot arguments of the callbacks are taken within it.
-/

namespace Cruncher

/-! ## Data model -/

/-- Entry of the external `units` table, restricted to the fields the cruncher reads. -/
structure UnitData where
  number : Nat
  type : String
  minATK : ℚ
  maxATK : ℚ
  minHP : ℚ
  maxHP : ℚ
  maxLevel : ℚ
  combo : ℚ

/-- Occupied team slot `{ unit: ..., level: ..., orb: ... }`. -/
structure Slot where
  unit : UnitData
  level : ℚ
  orb : ℚ

/-- Hit modifier or `undefined` (an index past the end of a `hitModifiers` array). -/
abbrev Hit := Option String

/-- Captain function compiled by `createFunctions` with the parameters
`(unit, chainPosition, currentHP, maxHP, percHP, modifier)`. -/
abbrev CaptainFn := UnitData → Nat → ℚ → ℚ → ℚ → Hit → ℚ

/-- Compiled captain ability: the object returned by `createFunctions`. The `hp` function is only
ever called as `hp(unit.unit)` and the `orb` function as `orb(data.unit,data.orb)`. -/
structure Ability where
  atk : Option CaptainFn
  hitAtk : Option CaptainFn
  hitModifiers : Option (List String)
  chainModifier : Option CaptainFn
  hp : Option (UnitData → ℚ)
  orb : Option (UnitData → ℚ → ℚ)

/-- Module-level variables of the cruncher. -/
structure State where
  team : List (Option Slot)
  captainAbilities : Option Ability × Option Ability
  merryBonus : ℚ
  currentHP : ℚ
  maxHP : ℚ
  percHP : ℚ
  crunchingEnabled : Bool
  defenseThreshold : ℚ

/-- Triple `[ unit, damage, order ]` held in the `damage` arrays. -/
structure DamageEntry where
  unit : Slot
  damage : ℚ
  order : Nat

/-- Triple `[ unit, result, order ]` produced by `applyChainAndBonusMultipliers`; the damage is
`none` when `computeDamageOfUnit` falls through and returns `undefined`. -/
structure ResultEntry where
  unit : Slot
  damage : Option ℚ
  order : Nat

/-- Object `{ result, chainMultipliers }` returned by `applyChainAndBonusMultipliers`. -/
structure ChainRun where
  result : List ResultEntry
  chainMultipliers : List ℚ

/-- Object `{ damage, overall, hitModifiers }` stored in `data[i]` once scenario `i` is scored. -/
structure Scenario where
  damage : ChainRun
  overall : Option ℚ
  hitModifiers : List String

/-- Object `{ modifiers, multipliers, order }` returned by `crunchForType(type,true)`. -/
structure Details where
  modifiers : List String
  multipliers : List ℚ
  order : List ResultEntry

/-- Value returned by `crunchForType`: `currentMax`, or the details object. -/
inductive CrunchResult where
  | summary (currentMax : Option ℚ)
  | details (result : Details)

/-- Hit modifiers used when no captain provides its own (line 32). -/
def DEFAULT_HIT_MODIFIERS : List String :=
  ["Perfect", "Perfect", "Perfect", "Perfect", "Perfect", "Perfect"]

/-- Module state right after the script is loaded. -/
def initialState : State :=
  { team := [none, none, none, none, none, none]
    captainAbilities := (none, none)
    merryBonus := 1
    currentHP := 1
    maxHP := 1
    percHP := 100
    crunchingEnabled := true
    defenseThreshold := 0 }

/-! ## Utility functions -/

/-- Level interpolation of the attack (lines 129-133), in exact arithmetic. -/
def getAttackOfUnit (data : Slot) : ℤ :=
  ⌊data.unit.minATK + (data.unit.maxATK - data.unit.minATK) /
      (if data.unit.maxLevel = 1 then 1 else data.unit.maxLevel - 1) * (data.level - 1)⌋

/-- Level interpolation of the HP (lines 135-139), in exact arithmetic. -/
def getHpOfUnit (data : Slot) : ℤ :=
  ⌊data.unit.minHP + (data.unit.maxHP - data.unit.minHP) /
      (if data.unit.maxLevel = 1 then 1 else data.unit.maxLevel - 1) * (data.level - 1)⌋

/-- Same length and `a.every(function(x,n) { return x == b[n]; })` (lines 165-167). -/
def arraysAreEqual (a b : List String) : Bool :=
  a.length == b.length && a.enum.all (fun p => some p.2 == b[p.1]?)

/-! ## Static multipliers/modifiers -/

/-- Type multiplier of a unit against an enemy type (lines 171-182). -/
def getTypeMultiplierOfUnit (data : Slot) (against : String) : ℚ :=
  let type := data.unit.type
  if type = "STR" ∧ against = "DEX" then 2
  else if type = "STR" ∧ against = "QCK" then 1/2
  else if type = "QCK" ∧ against = "STR" then 2
  else if type = "QCK" ∧ against = "DEX" then 1/2
  else if type = "DEX" ∧ against = "QCK" then 2
  else if type = "DEX" ∧ against = "STR" then 1/2
  else if type = "INT" ∧ against = "PSY" then 2
  else if type = "PSY" ∧ against = "INT" then 2
  else 1

/-- New chain multiplier after a hit (lines 191-196); anything but Perfect, Great and Good
resets it to 1. -/
def getChainMultiplier (currentChainMultiplier : ℚ) (hit : Hit) (chainModifier : ℚ) : ℚ :=
  if hit = some "Perfect" then currentChainMultiplier + 3/10 * chainModifier
  else if hit = some "Great" then currentChainMultiplier + 1/10 * chainModifier
  else if hit = some "Good" then currentChainMultiplier
  else 1

/-! ## Captain effects -/

/-- Damage of one unit for a hit modifier (lines 258-272), reading the module variables
`defenseThreshold` and `merryBonus`; `none` is the `undefined` of the fall-through. -/
def computeDamageOfUnit (s : State) (unit : UnitData) (unitAtk : ℚ) (hitModifier : Hit) :
    Option ℚ :=
  let baseDamage : ℚ := (⌊max 1 (unitAtk / unit.combo - s.defenseThreshold)⌋ : ℤ)
  if hitModifier = some "Miss" then
    some (baseDamage * unit.combo)
  else if hitModifier = some "Good" then
    let bonus : ℚ := (⌊unitAtk / unit.combo / s.merryBonus * (3/10)⌋ : ℤ) * unit.combo
    some (baseDamage * (unit.combo - 2) + (if bonus > s.defenseThreshold then bonus else 1))
  else if hitModifier = some "Great" then
    let bonus : ℚ := (⌊unitAtk / unit.combo / s.merryBonus * (6/10)⌋ : ℤ) * unit.combo
    some (baseDamage * (unit.combo - 1) + (if bonus > s.defenseThreshold then bonus else 1))
  else if hitModifier = some "Perfect" then
    let bonus : ℚ := (⌊unitAtk / unit.combo / s.merryBonus * (135/100)⌋ : ℤ) * unit.combo
    some (baseDamage * unit.combo + (if bonus > s.defenseThreshold then bonus else 1))
  else none

/-- Chain multiplier `captains.reduce(function(x,y) { return x * y.chainModifier(...) },1)`;
`captains` holds the `chainModifier` of every captain that has one. -/
def chainModifierProduct (s : State) (captains : List CaptainFn) (unit : UnitData) (n : Nat)
    (hit : Hit) : ℚ :=
  captains.foldl (fun x y => x * y unit n s.currentHP s.maxHP s.percHP hit) 1

/-- Callback of `damage.map` in `applyChainAndBonusMultipliers`, run from position `n` with
the closure variable `currentChainMultiplier`; returns the mapped entries and the values pushed
on `multipliersUsed`. -/
def chainLoop (s : State) (modifiers : List String) (captains : List CaptainFn) :
    Nat → ℚ → List DamageEntry → List ResultEntry × List ℚ
  | _, _, [] => ([], [])
  | n, currentChainMultiplier, x :: rest =>
    let result := x.damage * currentChainMultiplier
    let chainModifier := chainModifierProduct s captains x.unit.unit n modifiers[n]?
    let result := computeDamageOfUnit s x.unit.unit result modifiers[n]?
    let next := getChainMultiplier currentChainMultiplier modifiers[n]? chainModifier
    let tail := chainLoop s modifiers captains (n + 1) next rest
    ({ unit := x.unit, damage := result, order := x.order } :: tail.1,
      currentChainMultiplier :: tail.2)

/-- Chain and bonus multipliers over the sorted units (lines 200-218), the chain multiplier
starting at 1. -/
def applyChainAndBonusMultipliers (s : State) (damage : List DamageEntry)
    (modifiers : List String) (captains : List CaptainFn) : ChainRun :=
  let run := chainLoop s modifiers captains 0 1 damage
  { result := run.1, chainMultipliers := run.2 }

/-- Captain effect mapped over the damage array (lines 220-226). The call
`func(unit.unit,n,currentHP,maxHP,percHP)` throws a `TypeError` when `func` is
`undefined` (an absent property) and the array has an element to map. -/
def applyCaptainEffectToDamage (s : State) (damage : List DamageEntry)
    (func : Option CaptainFn) : Except String (List DamageEntry) :=
  match func, damage with
  | some f, damage =>
    .ok (damage.mapIdx fun n x =>
      { x with damage := x.damage * f x.unit.unit n s.currentHP s.maxHP s.percHP none })
  | none, [] => .ok []
  | none, _ :: _ => .error "TypeError: func is not a function"

/-- HP multipliers of both captains (lines 228-234). -/
def applyCaptainEffectsToHP (s : State) (unit : Slot) (hp : ℚ) : ℚ :=
  let hp := match s.captainAbilities.1.bind (·.hp) with
    | some f => hp * f unit.unit
    | none => hp
  match s.captainAbilities.2.bind (·.hp) with
  | some f => hp * f unit.unit
  | none => hp

/-- Orb multiplier of a unit (lines 236-243): the first captain with an `orb` function decides,
else the orb of the slot. -/
def getOrbMultiplierOfUnit (s : State) (data : Slot) : ℚ :=
  match s.captainAbilities.1.bind (·.orb) with
  | some f => f data.unit data.orb
  | none =>
    match s.captainAbilities.2.bind (·.orb) with
    | some f => f data.unit data.orb
    | none => data.orb

/-! ## Crunching -/

/-- Lines 65-71 of `crunchForType`: type and orb multipliers of every occupied slot. -/
def teamDamage (s : State) (type : String) : List DamageEntry :=
  s.team.enum.filterMap fun p =>
    p.2.map fun x =>
      { unit := x
        damage := getAttackOfUnit x * getOrbMultiplierOfUnit s x *
          getTypeMultiplierOfUnit x type * s.merryBonus
        order := p.1 }

/-- Lines 73-75 of `crunchForType`: the non-null captain abilities, slot 0 first. -/
def abilities (s : State) : List Ability :=
  s.captainAbilities.1.toList ++ s.captainAbilities.2.toList

/-- Lines 78-79 of `crunchForType`: the body of the loop over `abilities`. -/
def applyStaticAtk (s : State) (damage : List DamageEntry) (a : Ability) :
    Except String (List DamageEntry) :=
  match a.atk with
  | none => pure damage
  | some f => applyCaptainEffectToDamage s damage (some f)

/-- Lines 77-81 of `crunchForType`: static `atk` multipliers, then the sort from weakest to
strongest (`Array.prototype.sort` with the comparator `x[1] - y[1]`, a stable sort). -/
def staticDamage (s : State) (type : String) : Except String (List DamageEntry) := do
  let damage ← (abilities s).foldlM (applyStaticAtk s) (teamDamage s type)
  pure (damage.insertionSort fun x y => x.damage ≤ y.damage)

/-- Line 92: the captains that have `hitModifiers`, each as its `hitModifiers` and its `hitAtk`
property (the only two properties read from them). -/
def captainsWithHitModifiers (s : State) : List (List String × Option CaptainFn) :=
  (abilities s).filterMap fun x => x.hitModifiers.map fun m => (m, x.hitAtk)

/-- Line 93: the captains that have a `chainModifier`, each as that function. -/
def captainsWithChainModifiers (s : State) : List CaptainFn :=
  (abilities s).filterMap fun x => x.chainModifier

/-- Lines 102-103: the body of the `j` loop for the captain `c`. -/
def applyCompatibleEffect (s : State) (modifiers : List String) (damage : List DamageEntry)
    (c : List String × Option CaptainFn) : Except String (List DamageEntry) :=
  if arraysAreEqual modifiers c.1 then applyCaptainEffectToDamage s damage c.2 else pure damage

/-- Lines 100-104: the `j` loop applying the compatible captain effects to `data[i]`. -/
def applyCompatibleEffects (s : State) (modifiers : List String)
    (captains : List (List String × Option CaptainFn)) (damage : List DamageEntry) :
    Except String (List DamageEntry) :=
  captains.foldlM (applyCompatibleEffect s modifiers) damage

/-- The reduction `result.reduce(function(prev,x) { return prev + x[1]; },0)`. -/
def overallDamage (result : List ResultEntry) : Option ℚ :=
  result.foldl (fun prev x => prev.bind fun p => x.damage.map fun d => p + d) (some 0)

/-- Lines 99-107: the body of the `i` loop for the scenario with hit modifiers `modifiers`. -/
def scoreScenario (s : State) (damage : List DamageEntry) (modifiers : List String) :
    Except String Scenario := do
  let d ← applyCompatibleEffects s modifiers (captainsWithHitModifiers s) damage
  let damageWithChainMultipliers :=
    applyChainAndBonusMultipliers s d modifiers (captainsWithChainModifiers s)
  pure { damage := damageWithChainMultipliers
         overall := overallDamage damageWithChainMultipliers.result
         hitModifiers := modifiers }

/-- Lines 98-108: every scenario scored in order, `data[0]` with the default hit modifiers and
then one per captain with hit modifiers. -/
def scoreScenarios (s : State) (damage : List DamageEntry) :
    Except String (Scenario × List Scenario) := do
  let d0 ← scoreScenario s damage DEFAULT_HIT_MODIFIERS
  let rest ← (captainsWithHitModifiers s).mapM fun c => scoreScenario s damage c.1
  pure (d0, rest)

/-- The comparison `a < b` of two values that may be `NaN`. -/
def jsLt : Option ℚ → Option ℚ → Bool
  | some a, some b => decide (a < b)
  | _, _ => false

/-- Lines 111-115: the loop over `data[i]`, `i` counting up, with the variables `index` and
`currentMax`. -/
def maxLoop : List Scenario → Nat → Nat → Option ℚ → Nat × Option ℚ
  | [], _, index, currentMax => (index, currentMax)
  | d :: rest, i, index, currentMax =>
    if jsLt d.overall currentMax then maxLoop rest (i + 1) index currentMax
    else maxLoop rest (i + 1) i d.overall

/-- The function `crunchForType` (lines 64-125). -/
def crunchForType (s : State) (type : String) (withDetails : Bool) :
    Except String CrunchResult := do
  let damage ← staticDamage s type
  let data ← scoreScenarios s damage
  let found := maxLoop data.2 1 0 data.1.overall
  let index := found.1
  let currentMax := found.2
  if !withDetails then
    pure (.summary currentMax)
  else
    let best := (data.1 :: data.2).getD index data.1
    pure (.details
      { modifiers := best.hitModifiers
        multipliers := best.damage.chainMultipliers
        order := best.damage.result })

/-- Object `result` of `crunch`, the payload of the `numbersCrunched` event: one entry per
type, each holding what `crunchForType(type,false)` returned, and the HP. -/
structure Consolidated where
  STR : CrunchResult
  QCK : CrunchResult
  DEX : CrunchResult
  PSY : CrunchResult
  INT : CrunchResult
  HP : ℚ

/-- Lines 55-59 of `crunch`: the callback of `team.forEach`, adding the HP of one slot to
`result.HP`. -/
def addHpOfSlot (s : State) (hp : ℚ) (x : Option Slot) : ℚ :=
  match x with
  | none => hp
  | some x => hp + applyCaptainEffectsToHP s x (getHpOfUnit x)

/-- Lines 54-60 of `crunch`: the HP of every occupied slot added up from 0, then
`Math.max(1,result.HP)`. -/
def teamHP (s : State) : ℚ :=
  max 1 (s.team.foldl (addHpOfSlot s) 0)

/-- Lines 50-60 of `crunch`: the result object, built after the `crunchingEnabled` gate. -/
def fullRecompute (s : State) : Except String Consolidated := do
  let str ← crunchForType s "STR" false
  let qck ← crunchForType s "QCK" false
  let dex ← crunchForType s "DEX" false
  let psy ← crunchForType s "PSY" false
  let int ← crunchForType s "INT" false
  pure { STR := str, QCK := qck, DEX := dex, PSY := psy, INT := int, HP := teamHP s }

/-- The function `crunch` (lines 48-62): `some result` is the one `numbersCrunched` event it
triggers, `none` the early return while crunching is disabled. -/
def crunch (s : State) : Except String (Option Consolidated) :=
  if !s.crunchingEnabled then pure none
  else (fullRecompute s).map some

/-! ## Event callbacks -/

/-- Entry of the external `captains` table. Each key is absent (`none`), present with an
undefined value (`some none`), or present with a formula (for `hitModifiers`: an array). -/
structure CaptainData where
  atk : Option (Option String)
  hitAtk : Option (Option String)
  hitModifiers : Option (Option (List String))
  chainModifier : Option (Option String)
  hp : Option (Option String)
  orb : Option (Option String)

/-- External collaborators of the callbacks: the `units` table, the `captains` table by key,
and the functions `new Function(...)` builds from a formula (for the six-parameter form, for
the same form called as `hp(unit.unit)`, and for the `('unit','orb')` form). -/
structure Env where
  units : Nat → UnitData
  captains : Nat → Option CaptainData
  newFunction : String → CaptainFn
  newHpFunction : String → UnitData → ℚ
  newOrbFunction : String → UnitData → ℚ → ℚ

/-- The function `createFunctions` (lines 150-163) on the six keys the cruncher reads: a key
whose value is undefined is left out (after a notification), `hitModifiers` is copied, every
other key is compiled. -/
def createFunctions (env : Env) (data : CaptainData) : Ability :=
  { atk := data.atk.join.map env.newFunction
    hitAtk := data.hitAtk.join.map env.newFunction
    hitModifiers := data.hitModifiers.join
    chainModifier := data.chainModifier.join.map env.newFunction
    hp := data.hp.join.map env.newHpFunction
    orb := data.orb.join.map env.newOrbFunction }

/-- The function `setCaptain` (lines 141-148), for the captain slots 0 and 1. -/
def setCaptain (env : Env) (s : State) (slotNumber : Nat) : State :=
  let ability : Option Ability :=
    match s.team[slotNumber]?.join with
    | none => none
    | some x =>
      match env.captains (x.unit.number + 1) with
      | some data => some (createFunctions env data)
      | none => none
  if slotNumber = 0 then { s with captainAbilities := (ability, s.captainAbilities.2) }
  else if slotNumber = 1 then { s with captainAbilities := (s.captainAbilities.1, ability) }
  else s

/-- What a callback leaves behind: the module state, the `numbersCrunched` events it
triggered, and the exception it ended with, if any. -/
structure Outcome where
  state : State
  emitted : List Consolidated
  error : Option String

/-- The call `crunch()` that ends a callback whose state update gave `s`. -/
def crunchOutcome (s : State) : Outcome :=
  match crunch s with
  | .ok (some result) => { state := s, emitted := [result], error := none }
  | .ok none => { state := s, emitted := [], error := none }
  | .error e => { state := s, emitted := [], error := some e }

/-- The callback `onUnitPick` (lines 276-280), `slotNumber` within the team. -/
def onUnitPick (env : Env) (s : State) (slotNumber unitNumber : Nat) : Outcome :=
  let s1 : State :=
    { s with
      team := s.team.set slotNumber (some { unit := env.units unitNumber, level := 1, orb := 1 }) }
  let s2 := if slotNumber < 2 then setCaptain env s1 slotNumber else s1
  crunchOutcome s2

/-- The callback `onLevelChange` (lines 282-285): writing `level` on an empty slot throws. -/
def onLevelChange (s : State) (slotNumber : Nat) (level : ℚ) : Outcome :=
  match s.team[slotNumber]?.join with
  | none => { state := s, emitted := [], error := some "TypeError: team[slotNumber] is null" }
  | some x =>
    crunchOutcome { s with team := s.team.set slotNumber (some { x with level := level }) }

/-- The callback `onMerryChange` (lines 287-290). -/
def onMerryChange (s : State) (bonus : ℚ) : Outcome :=
  crunchOutcome { s with merryBonus := bonus }

/-- The callback `onDefenseChanged` (lines 292-295). -/
def onDefenseChanged (s : State) (value : ℚ) : Outcome :=
  crunchOutcome { s with defenseThreshold := value }

/-- The callback `onHpChange` (lines 297-302). -/
def onHpChange (s : State) (current max perc : ℚ) : Outcome :=
  crunchOutcome { s with currentHP := current, maxHP := max, percHP := perc }

/-- The callback `onOrbMultiplierChanged` (lines 304-307): writing `orb` on an empty slot
throws. -/
def onOrbMultiplierChanged (s : State) (slotNumber : Nat) (multiplier : ℚ) : Outcome :=
  match s.team[slotNumber]?.join with
  | none => { state := s, emitted := [], error := some "TypeError: team[slotNumber] is null" }
  | some x =>
    crunchOutcome { s with team := s.team.set slotNumber (some { x with orb := multiplier }) }

/-- The callback `onUnitsSwitched` (lines 309-316), both slots within the team. -/
def onUnitsSwitched (env : Env) (s : State) (slotA slotB : Nat) : Outcome :=
  let teamA := s.team[slotA]?.join
  let s1 : State := { s with team := s.team.set slotA s.team[slotB]?.join }
  let s2 : State := { s1 with team := s1.team.set slotB teamA }
  let s3 := if slotA = 0 ∨ slotB = 0 then setCaptain env s2 0 else s2
  let s4 := if slotA = 1 ∨ slotB = 1 then setCaptain env s3 1 else s3
  crunchOutcome s4

/-- The callback `onUnitRemoved` (lines 318-322), `slotNumber` within the team. -/
def onUnitRemoved (s : State) (slotNumber : Nat) : Outcome :=
  let s1 : State := { s with team := s.team.set slotNumber none }
  let s2 : State :=
    if slotNumber = 0 then { s1 with captainAbilities := (none, s1.captainAbilities.2) }
    else if slotNumber = 1 then { s1 with captainAbilities := (s1.captainAbilities.1, none) }
    else s1
  crunchOutcome s2

/-- The callback `onCrunchToggled` (lines 328-331). -/
def onCrunchToggled (s : State) (enabled : Bool) : Outcome :=
  let s1 : State := { s with crunchingEnabled := enabled }
  if enabled then crunchOutcome s1 else { state := s1, emitted := [], error := none }

/-- The events bound to a state-changing callback at lines 336-347, with their payload. -/
inductive Event where
  | unitPicked (slotNumber unitNumber : Nat)
  | unitLevelChanged (slotNumber : Nat) (level : ℚ)
  | merryBonusUpdated (bonus : ℚ)
  | hpChanged (current max perc : ℚ)
  | defenseChanged (value : ℚ)
  | crunchingToggled (enabled : Bool)
  | orbMultiplierChanged (slotNumber : Nat) (multiplier : ℚ)
  | unitsSwitched (slotA slotB : Nat)
  | unitRemoved (slotNumber : Nat)

/-- The bindings `$(document).on(...)` of lines 336-347. -/
def dispatch (env : Env) (s : State) : Event → Outcome
  | .unitPicked slotNumber unitNumber => onUnitPick env s slotNumber unitNumber
  | .unitLevelChanged slotNumber level => onLevelChange s slotNumber level
  | .merryBonusUpdated bonus => onMerryChange s bonus
  | .hpChanged current max perc => onHpChange s current max perc
  | .defenseChanged value => onDefenseChanged s value
  | .crunchingToggled enabled => onCrunchToggled s enabled
  | .orbMultiplierChanged slotNumber multiplier => onOrbMultiplierChanged s slotNumber multiplier
  | .unitsSwitched slotA slotB => onUnitsSwitched env s slotA slotB
  | .unitRemoved slotNumber => onUnitRemoved s slotNumber

/-- The module state after a sequence of events, each callback run to its end (or to its
exception) before the next event. -/
def run (env : Env) : State → List Event → State
  | s, [] => s
  | s, ev :: evs => run env (dispatch env s ev).state evs

/-! ## Evaluation in IEEE 754 doubles -/

/-- Nearest integer to `m`, a tie going to the even neighbour. -/
def roundHalfEven (m : ℚ) : ℤ :=
  if m - ⌊m⌋ < 1/2 then ⌊m⌋
  else if 1/2 < m - ⌊m⌋ then ⌊m⌋ + 1
  else if ⌊m⌋ % 2 = 0 then ⌊m⌋ else ⌊m⌋ + 1

/-- IEEE 754 binary64 rounding (to nearest, ties to even) of a rational whose magnitude is in
the normal range of a double: with `2^k ≤ |q| < 2^(k+1)` the result is the nearest multiple
of `2^(k-52)`, that is, the nearest number with a 53-bit significand. -/
def roundDouble (q : ℚ) : ℚ :=
  if q = 0 then 0
  else roundHalfEven (q / 2 ^ (Int.log 2 |q| - 52)) * 2 ^ (Int.log 2 |q| - 52)

/-- The expression of `getAttackOfUnit` as JavaScript evaluates it: the fields are doubles and
each of `-`, `/`, `*`, `+` rounds its exact result to a double before `Math.floor`. -/
def getAttackOfUnitDouble (data : Slot) : ℤ :=
  ⌊roundDouble (data.unit.minATK +
    roundDouble (roundDouble (roundDouble (data.unit.maxATK - data.unit.minATK) /
      (if data.unit.maxLevel = 1 then 1 else roundDouble (data.unit.maxLevel - 1))) *
      roundDouble (data.level - 1)))⌋

/-! ## Claim-side definitions -/

/-- The `baseDamage` of the documented estimate: `floor(max(1, atk/combo - defenseThreshold))`. -/
def specBaseDamage (atk combo defenseThreshold : ℚ) : ℚ :=
  (⌊max 1 (atk / combo - defenseThreshold)⌋ : ℤ)

/-- The accuracy bonus of the documented estimate: `floor(atk/combo/merryBonus*k)*combo`. -/
def specBonus (atk combo merryBonus k : ℚ) : ℚ :=
  (⌊atk / combo / merryBonus * k⌋ : ℤ) * combo

/-- The four hit modifiers of the terminology comment. -/
def hitKinds : List String := ["Miss", "Good", "Great", "Perfect"]

/-- The five elemental types. -/
def elementalTypes : List String := ["STR", "QCK", "DEX", "PSY", "INT"]

/-- The three types of the rock-paper-scissors triangle. -/
def triangleTypes : List String := ["STR", "DEX", "QCK"]

/-- Product of the `hitAtk` multipliers of the abilities in `as` that define `hitAtk` and whose
own `hitModifiers` equals `M`, evaluated for `unit` at position `n`, starting from `init`. -/
def hitAtkProduct (s : State) (as : List Ability) (M : List String) (unit : UnitData) (n : Nat)
    (init : ℚ) : ℚ :=
  ((as.filter fun a => decide (a.hitModifiers = some M)).filterMap (·.hitAtk)).foldl
    (fun acc f => acc * f unit n s.currentHP s.maxHP s.percHP none) init

/-- Data contract of the terminology comment on one compiled ability: `hitModifiers`, when
provided, has 6 elements, each one of the four hit modifiers, and comes with `hitAtk`. -/
def wellFormedAbility (a : Ability) : Bool :=
  match a.hitModifiers with
  | none => true
  | some m => a.hitAtk.isSome && m.length == 6 && m.all fun h => hitKinds.contains h

/-- Data contract on the module state: six team slots and well-formed captain abilities. -/
def wellFormed (s : State) : Bool :=
  s.team.length == 6 && (abilities s).all wellFormedAbility

/-- The orb multiplier as a selection: `orb(unit, slotOrb)` of the first captain in slot order
that defines an `orb` capability, else the own orb value of the slot. -/
def specOrbMultiplier (s : State) (x : Slot) : ℚ :=
  match ((abilities s).filterMap (·.orb)).head? with
  | some f => f x.unit x.orb
  | none => x.orb

/-- The HP of a slot with the divisor written `max(1, maxLevel - 1)`. -/
def specHp (x : Slot) : ℤ :=
  ⌊x.unit.minHP + (x.unit.maxHP - x.unit.minHP) / max 1 (x.unit.maxLevel - 1) * (x.level - 1)⌋

/-- Product of `hp(unit)` over every captain that defines an `hp` capability. -/
def hpProduct (s : State) (unit : UnitData) : ℚ :=
  ((abilities s).filterMap (·.hp)).foldl (fun acc f => acc * f unit) 1

/-- The occupied slots of the team, in slot order. -/
def occupiedSlots (s : State) : List Slot := s.team.filterMap id

/-- The HP total as a clamped sum over the occupied slots. -/
def specTeamHP (s : State) : ℚ :=
  max 1 ((occupiedSlots s).map fun x => (specHp x : ℚ) * hpProduct s x.unit).sum

/-- The captain ability a slot content determines: none for an empty slot or a unit without an
entry under the key `unit.number + 1`, else the ability compiled from that entry. -/
def derivedAbility (env : Env) (slot : Option Slot) : Option Ability :=
  match slot with
  | none => none
  | some x => (env.captains (x.unit.number + 1)).map (createFunctions env)

/-- Slot arguments of an event lie in 0..5. -/
def slotsInRange : Event → Bool
  | .unitPicked slotNumber _ => decide (slotNumber < 6)
  | .unitLevelChanged slotNumber _ => decide (slotNumber < 6)
  | .orbMultiplierChanged slotNumber _ => decide (slotNumber < 6)
  | .unitsSwitched slotA slotB => decide (slotA < 6) && decide (slotB < 6)
  | .unitRemoved slotNumber => decide (slotNumber < 6)
  | _ => true

/-- Captain abilities are the ones derived from the captain slots, in a team of six slots. -/
def captainsDerived (env : Env) (s : State) : Prop :=
  s.team.length = 6 ∧
  s.captainAbilities.1 = derivedAbility env s.team[0]?.join ∧
  s.captainAbilities.2 = derivedAbility env s.team[1]?.join

/-- Product of the `atk` multipliers of the abilities in `as` that define `atk`, slot 0 first,
evaluated for `unit` at position `n` of the damage array, starting from `init`. -/
def atkProduct (s : State) (as : List Ability) (unit : UnitData) (n : Nat) (init : ℚ) : ℚ :=
  (as.filterMap (·.atk)).foldl
    (fun acc f => acc * f unit n s.currentHP s.maxHP s.percHP none) init

/-- The base contributions multiplied by the `atk` of the captains, in slot order. -/
def scaledDamage (s : State) (type : String) : List DamageEntry :=
  (teamDamage s type).mapIdx fun n x =>
    { x with damage := x.damage * atkProduct s (abilities s) x.unit.unit n 1 }

/-- The occupied slots of the team with their slot index, in slot order. -/
def occupiedEntries (s : State) : List (Nat × Slot) :=
  s.team.enum.filterMap fun p => p.2.map fun x => (p.1, x)

/-- The state update of a callback runs to its end: the level and orb callbacks write to an
occupied slot. -/
def updateCompletes (s : State) : Event → Bool
  | .unitLevelChanged slotNumber _ => s.team[slotNumber]?.join.isSome
  | .orbMultiplierChanged slotNumber _ => s.team[slotNumber]?.join.isSome
  | _ => true

/-- The module state after the assignment `defenseThreshold = d` of `onDefenseChanged`. -/
def withDefense (s : State) (d : ℚ) : State := { s with defenseThreshold := d }

/-- Two scored scenarios with numeric totals, the second total at most the first. -/
def totalLe (a b : Scenario) : Prop :=
  ∃ t1 t2, a.overall = some t1 ∧ b.overall = some t2 ∧ t2 ≤ t1

/-! ## Example data -/

/-- A STR unit with four hits per activation. -/
def exampleUnit : UnitData :=
  { number := 1, type := "STR", minATK := 100, maxATK := 1000, minHP := 200, maxHP := 2000,
    maxLevel := 50, combo := 4 }

/-- The example unit at its maximum level. -/
def exampleSlot : Slot := { unit := exampleUnit, level := 50, orb := 1 }

/-- A unit table entry whose `maxATK` is below its `minATK`. -/
def decreasingUnit : UnitData :=
  { number := 2, type := "QCK", minATK := 10, maxATK := 5, minHP := 10, maxHP := 10,
    maxLevel := 2, combo := 1 }

/-- A unit table entry with 20 to 119 attack over 50 levels. -/
def roundingUnit : UnitData :=
  { number := 3, type := "DEX", minATK := 20, maxATK := 119, minHP := 50, maxHP := 500,
    maxLevel := 50, combo := 3 }

/-- The entry of the example slot in a `damage` array. -/
def exampleEntry0 : DamageEntry := { unit := exampleSlot, damage := 1000, order := 0 }

/-- A second, stronger entry. -/
def exampleEntry1 : DamageEntry := { unit := exampleSlot, damage := 1200, order := 1 }

/-- Hit modifiers that only differ from the default ones after the first hit. -/
def perfectThenGood : List String := ["Perfect", "Good", "Good", "Good", "Good", "Good"]

/-- Hit modifiers asking for six Good hits. -/
def allGood : List String := ["Good", "Good", "Good", "Good", "Good", "Good"]

/-- A captain with the hit modifiers `allGood` and a `hitAtk` of 1.5. -/
def goodCaptain : Ability :=
  { atk := none, hitAtk := some fun _ _ _ _ _ _ => 3/2, hitModifiers := some allGood,
    chainModifier := none, hp := none, orb := none }

/-- The example unit alone in slot 0, with `goodCaptain` as its captain ability. -/
def goodState : State :=
  { initialState with
    team := [some exampleSlot, none, none, none, none, none]
    captainAbilities := (some goodCaptain, none) }

/-- A captain whose `hitAtk` is the constant 1 under the hit modifiers `perfectThenGood`. -/
def tieCaptain : Ability :=
  { atk := none, hitAtk := some fun _ _ _ _ _ _ => 1, hitModifiers := some perfectThenGood,
    chainModifier := none, hp := none, orb := none }

/-- The example unit alone in slot 0, with `tieCaptain` as its captain ability. -/
def tieState : State :=
  { initialState with
    team := [some exampleSlot, none, none, none, none, none]
    captainAbilities := (some tieCaptain, none) }

/-- A captain that has `hitModifiers` but no `hitAtk`. -/
def brokenCaptain : Ability :=
  { atk := none, hitAtk := none, hitModifiers := some allGood,
    chainModifier := none, hp := none, orb := none }

/-- The example unit alone in slot 0, with `brokenCaptain` as its captain ability. -/
def brokenState : State :=
  { initialState with
    team := [some exampleSlot, none, none, none, none, none]
    captainAbilities := (some brokenCaptain, none) }

/-- A STR unit with a single level whose `maxATK` differs from its `minATK`. -/
def singleLevelUnit : UnitData :=
  { number := 4, type := "STR", minATK := 5, maxATK := 10, minHP := 10, maxHP := 20,
    maxLevel := 1, combo := 1 }

/-- A team of one unit in slot 0 and no captain ability. -/
def soloState (x : Slot) : State :=
  { initialState with team := [some x, none, none, none, none, none] }

/-- The table entry of a captain with a static attack multiplier. -/
def exampleCaptainData : CaptainData :=
  { atk := some (some "2"), hitAtk := none, hitModifiers := none,
    chainModifier := none, hp := none, orb := none }

/-- Collaborators with two units and one captain entry, under the key 2 of unit number 1. -/
def exampleEnv : Env :=
  { units := fun n => if n = 0 then exampleUnit else roundingUnit
    captains := fun key => if key = 2 then some exampleCaptainData else none
    newFunction := fun _ _ _ _ _ _ _ => 2
    newHpFunction := fun _ _ => 1
    newOrbFunction := fun _ _ orb => orb }

/-- A unit with a single hit per activation. -/
def singleHitUnit : UnitData :=
  { number := 5, type := "PSY", minATK := 100, maxATK := 100, minHP := 100, maxHP := 100,
    maxLevel := 1, combo := 1 }

/-! ## Theorems -/

/-! ### General lemmas -/

/-- With a function at hand `applyCaptainEffectToDamage` is the plain `map`. -/
theorem applyCaptainEffectToDamage_some (s : State) (damage : List DamageEntry) (f : CaptainFn) :
    applyCaptainEffectToDamage s damage (some f) =
      .ok (damage.mapIdx fun n x =>
        { x with damage := x.damage * f x.unit.unit n s.currentHP s.maxHP s.percHP none }) := by
  simp [applyCaptainEffectToDamage]

/-- The loop over the static `atk` multipliers never throws and keeps the number of entries. -/
theorem atkFold_ok (s : State) :
    ∀ (as : List Ability) (d : List DamageEntry),
      ∃ d', as.foldlM (applyStaticAtk s) d = Except.ok d' ∧ d'.length = d.length
  | [], d => ⟨d, rfl, rfl⟩
  | a :: as, d => by
    cases ha : a.atk with
    | none =>
      obtain ⟨d', h1, h2⟩ := atkFold_ok s as d
      refine ⟨d', ?_, h2⟩
      simpa [List.foldlM_cons, applyStaticAtk, ha, bind, Except.bind, pure, Except.pure] using h1
    | some f =>
      obtain ⟨d', h1, h2⟩ := atkFold_ok s as
        (d.mapIdx fun n x =>
          { x with damage := x.damage * f x.unit.unit n s.currentHP s.maxHP s.percHP none })
      refine ⟨d', ?_, by simpa using h2⟩
      simpa [List.foldlM_cons, applyStaticAtk, ha, applyCaptainEffectToDamage_some, bind,
        Except.bind] using h1

/-- The static stage never throws: it returns one entry per entry of `teamDamage`. -/
theorem staticDamage_ok (s : State) (type : String) :
    ∃ d, staticDamage s type = .ok d ∧ d.length = (teamDamage s type).length := by
  obtain ⟨d', h1, h2⟩ := atkFold_ok s (abilities s) (teamDamage s type)
  refine ⟨d'.insertionSort fun x y => x.damage ≤ y.damage, ?_, ?_⟩
  · simp only [staticDamage, h1, bind, Except.bind, pure, Except.pure]
  · rw [List.length_insertionSort, h2]

/-- There are at most as many damage entries as team slots. -/
theorem teamDamage_length_le (s : State) (type : String) :
    (teamDamage s type).length ≤ s.team.length := by
  unfold teamDamage
  exact (List.length_filterMap_le _ _).trans (by simp)

/-- Two arrays pass `arraysAreEqual` exactly when they are equal element-wise. -/
theorem arraysAreEqual_iff (a b : List String) : arraysAreEqual a b = true ↔ a = b := by
  constructor
  · intro h
    simp only [arraysAreEqual, Bool.and_eq_true, beq_iff_eq, List.all_eq_true] at h
    obtain ⟨hlen, hall⟩ := h
    apply List.ext_getElem? 
    intro n
    by_cases hn : n < a.length
    · have hmem : (n, a[n]) ∈ a.enum := by
        rw [List.mem_enum_iff_getElem?]
        simp [hn]
      have := hall _ hmem
      simp only at this
      rw [← this]
      simp [hn]
    · have hn' : ¬ n < b.length := hlen ▸ hn
      simp [List.getElem?_eq_none, Nat.le_of_not_lt hn, Nat.le_of_not_lt hn']
  · rintro rfl
    simp only [arraysAreEqual, Bool.and_eq_true, beq_iff_eq, List.all_eq_true, true_and]
    intro p hp
    rw [List.mem_enum_iff_getElem?] at hp
    simp [hp]

/-- A running product started at `init` is `init` times the product started at 1. -/
theorem foldl_mul_init {α : Type} (g : α → ℚ) :
    ∀ (l : List α) (init : ℚ),
      l.foldl (fun acc f => acc * g f) init = init * l.foldl (fun acc f => acc * g f) 1
  | [], init => by simp
  | a :: l, init => by
    simp only [List.foldl_cons]
    rw [foldl_mul_init g l (init * g a), foldl_mul_init g l (1 * g a)]
    ring

/-- The loop over the compatible captain effects, when every captain whose hit modifiers are `M` has a `hitAtk`: each entry is scaled by the `hitAtk` of exactly those captains. -/
theorem compatFold_eq (s : State) (M : List String) :
    ∀ (as : List Ability) (d : List DamageEntry),
      (∀ a ∈ as, a.hitModifiers = some M → a.hitAtk ≠ none) →
      (as.filterMap fun x => x.hitModifiers.map fun m => (m, x.hitAtk)).foldlM
          (applyCompatibleEffect s M) d =
        Except.ok (d.mapIdx fun n x =>
          { x with damage := hitAtkProduct s as M x.unit.unit n x.damage })
  | [], d, _ => by
    have : (d.mapIdx fun n x =>
        ({ x with damage := hitAtkProduct s [] M x.unit.unit n x.damage } : DamageEntry)) = d := by
      rw [List.mapIdx_eq_iff]
      intro i
      cases d[i]? <;> simp [hitAtkProduct]
    simp [this, pure, Except.pure]
  | a :: as, d, h => by
    have hrest : ∀ a' ∈ as, a'.hitModifiers = some M → a'.hitAtk ≠ none :=
      fun a' ha' => h a' (List.mem_cons_of_mem _ ha')
    cases hm : a.hitModifiers with
    | none =>
      have ih := compatFold_eq s M as d hrest
      simpa [List.filterMap_cons, hm, hitAtkProduct, List.filter_cons] using ih
    | some m =>
      by_cases hmM : m = M
      · subst hmM
        obtain ⟨f, hf⟩ := Option.ne_none_iff_exists'.mp (h a (List.mem_cons_self _ _) hm)
        have ih := compatFold_eq s m as
          (d.mapIdx fun n x =>
            { x with damage := x.damage * f x.unit.unit n s.currentHP s.maxHP s.percHP none })
          hrest
        have heq : arraysAreEqual m m = true := (arraysAreEqual_iff m m).mpr rfl
        simp only [List.filterMap_cons, hm, Option.map_some', List.foldlM_cons,
          applyCompatibleEffect, heq, if_true, hf, applyCaptainEffectToDamage_some, bind,
          Except.bind]
        rw [ih, List.mapIdx_mapIdx]
        simp only [hitAtkProduct, List.filter_cons, hm, hf, decide_True, if_true,
          List.filterMap_cons, List.foldl_cons]
        rfl
      · have ih := compatFold_eq s M as d hrest
        have hne : arraysAreEqual M m = false := by
          rw [Bool.eq_false_iff]
          intro hc
          exact hmM ((arraysAreEqual_iff M m).mp hc).symm
        have hne' : ¬ (some m = some M) := fun hc => hmM (Option.some.inj hc)
        simp only [List.filterMap_cons, hm, Option.map_some', List.foldlM_cons,
          applyCompatibleEffect, hne, bind, Except.bind, pure, Except.pure]
        simpa [hitAtkProduct, List.filter_cons, hm, hmM] using ih

/-- On one of the four hit modifiers `computeDamageOfUnit` returns a number. -/
theorem computeDamageOfUnit_isSome (s : State) (unit : UnitData) (atk : ℚ) (h : String)
    (hh : h ∈ hitKinds) : ∃ v, computeDamageOfUnit s unit atk (some h) = some v := by
  simp only [hitKinds, List.mem_cons, List.mem_singleton, List.not_mem_nil, or_false] at hh
  rcases hh with rfl | rfl | rfl | rfl <;> simp [computeDamageOfUnit]

/-- Running `chainLoop` from position `n` with chain multiplier `c`: lengths are kept. -/
theorem chainLoop_length (s : State) (M : List String) (cs : List CaptainFn) :
    ∀ (l : List DamageEntry) (n : Nat) (c : ℚ),
      (chainLoop s M cs n c l).1.length = l.length ∧
      (chainLoop s M cs n c l).2.length = l.length
  | [], _, _ => by simp [chainLoop]
  | x :: rest, n, c => by
    have ih := chainLoop_length s M cs rest (n + 1)
      (getChainMultiplier c M[n]? (chainModifierProduct s cs x.unit.unit n M[n]?))
    simp [chainLoop, ih.1, ih.2]

/-- Running `chainLoop` from position `n` with chain multiplier `c`: the entry at offset `k` is
computed with the multiplier recorded at offset `k`, the first recorded multiplier is `c`, and
the next one is obtained by `getChainMultiplier`. -/
theorem chainLoop_get (s : State) (M : List String) (cs : List CaptainFn) :
    ∀ (l : List DamageEntry) (n : Nat) (c : ℚ) (k : Nat) (x : DamageEntry),
      l[k]? = some x →
      ∃ ck, (chainLoop s M cs n c l).2[k]? = some ck ∧
        (chainLoop s M cs n c l).1[k]? =
          some { unit := x.unit
                 damage := computeDamageOfUnit s x.unit.unit (x.damage * ck) M[n + k]?
                 order := x.order } ∧
        (k = 0 → ck = c) ∧
        (k + 1 < l.length →
          (chainLoop s M cs n c l).2[k + 1]? =
            some (getChainMultiplier ck M[n + k]?
              (chainModifierProduct s cs x.unit.unit (n + k) M[n + k]?)))
  | [], _, _, _, _, h => by simp at h
  | y :: rest, n, c, 0, x, h => by
    have hx : y = x := by simpa using h
    subst hx
    refine ⟨c, by simp [chainLoop], by simp [chainLoop], fun _ => rfl, ?_⟩
    intro hlen
    cases rest with
    | nil => simp at hlen
    | cons z rest2 => simp [chainLoop]
  | y :: rest, n, c, k + 1, x, h => by
    have hx : rest[k]? = some x := by simpa using h
    obtain ⟨ck, h1, h2, _, h4⟩ := chainLoop_get s M cs rest (n + 1)
      (getChainMultiplier c M[n]? (chainModifierProduct s cs y.unit.unit n M[n]?)) k x hx
    have e : n + 1 + k = n + (k + 1) := by omega
    rw [e] at h2 h4
    refine ⟨ck, by simpa [chainLoop] using h1, by simpa [chainLoop] using h2, by simp, ?_⟩
    intro hlen
    have hlen2 : k + 1 < rest.length := by simpa using hlen
    simpa [chainLoop] using h4 hlen2

/-- When every position of the run carries one of the four hit modifiers, the sum of the hit damages is a number. -/
theorem chainLoop_overall (s : State) (M : List String) (cs : List CaptainFn) :
    ∀ (l : List DamageEntry) (n : Nat) (c acc : ℚ),
      (∀ k, k < l.length → ∃ h ∈ hitKinds, M[n + k]? = some h) →
      ∃ t, (chainLoop s M cs n c l).1.foldl
        (fun prev x => prev.bind fun p => x.damage.map fun d => p + d) (some acc) = some t
  | [], _, _, acc, _ => ⟨acc, by simp [chainLoop]⟩
  | x :: rest, n, c, acc, h => by
    obtain ⟨hit, hmem, hhit⟩ := h 0 (by simp)
    rw [Nat.add_zero] at hhit
    obtain ⟨v, hv⟩ := computeDamageOfUnit_isSome s x.unit.unit (x.damage * c) hit hmem
    have hrest : ∀ k, k < rest.length → ∃ h ∈ hitKinds, M[n + 1 + k]? = some h := by
      intro k hk
      have := h (k + 1) (by simpa using hk)
      rwa [show n + (k + 1) = n + 1 + k by omega] at this
    obtain ⟨t, ht⟩ := chainLoop_overall s M cs rest (n + 1)
      (getChainMultiplier c M[n]? (chainModifierProduct s cs x.unit.unit n M[n]?)) (acc + v) hrest
    refine ⟨t, ?_⟩
    simpa [chainLoop, hhit, hv] using ht

/-- The loop over numeric totals ends with the greatest of them in `currentMax`, and with `index` either untouched (every later total is strictly below the starting one) or at the last position that reaches the greatest total. -/
theorem maxLoop_spec :
    ∀ (rest : List Scenario) (i idx : Nat) (cur : ℚ),
      (∀ d ∈ rest, ∃ t, d.overall = some t) →
      ∃ v, (maxLoop rest i idx (some cur)).2 = some v ∧ cur ≤ v ∧
        (∀ d ∈ rest, ∀ t, d.overall = some t → t ≤ v) ∧
        (((maxLoop rest i idx (some cur)).1 = idx ∧ v = cur ∧
            ∀ d ∈ rest, ∀ t, d.overall = some t → t < cur) ∨
          ∃ j d, (maxLoop rest i idx (some cur)).1 = i + j ∧ rest[j]? = some d ∧
            d.overall = some v ∧
            ∀ k d', j < k → rest[k]? = some d' → ∀ t, d'.overall = some t → t < v)
  | [], i, idx, cur, _ => ⟨cur, by simp [maxLoop]⟩
  | d :: rest, i, idx, cur, h => by
    obtain ⟨t, ht⟩ := h d (List.mem_cons_self _ _)
    have hrest : ∀ d' ∈ rest, ∃ t, d'.overall = some t :=
      fun d' hd' => h d' (List.mem_cons_of_mem _ hd')
    by_cases hlt : t < cur
    · have hstep : maxLoop (d :: rest) i idx (some cur) = maxLoop rest (i + 1) idx (some cur) := by
        simp [maxLoop, jsLt, ht, hlt]
      obtain ⟨v, h1, h2, h3, h4⟩ := maxLoop_spec rest (i + 1) idx cur hrest
      rw [hstep]
      refine ⟨v, h1, h2, ?_, ?_⟩
      · intro d' hd' t' ht'
        rcases List.mem_cons.mp hd' with rfl | hd'
        · rw [ht] at ht'
          cases ht'
          exact le_trans hlt.le h2
        · exact h3 d' hd' t' ht'
      · rcases h4 with ⟨g1, g2, g3⟩ | ⟨j, dj, g1, g2, g3, g4⟩
        · left
          refine ⟨g1, g2, ?_⟩
          intro d' hd' t' ht'
          rcases List.mem_cons.mp hd' with rfl | hd'
          · rw [ht] at ht'
            cases ht'
            exact hlt
          · exact g3 d' hd' t' ht'
        · right
          refine ⟨j + 1, dj, by omega, by simpa using g2, g3, ?_⟩
          intro k d' hk hd' t' ht'
          obtain ⟨k', rfl⟩ : ∃ k', k = k' + 1 := ⟨k - 1, by omega⟩
          exact g4 k' d' (by omega) (by simpa using hd') t' ht'
    · have hle : cur ≤ t := not_lt.mp hlt
      have hstep : maxLoop (d :: rest) i idx (some cur) = maxLoop rest (i + 1) i (some t) := by
        simp [maxLoop, jsLt, ht, hlt]
      obtain ⟨v, h1, h2, h3, h4⟩ := maxLoop_spec rest (i + 1) i t hrest
      rw [hstep]
      refine ⟨v, h1, le_trans hle h2, ?_, ?_⟩
      · intro d' hd' t' ht'
        rcases List.mem_cons.mp hd' with rfl | hd'
        · rw [ht] at ht'
          cases ht'
          exact h2
        · exact h3 d' hd' t' ht'
      · right
        rcases h4 with ⟨g1, g2, g3⟩ | ⟨j, dj, g1, g2, g3, g4⟩
        · refine ⟨0, d, by simpa using g1, by simp, by rw [ht, g2], ?_⟩
          intro k d' hk hd' t' ht'
          obtain ⟨k', rfl⟩ : ∃ k', k = k' + 1 := ⟨k - 1, by omega⟩
          rw [g2]
          exact g3 d' (List.getElem?_mem (by simpa using hd')) t' ht'
        · refine ⟨j + 1, dj, by omega, by simpa using g2, g3, ?_⟩
          intro k d' hk hd' t' ht'
          obtain ⟨k', rfl⟩ : ∃ k', k = k' + 1 := ⟨k - 1, by omega⟩
          exact g4 k' d' (by omega) (by simpa using hd') t' ht'

/-- The loop over numeric totals started on `data[0]`: it ends with the greatest total in
`currentMax` and with `index` at the last scenario that reaches it. -/
theorem maxLoop_select (d0 : Scenario) (rest : List Scenario)
    (hnum : ∀ d ∈ d0 :: rest, ∃ t, d.overall = some t) :
    ∃ index best v,
      maxLoop rest 1 0 d0.overall = (index, some v) ∧
      (d0 :: rest)[index]? = some best ∧ best.overall = some v ∧
      ∀ (j : Nat) (d : Scenario), (d0 :: rest)[j]? = some d →
        ∃ t, d.overall = some t ∧ t ≤ v ∧ (index < j → t < v) := by
  obtain ⟨t0, ht0⟩ := hnum d0 (List.mem_cons_self _ _)
  have hrestnum : ∀ d ∈ rest, ∃ t, d.overall = some t :=
    fun d hd => hnum d (List.mem_cons_of_mem _ hd)
  obtain ⟨v, h1, h2, h3, h4⟩ := maxLoop_spec rest 1 0 t0 hrestnum
  have hall : ∀ (j : Nat) (d : Scenario), (d0 :: rest)[j]? = some d →
      ∃ t, d.overall = some t ∧ t ≤ v := by
    intro j d hj
    cases j with
    | zero =>
      have : d0 = d := by simpa using hj
      subst this
      exact ⟨t0, ht0, h2⟩
    | succ j =>
      have hmem : d ∈ rest := List.getElem?_mem (by simpa using hj)
      obtain ⟨t, ht⟩ := hrestnum d hmem
      exact ⟨t, ht, h3 d hmem t ht⟩
  rcases h4 with ⟨g1, g2, g3⟩ | ⟨j, dj, g1, g2, g3, g4⟩
  · refine ⟨0, d0, v, ?_, by simp, ?_, ?_⟩
    · rw [ht0]
      exact Prod.ext g1 h1
    · rw [ht0, g2]
    · intro k d hk
      obtain ⟨t, ht, hle⟩ := hall k d hk
      refine ⟨t, ht, hle, ?_⟩
      intro hpos
      obtain ⟨k', rfl⟩ : ∃ k', k = k' + 1 := ⟨k - 1, by omega⟩
      rw [g2]
      exact g3 d (List.getElem?_mem (by simpa using hk)) t ht
  · refine ⟨1 + j, dj, v, ?_, ?_, g3, ?_⟩
    · rw [ht0]
      exact Prod.ext g1 h1
    · rw [show 1 + j = j + 1 by omega]
      simpa using g2
    · intro k d hk
      obtain ⟨t, ht, hle⟩ := hall k d hk
      refine ⟨t, ht, hle, ?_⟩
      intro hpos
      obtain ⟨k', rfl⟩ : ∃ k', k = k' + 1 := ⟨k - 1, by omega⟩
      exact g4 k' d (by omega) (by simpa using hk) t ht

/-- What the data contract says of a captain with hit modifiers. -/
theorem wellFormed_ability (s : State) (hwf : wellFormed s = true) (a : Ability)
    (ha : a ∈ abilities s) (m : List String) (hm : a.hitModifiers = some m) :
    a.hitAtk ≠ none ∧ m.length = 6 ∧ ∀ h ∈ m, h ∈ hitKinds := by
  simp only [wellFormed, Bool.and_eq_true, List.all_eq_true] at hwf
  have h := hwf.2 a ha
  simp only [wellFormedAbility, hm, Bool.and_eq_true, beq_iff_eq, List.all_eq_true] at h
  refine ⟨?_, h.1.2, fun x hx => by simpa using h.2 x hx⟩
  intro hnone
  rw [hnone] at h
  simp at h

/-- A six-element array of known hit modifiers has a known hit modifier at each of the six positions. -/
theorem known_at (M : List String) (hlen : M.length = 6) (hall : ∀ h ∈ M, h ∈ hitKinds)
    (k : Nat) (hk : k < 6) : ∃ h ∈ hitKinds, M[k]? = some h := by
  have hk' : k < M.length := by omega
  exact ⟨M[k], hall _ (List.getElem_mem _), List.getElem?_eq_getElem hk'⟩

/-- Scoring a scenario under the data contract yields a scenario with a numeric total. -/
theorem scoreScenario_ok (s : State) (damage : List DamageEntry) (M : List String)
    (hcompat : ∀ a ∈ abilities s, a.hitModifiers = some M → a.hitAtk ≠ none)
    (hM : ∀ k, k < damage.length → ∃ h ∈ hitKinds, M[k]? = some h) :
    ∃ d t, scoreScenario s damage M = .ok d ∧ d.overall = some t ∧ d.hitModifiers = M := by
  have hfold := compatFold_eq s M (abilities s) damage hcompat
  obtain ⟨t, ht⟩ := chainLoop_overall s M (captainsWithChainModifiers s)
    (damage.mapIdx fun n x =>
      { x with damage := hitAtkProduct s (abilities s) M x.unit.unit n x.damage }) 0 1 0
    (by
      intro k hk
      rw [Nat.zero_add]
      exact hM k (by simpa using hk))
  have hscore : scoreScenario s damage M = .ok
      { damage := applyChainAndBonusMultipliers s
          (damage.mapIdx fun n x =>
            { x with damage := hitAtkProduct s (abilities s) M x.unit.unit n x.damage })
          M (captainsWithChainModifiers s)
        overall := overallDamage (applyChainAndBonusMultipliers s
          (damage.mapIdx fun n x =>
            { x with damage := hitAtkProduct s (abilities s) M x.unit.unit n x.damage })
          M (captainsWithChainModifiers s)).result
        hitModifiers := M } := by
    simp only [scoreScenario, applyCompatibleEffects, captainsWithHitModifiers, hfold, bind,
      Except.bind, pure, Except.pure]
  exact ⟨_, t, hscore, by simpa [overallDamage, applyChainAndBonusMultipliers] using ht, rfl⟩

/-- Scoring the captains' scenarios one after the other succeeds when each one does. -/
theorem mapM_scoreScenario_ok (s : State) (damage : List DamageEntry) :
    ∀ (cs : List (List String × Option CaptainFn)),
      (∀ c ∈ cs, ∃ d t, scoreScenario s damage c.1 = .ok d ∧ d.overall = some t ∧
        d.hitModifiers = c.1) →
      ∃ rest, cs.mapM (fun c => scoreScenario s damage c.1) = .ok rest ∧
        List.Forall₂ (fun c d => scoreScenario s damage c.1 = .ok d) cs rest ∧
        ∀ d ∈ rest, ∃ t, d.overall = some t
  | [], _ => ⟨[], rfl, List.Forall₂.nil, by simp⟩
  | c :: cs, h => by
    obtain ⟨d, t, h1, h2, _⟩ := h c (List.mem_cons_self _ _)
    obtain ⟨rest, g1, g2, g3⟩ := mapM_scoreScenario_ok s damage cs
      (fun c' hc' => h c' (List.mem_cons_of_mem _ hc'))
    refine ⟨d :: rest, ?_, List.Forall₂.cons h1 g2, ?_⟩
    · rw [List.mapM_cons, h1, g1]
      rfl
    · intro d' hd'
      rcases List.mem_cons.mp hd' with rfl | hd'
      · exact ⟨t, h2⟩
      · exact g3 d' hd'

/-- The scenario search on a state that meets the data contract: every candidate is scored to
a number, and the loop leaves in `index` the last scenario that reaches the greatest total. -/
theorem scenarioSearch_spec (s : State) (type : String) (hwf : wellFormed s = true) :
    ∃ damage d0 rest index best v,
      staticDamage s type = .ok damage ∧
      scoreScenario s damage DEFAULT_HIT_MODIFIERS = .ok d0 ∧
      List.Forall₂ (fun c d => scoreScenario s damage c.1 = .ok d)
        (captainsWithHitModifiers s) rest ∧
      scoreScenarios s damage = .ok (d0, rest) ∧
      maxLoop rest 1 0 d0.overall = (index, some v) ∧
      (d0 :: rest)[index]? = some best ∧ best.overall = some v ∧
      ∀ (j : Nat) (d : Scenario), (d0 :: rest)[j]? = some d →
        ∃ t, d.overall = some t ∧ t ≤ v ∧ (index < j → t < v) := by
  obtain ⟨damage, hdamage, hlen⟩ := staticDamage_ok s type
  have hteam : s.team.length = 6 := by
    simp only [wellFormed, Bool.and_eq_true, beq_iff_eq] at hwf
    exact hwf.1
  have hlen6 : damage.length ≤ 6 := by
    rw [hlen, ← hteam]
    exact teamDamage_length_le s type
  have hscore : ∀ M, M.length = 6 → (∀ h ∈ M, h ∈ hitKinds) →
      ∃ d t, scoreScenario s damage M = .ok d ∧ d.overall = some t ∧ d.hitModifiers = M := by
    intro M hM6 hMall
    apply scoreScenario_ok
    · intro a ha hm
      exact (wellFormed_ability s hwf a ha M hm).1
    · intro k hk
      exact known_at M hM6 hMall k (by omega)
  obtain ⟨d0, t0, hd0, ht0, _⟩ := hscore DEFAULT_HIT_MODIFIERS rfl
    (by simp [DEFAULT_HIT_MODIFIERS, hitKinds])
  obtain ⟨rest, hrest, hforall, hnum⟩ := mapM_scoreScenario_ok s damage
    (captainsWithHitModifiers s) (by
      intro c hc
      simp only [captainsWithHitModifiers, List.mem_filterMap] at hc
      obtain ⟨a, ha, hc⟩ := hc
      cases hm : a.hitModifiers with
      | none => simp [hm] at hc
      | some m =>
        simp only [hm, Option.map_some', Option.some.injEq] at hc
        subst hc
        obtain ⟨_, h6, hall⟩ := wellFormed_ability s hwf a ha m hm
        exact hscore m h6 hall)
  have hdata : scoreScenarios s damage = .ok (d0, rest) := by
    simp only [scoreScenarios, hd0, hrest, bind, Except.bind, pure, Except.pure]
  have hnum' : ∀ d ∈ d0 :: rest, ∃ t, d.overall = some t := by
    intro d hd
    rcases List.mem_cons.mp hd with rfl | hd
    · exact ⟨t0, ht0⟩
    · exact hnum d hd
  obtain ⟨index, best, v, g1, g2, g3, g4⟩ := maxLoop_select d0 rest hnum'
  exact ⟨damage, d0, rest, index, best, v, hdamage, hd0, hforall, hdata, g1, g2, g3, g4⟩

theorem getOrbMultiplierOfUnit_eq (s : State) (x : Slot) :
    getOrbMultiplierOfUnit s x = specOrbMultiplier s x := by
  obtain ⟨team, ⟨c0, c1⟩, m, chp, mhp, php, en, d⟩ := s
  cases c0 with
  | none =>
    cases c1 with
    | none => simp [getOrbMultiplierOfUnit, specOrbMultiplier, abilities]
    | some b =>
      cases hb : b.orb <;> simp [getOrbMultiplierOfUnit, specOrbMultiplier, abilities, hb]
  | some a =>
    cases ha : a.orb with
    | some f => simp [getOrbMultiplierOfUnit, specOrbMultiplier, abilities, ha]
    | none =>
      cases c1 with
      | none => simp [getOrbMultiplierOfUnit, specOrbMultiplier, abilities, ha]
      | some b =>
        cases hb : b.orb <;> simp [getOrbMultiplierOfUnit, specOrbMultiplier, abilities, ha, hb]

theorem applyCaptainEffectsToHP_eq (s : State) (x : Slot) (hp : ℚ) :
    applyCaptainEffectsToHP s x hp = hp * hpProduct s x.unit := by
  obtain ⟨team, ⟨c0, c1⟩, m, chp, mhp, php, en, d⟩ := s
  cases c0 with
  | none =>
    cases c1 with
    | none => simp [applyCaptainEffectsToHP, hpProduct, abilities]
    | some b =>
      cases hb : b.hp <;> simp [applyCaptainEffectsToHP, hpProduct, abilities, hb]
  | some a =>
    cases ha : a.hp <;> cases c1 with
    | none => simp [applyCaptainEffectsToHP, hpProduct, abilities, ha]
    | some b =>
      cases hb : b.hp <;> simp [applyCaptainEffectsToHP, hpProduct, abilities, ha, hb] <;> ring

theorem getHpOfUnit_eq_specHp (x : Slot) (k : ℕ) (hk : 1 ≤ k) (hlevel : x.unit.maxLevel = k) :
    getHpOfUnit x = specHp x := by
  have hdiv : (if x.unit.maxLevel = 1 then (1 : ℚ) else x.unit.maxLevel - 1) =
      max 1 (x.unit.maxLevel - 1) := by
    rw [hlevel]
    by_cases h1 : k = 1
    · subst h1
      simp
    · have h2 : 2 ≤ k := by omega
      have h2' : (2 : ℚ) ≤ (k : ℚ) := by exact_mod_cast h2
      have hne : ¬ ((k : ℚ) = 1) := by
        intro hc
        exact h1 (by exact_mod_cast hc)
      rw [if_neg hne, max_eq_right (by linarith)]
  simp only [getHpOfUnit, specHp, hdiv]

theorem foldl_addHpOfSlot (s : State) :
    ∀ (l : List (Option Slot)) (a : ℚ),
      l.foldl (addHpOfSlot s) a =
        a + ((l.filterMap id).map fun x => applyCaptainEffectsToHP s x (getHpOfUnit x)).sum
  | [], a => by simp
  | none :: l, a => by simpa [addHpOfSlot] using foldl_addHpOfSlot s l a
  | some x :: l, a => by
    simp only [List.foldl_cons, List.filterMap_cons, id, List.map_cons, List.sum_cons,
      addHpOfSlot]
    rw [foldl_addHpOfSlot s l (a + applyCaptainEffectsToHP s x (getHpOfUnit x))]
    ring

theorem teamHP_eq (s : State)
    (htype : ∀ x ∈ occupiedSlots s, ∃ k : ℕ, 1 ≤ k ∧ x.unit.maxLevel = k) :
    teamHP s = specTeamHP s := by
  have hmap : (s.team.filterMap id).map (fun x => applyCaptainEffectsToHP s x (getHpOfUnit x)) =
      (occupiedSlots s).map fun x => (specHp x : ℚ) * hpProduct s x.unit := by
    apply List.map_congr_left
    intro x hx
    obtain ⟨k, hk, hlevel⟩ := htype x hx
    rw [applyCaptainEffectsToHP_eq, getHpOfUnit_eq_specHp x k hk hlevel]
  simp only [teamHP, specTeamHP]
  rw [foldl_addHpOfSlot, hmap, zero_add]

theorem crunchForType_of_scores (s : State) (type : String) (withDetails : Bool)
    (damage : List DamageEntry) (d0 : Scenario) (rest : List Scenario)
    (hdamage : staticDamage s type = .ok damage)
    (hdata : scoreScenarios s damage = .ok (d0, rest)) :
    crunchForType s type withDetails =
      .ok (if !withDetails then .summary (maxLoop rest 1 0 d0.overall).2
        else
          .details
            { modifiers :=
                ((d0 :: rest).getD (maxLoop rest 1 0 d0.overall).1 d0).hitModifiers
              multipliers :=
                ((d0 :: rest).getD (maxLoop rest 1 0 d0.overall).1 d0).damage.chainMultipliers
              order :=
                ((d0 :: rest).getD (maxLoop rest 1 0 d0.overall).1 d0).damage.result }) := by
  cases withDetails <;>
    simp [crunchForType, hdamage, hdata, bind, Except.bind, pure, Except.pure]

theorem enumFrom_filterMap_units (f : Nat → Slot → ℚ) :
    ∀ (l : List (Option Slot)) (k : Nat),
      ((l.enumFrom k).filterMap fun p =>
        p.2.map fun x => ({ unit := x, damage := f p.1 x, order := p.1 } : DamageEntry)).map
          (·.unit) = l.filterMap id
  | [], _ => by simp
  | none :: l, k => by simpa using enumFrom_filterMap_units f l (k + 1)
  | some x :: l, k => by simpa using enumFrom_filterMap_units f l (k + 1)

theorem teamDamage_units (s : State) (type : String) :
    (teamDamage s type).map (·.unit) = occupiedSlots s := by
  unfold teamDamage occupiedSlots List.enum
  exact enumFrom_filterMap_units
    (fun _ x => getAttackOfUnit x * getOrbMultiplierOfUnit s x *
      getTypeMultiplierOfUnit x type * s.merryBonus) s.team 0

theorem staticDamage_nil (s : State) (type : String) (hempty : occupiedSlots s = []) :
    staticDamage s type = .ok [] := by
  obtain ⟨d, hd, hlen⟩ := staticDamage_ok s type
  have h0 : (teamDamage s type).length = 0 := by
    rw [← List.length_map (teamDamage s type) (·.unit), teamDamage_units, hempty]
    rfl
  rw [h0] at hlen
  rw [hd, List.length_eq_zero.mp hlen]

theorem applyCompatibleEffects_nil (s : State) (M : List String) :
    ∀ (cs : List (List String × Option CaptainFn)), applyCompatibleEffects s M cs [] = .ok []
  | [] => rfl
  | c :: cs => by
    have ih := applyCompatibleEffects_nil s M cs
    unfold applyCompatibleEffects at ih ⊢
    have hstep : applyCompatibleEffect s M [] c = .ok [] := by
      unfold applyCompatibleEffect
      split
      · cases hc : c.2 <;> simp [applyCaptainEffectToDamage]
      · rfl
    simp only [List.foldlM_cons, hstep, bind, Except.bind]
    exact ih

theorem scoreScenario_nil (s : State) (M : List String) :
    scoreScenario s [] M =
      .ok { damage := { result := [], chainMultipliers := [] }
            overall := some 0
            hitModifiers := M } := by
  simp [scoreScenario, applyCompatibleEffects_nil, applyChainAndBonusMultipliers, chainLoop,
    overallDamage, bind, Except.bind, pure, Except.pure]

theorem crunchForType_empty (s : State) (type : String) (hempty : occupiedSlots s = []) :
    ∃ v, crunchForType s type false = .ok (.summary v) := by
  obtain ⟨rest, hrest, _, _⟩ := mapM_scoreScenario_ok s [] (captainsWithHitModifiers s)
    (fun c _ => ⟨_, 0, scoreScenario_nil s c.1, rfl, rfl⟩)
  have hdata : scoreScenarios s [] =
      .ok ({ damage := { result := [], chainMultipliers := [] }
             overall := some 0
             hitModifiers := DEFAULT_HIT_MODIFIERS }, rest) := by
    unfold scoreScenarios
    rw [hrest, scoreScenario_nil]
    rfl
  exact ⟨_, crunchForType_of_scores s type false [] _ rest (staticDamage_nil s type hempty) hdata⟩

theorem crunchForType_wellFormed (s : State) (type : String) (hwf : wellFormed s = true) :
    ∃ v, crunchForType s type false = .ok (.summary v) := by
  obtain ⟨damage, d0, rest, _, _, _, h1, _, _, h4, _⟩ := scenarioSearch_spec s type hwf
  exact ⟨_, crunchForType_of_scores s type false damage d0 rest h1 h4⟩

theorem fullRecompute_HP (s : State) (r : Consolidated) (h : fullRecompute s = .ok r) :
    r.HP = teamHP s := by
  unfold fullRecompute at h
  cases h1 : crunchForType s "STR" false <;> cases h2 : crunchForType s "QCK" false <;>
    cases h3 : crunchForType s "DEX" false <;> cases h4 : crunchForType s "PSY" false <;>
    cases h5 : crunchForType s "INT" false <;>
    simp [h1, h2, h3, h4, h5, bind, Except.bind, pure, Except.pure] at h
  rw [← h]

theorem fullRecompute_ok (s : State)
    (h : ∀ type, ∃ v, crunchForType s type false = .ok (.summary v)) :
    ∃ r, fullRecompute s = .ok r := by
  obtain ⟨v1, h1⟩ := h "STR"
  obtain ⟨v2, h2⟩ := h "QCK"
  obtain ⟨v3, h3⟩ := h "DEX"
  obtain ⟨v4, h4⟩ := h "PSY"
  obtain ⟨v5, h5⟩ := h "INT"
  exact ⟨{ STR := .summary v1, QCK := .summary v2, DEX := .summary v3, PSY := .summary v4,
           INT := .summary v5, HP := teamHP s },
    by simp [fullRecompute, h1, h2, h3, h4, h5, bind, Except.bind, pure, Except.pure]⟩

theorem crunch_some (s : State) (r : Consolidated) :
    crunch s = .ok (some r) ↔ s.crunchingEnabled = true ∧ fullRecompute s = .ok r := by
  unfold crunch
  cases hen : s.crunchingEnabled <;> cases hr : fullRecompute s <;>
    simp [Except.map, pure, Except.pure]

theorem crunchOutcome_state (s : State) : (crunchOutcome s).state = s := by
  unfold crunchOutcome
  split <;> rfl

theorem length_six {α : Type} (l : List α) (h : l.length = 6) :
    ∃ a b c d e f, l = [a, b, c, d, e, f] := by
  match l, h with
  | [a, b, c, d, e, f], _ => exact ⟨a, b, c, d, e, f, rfl⟩

theorem setCaptain_zero (env : Env) (s : State) :
    setCaptain env s 0 =
      { s with captainAbilities := (derivedAbility env s.team[0]?.join, s.captainAbilities.2) } := by
  unfold setCaptain derivedAbility
  cases h : s.team[0]?.join with
  | none => simp
  | some x => cases h2 : env.captains (x.unit.number + 1) <;> simp [h2]

theorem setCaptain_one (env : Env) (s : State) :
    setCaptain env s 1 =
      { s with captainAbilities := (s.captainAbilities.1, derivedAbility env s.team[1]?.join) } := by
  unfold setCaptain derivedAbility
  cases h : s.team[1]?.join with
  | none => simp
  | some x => cases h2 : env.captains (x.unit.number + 1) <;> simp [h2]

theorem dispatch_captainsDerived (env : Env) (s : State) (ev : Event)
    (hs : captainsDerived env s) (hev : slotsInRange ev = true) :
    captainsDerived env (dispatch env s ev).state := by
  obtain ⟨team, ⟨c0, c1⟩, m, chp, mhp, php, en, d⟩ := s
  obtain ⟨hlen, h0, h1⟩ := hs
  simp only at hlen h0 h1
  obtain ⟨t0, t1, t2, t3, t4, t5, rfl⟩ := length_six team hlen
  simp only [List.getElem?_cons_zero, List.getElem?_cons_succ, Option.join] at h0 h1
  subst h0 h1
  cases ev with
  | unitPicked slotNumber unitNumber =>
    simp only [slotsInRange, decide_eq_true_eq] at hev
    simp only [dispatch, onUnitPick, crunchOutcome_state]
    interval_cases slotNumber <;>
      simp [captainsDerived, setCaptain_zero, setCaptain_one]
  | unitLevelChanged slotNumber level =>
    simp only [slotsInRange, decide_eq_true_eq] at hev
    simp only [dispatch, onLevelChange]
    interval_cases slotNumber <;> simp only [List.getElem?_cons_zero, List.getElem?_cons_succ] <;>
      split <;> simp_all [captainsDerived, crunchOutcome_state, derivedAbility]
  | merryBonusUpdated bonus =>
    simp [dispatch, onMerryChange, crunchOutcome_state, captainsDerived]
  | hpChanged current max perc =>
    simp [dispatch, onHpChange, crunchOutcome_state, captainsDerived]
  | defenseChanged value =>
    simp [dispatch, onDefenseChanged, crunchOutcome_state, captainsDerived]
  | crunchingToggled enabled =>
    cases enabled <;> simp [dispatch, onCrunchToggled, crunchOutcome_state, captainsDerived]
  | orbMultiplierChanged slotNumber multiplier =>
    simp only [slotsInRange, decide_eq_true_eq] at hev
    simp only [dispatch, onOrbMultiplierChanged]
    interval_cases slotNumber <;> simp only [List.getElem?_cons_zero, List.getElem?_cons_succ] <;>
      split <;> simp_all [captainsDerived, crunchOutcome_state, derivedAbility]
  | unitsSwitched slotA slotB =>
    simp only [slotsInRange, Bool.and_eq_true, decide_eq_true_eq] at hev
    obtain ⟨hA, hB⟩ := hev
    simp only [dispatch, onUnitsSwitched, crunchOutcome_state]
    interval_cases slotA <;> interval_cases slotB <;>
      simp [captainsDerived, setCaptain_zero, setCaptain_one]
  | unitRemoved slotNumber =>
    simp only [slotsInRange, decide_eq_true_eq] at hev
    simp only [dispatch, onUnitRemoved, crunchOutcome_state]
    interval_cases slotNumber <;> simp [captainsDerived, derivedAbility]

theorem run_captainsDerived (env : Env) :
    ∀ (evs : List Event) (s : State), captainsDerived env s →
      (∀ ev ∈ evs, slotsInRange ev = true) → captainsDerived env (run env s evs)
  | [], _, hs, _ => hs
  | ev :: evs, s, hs, hev =>
    run_captainsDerived env evs _
      (dispatch_captainsDerived env s ev hs (hev ev (List.mem_cons_self _ _)))
      (fun ev' h' => hev ev' (List.mem_cons_of_mem _ h'))

/-- When the scoring throws, so does `crunchForType`, with or without details. -/
theorem crunchForType_of_error (s : State) (type : String) (withDetails : Bool)
    (damage : List DamageEntry) (e : String)
    (hdamage : staticDamage s type = .ok damage)
    (hdata : scoreScenarios s damage = .error e) :
    crunchForType s type withDetails = .error e := by
  simp [crunchForType, hdamage, hdata, bind, Except.bind]

/-- The loop keeps `currentMax` equal to the total of `data[index]`. -/
theorem maxLoop_consistent :
    ∀ (rest pre : List Scenario) (idx : Nat) (cur : Option ℚ) (d : Scenario),
      (pre ++ rest)[idx]? = some d → d.overall = cur →
      ∃ d', (pre ++ rest)[(maxLoop rest pre.length idx cur).1]? = some d' ∧
        d'.overall = (maxLoop rest pre.length idx cur).2
  | [], pre, idx, cur, d, h1, h2 => ⟨d, by simpa [maxLoop] using h1, by simpa [maxLoop] using h2⟩
  | x :: rest, pre, idx, cur, d, h1, h2 => by
    have happ : pre ++ x :: rest = (pre ++ [x]) ++ rest := by simp
    have hlen : (pre ++ [x]).length = pre.length + 1 := by simp
    by_cases hlt : jsLt x.overall cur = true
    · have ih := maxLoop_consistent rest (pre ++ [x]) idx cur d (by rw [← happ]; exact h1) h2
      rw [hlen, ← happ] at ih
      simpa [maxLoop, hlt] using ih
    · have hx : ((pre ++ [x]) ++ rest)[pre.length]? = some x := by
        rw [← happ, List.getElem?_append_right (le_refl _)]
        simp
      have ih := maxLoop_consistent rest (pre ++ [x]) pre.length x.overall x hx rfl
      rw [hlen, ← happ] at ih
      simpa [maxLoop, hlt] using ih

/-- A scored scenario carries the hit modifiers it was scored with, and its total is the sum
of its per-unit damages. -/
theorem scoreScenario_fields (s : State) (damage : List DamageEntry) (M : List String)
    (sc : Scenario) (h : scoreScenario s damage M = .ok sc) :
    sc.hitModifiers = M ∧ sc.overall = overallDamage sc.damage.result := by
  unfold scoreScenario at h
  cases hd : applyCompatibleEffects s M (captainsWithHitModifiers s) damage with
  | error e => simp [hd, bind, Except.bind] at h
  | ok d =>
    simp only [hd, bind, Except.bind, pure, Except.pure, Except.ok.injEq] at h
    subst h
    exact ⟨rfl, rfl⟩

/-- A successful `mapM` pairs every input with its result. -/
theorem mapM_ok_forall₂ {α β : Type} (f : α → Except String β) :
    ∀ (cs : List α) (rest : List β), cs.mapM f = .ok rest →
      List.Forall₂ (fun c d => f c = .ok d) cs rest
  | [], rest, h => by
    rw [List.mapM_nil] at h
    cases h
    exact List.Forall₂.nil
  | c :: cs, rest, h => by
    rw [List.mapM_cons] at h
    cases hc : f c with
    | error e =>
      rw [hc] at h
      cases h
    | ok d =>
      cases hcs : cs.mapM f with
      | error e =>
        rw [hc, hcs] at h
        cases h
      | ok ds =>
        rw [hc, hcs] at h
        cases h
        exact List.Forall₂.cons hc (mapM_ok_forall₂ f cs ds hcs)

/-- The scenarios scored by `scoreScenarios` are those of the candidate sequences, in order. -/
theorem scoreScenarios_candidates (s : State) (damage : List DamageEntry) (d0 : Scenario)
    (rest : List Scenario) (h : scoreScenarios s damage = .ok (d0, rest)) :
    List.Forall₂ (fun M d => scoreScenario s damage M = .ok d)
      (DEFAULT_HIT_MODIFIERS :: (captainsWithHitModifiers s).map (·.1)) (d0 :: rest) := by
  unfold scoreScenarios at h
  cases h0 : scoreScenario s damage DEFAULT_HIT_MODIFIERS with
  | error e =>
    rw [h0] at h
    cases h
  | ok x =>
    cases hr : (captainsWithHitModifiers s).mapM (fun c => scoreScenario s damage c.1) with
    | error e =>
      rw [h0, hr] at h
      cases h
    | ok xs =>
      rw [h0, hr] at h
      cases h
      refine List.Forall₂.cons h0 ?_
      rw [List.forall₂_map_left_iff]
      exact mapM_ok_forall₂ _ _ _ hr

/-- Related lists are related position by position. -/
theorem forall₂_getElem_some {α β : Type} (R : α → β → Prop) :
    ∀ (l : List α) (u : List β), List.Forall₂ R l u →
      ∀ (i : Nat) (d : β), u[i]? = some d → ∃ c, l[i]? = some c ∧ R c d
  | [], [], _, i, d, h => by simp at h
  | [], _ :: _, h, _, _, _ => by cases h
  | _ :: _, [], h, _, _, _ => by cases h
  | a :: l, b :: u, hr, 0, d, h => by
    have : b = d := by simpa using h
    subst this
    exact ⟨a, by simp, (List.forall₂_cons.mp hr).1⟩
  | a :: l, b :: u, hr, i + 1, d, h => by
    obtain ⟨c, hc, hR⟩ :=
      forall₂_getElem_some R l u (List.forall₂_cons.mp hr).2 i d (by simpa using h)
    exact ⟨c, by simpa using hc, hR⟩

theorem atkFold_eq (s : State) :
    ∀ (as : List Ability) (d : List DamageEntry),
      as.foldlM (applyStaticAtk s) d =
        Except.ok (d.mapIdx fun n x =>
          { x with damage := atkProduct s as x.unit.unit n x.damage })
  | [], d => by
    have : (d.mapIdx fun n x =>
        ({ x with damage := atkProduct s [] x.unit.unit n x.damage } : DamageEntry)) = d := by
      rw [List.mapIdx_eq_iff]
      intro i
      cases d[i]? <;> simp [atkProduct]
    simp [this, pure, Except.pure]
  | a :: as, d => by
    cases ha : a.atk with
    | none =>
      have ih := atkFold_eq s as d
      simpa [List.foldlM_cons, applyStaticAtk, ha, atkProduct, bind, Except.bind, pure,
        Except.pure] using ih
    | some f =>
      have ih := atkFold_eq s as
        (d.mapIdx fun n x =>
          { x with damage := x.damage * f x.unit.unit n s.currentHP s.maxHP s.percHP none })
      simp only [List.foldlM_cons, applyStaticAtk, ha, applyCaptainEffectToDamage_some, bind,
        Except.bind]
      rw [ih, List.mapIdx_mapIdx]
      simp only [atkProduct, ha, List.filterMap_cons, List.foldl_cons]
      rfl

theorem staticDamage_eq (s : State) (type : String) :
    staticDamage s type =
      .ok ((scaledDamage s type).insertionSort fun x y => x.damage ≤ y.damage) := by
  have hprod : ∀ (n : Nat) (x : DamageEntry),
      atkProduct s (abilities s) x.unit.unit n x.damage =
        x.damage * atkProduct s (abilities s) x.unit.unit n 1 := by
    intro n x
    unfold atkProduct
    exact foldl_mul_init (fun f : CaptainFn => f x.unit.unit n s.currentHP s.maxHP s.percHP none)
      _ _
  simp only [staticDamage, atkFold_eq, hprod, scaledDamage, bind, Except.bind, pure,
    Except.pure]

theorem enumFrom_filterMap_spec (f : Nat → Slot → ℚ) :
    ∀ (l : List (Option Slot)) (k : Nat),
      (∀ e ∈ (l.enumFrom k).filterMap fun p =>
          p.2.map fun x => ({ unit := x, damage := f p.1 x, order := p.1 } : DamageEntry),
        k ≤ e.order ∧ l[e.order - k]? = some (some e.unit)) ∧
      (((l.enumFrom k).filterMap fun p =>
          p.2.map fun x => ({ unit := x, damage := f p.1 x, order := p.1 } : DamageEntry)).map
            (·.order)).Sorted (· < ·)
  | [], _ => by simp
  | none :: l, k => by
    obtain ⟨h1, h2⟩ := enumFrom_filterMap_spec f l (k + 1)
    refine ⟨?_, by simpa using h2⟩
    intro e he
    have := h1 e (by simpa using he)
    refine ⟨by omega, ?_⟩
    rw [show e.order - k = (e.order - (k + 1)) + 1 by omega]
    simpa using this.2
  | some x :: l, k => by
    obtain ⟨h1, h2⟩ := enumFrom_filterMap_spec f l (k + 1)
    constructor
    · intro e he
      simp only [List.enumFrom_cons, List.filterMap_cons, Option.map_some', List.mem_cons] at he
      rcases he with rfl | he
      · simp
      · have := h1 e he
        refine ⟨by omega, ?_⟩
        rw [show e.order - k = (e.order - (k + 1)) + 1 by omega]
        simpa using this.2
    · simp only [List.enumFrom_cons, List.filterMap_cons, Option.map_some', List.map_cons,
        List.sorted_cons]
      refine ⟨?_, h2⟩
      intro b hb
      simp only [List.mem_map] at hb
      obtain ⟨e, he, rfl⟩ := hb
      have := (h1 e he).1
      omega

/-- Every base contribution carries the index of the slot its unit sits in, and the
contributions come in increasing slot order. -/
theorem teamDamage_order (s : State) (type : String) :
    (∀ e ∈ teamDamage s type, s.team[e.order]? = some (some e.unit)) ∧
    ((teamDamage s type).map (·.order)).Sorted (· < ·) := by
  have h := enumFrom_filterMap_spec
    (fun _ x => getAttackOfUnit x * getOrbMultiplierOfUnit s x *
      getTypeMultiplierOfUnit x type * s.merryBonus) s.team 0
  unfold teamDamage List.enum
  exact ⟨fun e he => by simpa using (h.1 e he).2, h.2⟩

/-- Scaling by the captains' `atk` keeps the unit and the slot index of every entry. -/
theorem scaledDamage_fields (s : State) (type : String) :
    (scaledDamage s type).map (·.order) = (teamDamage s type).map (·.order) ∧
    (scaledDamage s type).map (·.unit) = (teamDamage s type).map (·.unit) := by
  constructor <;>
  · apply List.ext_getElem?
    intro i
    simp only [scaledDamage, List.getElem?_map, List.getElem?_mapIdx]
    cases (teamDamage s type)[i]? <;> rfl

/-- The details returned by `crunchForType(type,true)` are the three fields of one scored
candidate scenario. -/
theorem crunchForType_details_candidate (s : State) (type : String) (r : Details)
    (hr : crunchForType s type true = .ok (.details r)) :
    ∃ damage M sc,
      staticDamage s type = .ok damage ∧
      M ∈ DEFAULT_HIT_MODIFIERS :: (captainsWithHitModifiers s).map (·.1) ∧
      scoreScenario s damage M = .ok sc ∧
      r.modifiers = M ∧ r.multipliers = sc.damage.chainMultipliers ∧
      r.order = sc.damage.result := by
  obtain ⟨damage, hdamage, _⟩ := staticDamage_ok s type
  cases hdata : scoreScenarios s damage with
  | error e =>
    rw [crunchForType_of_error s type true damage e hdamage hdata] at hr
    cases hr
  | ok data =>
    obtain ⟨d0, rest⟩ := data
    have ht := crunchForType_of_scores s type true damage d0 rest hdamage hdata
    simp only [Bool.not_true, Bool.false_eq_true, if_false] at ht
    rw [ht] at hr
    simp only [Except.ok.injEq, CrunchResult.details.injEq] at hr
    obtain ⟨d', hd', _⟩ := maxLoop_consistent rest [d0] 0 d0.overall d0 (by simp) rfl
    simp only [List.length_singleton, List.singleton_append] at hd'
    have hget : (d0 :: rest).getD (maxLoop rest 1 0 d0.overall).1 d0 = d' := by
      rw [List.getD_eq_getElem?_getD, hd']
      rfl
    rw [hget] at hr
    obtain ⟨M, hM, hscore⟩ :=
      forall₂_getElem_some _ _ _ (scoreScenarios_candidates s damage d0 rest hdata) _ d' hd'
    obtain ⟨hmods, _⟩ := scoreScenario_fields s damage M d' hscore
    subst hr
    exact ⟨damage, M, d', hdamage, List.getElem?_mem hM, hscore, hmods, rfl, rfl⟩

/-- A captain effect keeps the slot index and the unit of every entry. -/
theorem applyCaptainEffectToDamage_keys (s : State) (d d' : List DamageEntry)
    (f : Option CaptainFn) (h : applyCaptainEffectToDamage s d f = .ok d') :
    d'.map (fun x => (x.order, x.unit)) = d.map (fun x => (x.order, x.unit)) := by
  cases f with
  | some f =>
    rw [applyCaptainEffectToDamage_some] at h
    cases h
    apply List.ext_getElem? 
    intro i
    simp [List.getElem?_mapIdx]
    cases d[i]? <;> simp
  | none =>
    cases d with
    | nil =>
      simp only [applyCaptainEffectToDamage] at h
      cases h
      rfl
    | cons x xs =>
      simp only [applyCaptainEffectToDamage] at h
      cases h

/-- The loop over the compatible captain effects keeps the slot index and the unit of every
entry. -/
theorem applyCompatibleEffects_keys (s : State) (M : List String) :
    ∀ (cs : List (List String × Option CaptainFn)) (d d' : List DamageEntry),
      applyCompatibleEffects s M cs d = .ok d' →
      d'.map (fun x => (x.order, x.unit)) = d.map (fun x => (x.order, x.unit))
  | [], d, d', h => by
    simp only [applyCompatibleEffects, List.foldlM_nil, pure, Except.pure] at h
    cases h
    rfl
  | c :: cs, d, d', h => by
    simp only [applyCompatibleEffects, List.foldlM_cons, bind, Except.bind] at h
    cases hstep : applyCompatibleEffect s M d c with
    | error e =>
      rw [hstep] at h
      cases h
    | ok d1 =>
      rw [hstep] at h
      have ih := applyCompatibleEffects_keys s M cs d1 d' h
      rw [ih]
      unfold applyCompatibleEffect at hstep
      split at hstep
      · exact applyCaptainEffectToDamage_keys s d d1 c.2 hstep
      · cases hstep
        rfl

/-- The chain loop keeps the slot index and the unit of every entry. -/
theorem chainLoop_keys (s : State) (M : List String) (cs : List CaptainFn) :
    ∀ (l : List DamageEntry) (n : Nat) (c : ℚ),
      (chainLoop s M cs n c l).1.map (fun e => (e.order, e.unit)) =
        l.map (fun x => (x.order, x.unit))
  | [], _, _ => by simp [chainLoop]
  | x :: rest, n, c => by
    have ih := chainLoop_keys s M cs rest (n + 1)
      (getChainMultiplier c M[n]? (chainModifierProduct s cs x.unit.unit n M[n]?))
    simp [chainLoop, ih]

/-- The base contributions carry the occupied slots with their slot index. -/
theorem teamDamage_keys (s : State) (type : String) :
    (teamDamage s type).map (fun x => (x.order, x.unit)) = occupiedEntries s := by
  simp only [teamDamage, occupiedEntries, List.map_filterMap, Option.map_map]
  rfl

/-- The list handed to the scenario search carries the occupied slots with their slot index,
up to the order of the sort. -/
theorem staticDamage_keys (s : State) (type : String) (damage : List DamageEntry)
    (h : staticDamage s type = .ok damage) :
    (damage.map fun x => (x.order, x.unit)).Perm (occupiedEntries s) := by
  rw [staticDamage_eq] at h
  cases h
  have hperm : ((scaledDamage s type).insertionSort fun x y => x.damage ≤ y.damage).Perm
      (scaledDamage s type) := List.perm_insertionSort _ _
  refine (hperm.map _).trans ?_
  rw [← teamDamage_keys s type]
  apply List.Perm.of_eq
  apply List.ext_getElem?
  intro i
  simp [scaledDamage, List.getElem?_mapIdx]
  cases (teamDamage s type)[i]? <;> simp

/-- The occupied slots, with and without their index. -/
theorem occupiedEntries_length (s : State) :
    (occupiedEntries s).length = (occupiedSlots s).length := by
  have h : (occupiedEntries s).map (·.2) = occupiedSlots s := by
    rw [← teamDamage_keys s "STR", ← teamDamage_units s "STR"]
    simp
  rw [← h, List.length_map]

/-- While crunching is disabled `crunch()` returns at once. -/
theorem crunchOutcome_disabled (s : State) (h : s.crunchingEnabled = false) :
    crunchOutcome s = { state := s, emitted := [], error := none } := by
  simp [crunchOutcome, crunch, h, pure, Except.pure]

/-- While crunching is enabled `crunch()` emits the full recompute, or throws. -/
theorem crunchOutcome_enabled (s : State) (h : s.crunchingEnabled = true) :
    ((crunchOutcome s).error = none →
      ∃ r, (crunchOutcome s).emitted = [r] ∧ fullRecompute s = .ok r) ∧
    ((crunchOutcome s).error ≠ none → (crunchOutcome s).emitted = []) ∧
    (∀ r, fullRecompute s = .ok r →
      (crunchOutcome s).emitted = [r] ∧ (crunchOutcome s).error = none) := by
  cases hf : fullRecompute s with
  | error e => simp [crunchOutcome, crunch, h, hf, Except.map]
  | ok r => simp [crunchOutcome, crunch, h, hf, Except.map]

/-- The state a callback leaves behind does not depend on the crunching gate, other than by
holding it. -/
theorem dispatch_state_gate (env : Env) (s : State) (ev : Event) (b1 b2 : Bool)
    (hev : ∀ b, ev ≠ .crunchingToggled b) :
    (dispatch env { s with crunchingEnabled := b1 } ev).state =
      { (dispatch env { s with crunchingEnabled := b2 } ev).state with
        crunchingEnabled := b1 } := by
  cases ev with
  | unitPicked slotNumber unitNumber =>
    simp only [dispatch, onUnitPick, crunchOutcome_state, setCaptain]
    split_ifs <;> rfl
  | unitLevelChanged slotNumber level =>
    simp only [dispatch, onLevelChange]
    cases s.team[slotNumber]?.join <;> simp [crunchOutcome_state]
  | merryBonusUpdated bonus => simp [dispatch, onMerryChange, crunchOutcome_state]
  | hpChanged current max perc => simp [dispatch, onHpChange, crunchOutcome_state]
  | defenseChanged value => simp [dispatch, onDefenseChanged, crunchOutcome_state]
  | crunchingToggled enabled => exact absurd rfl (hev enabled)
  | orbMultiplierChanged slotNumber multiplier =>
    simp only [dispatch, onOrbMultiplierChanged]
    cases s.team[slotNumber]?.join <;> simp [crunchOutcome_state]
  | unitsSwitched slotA slotB =>
    simp only [dispatch, onUnitsSwitched, crunchOutcome_state, setCaptain]
    split_ifs <;> rfl
  | unitRemoved slotNumber =>
    simp only [dispatch, onUnitRemoved, crunchOutcome_state]
    split_ifs <;> rfl

/-- Every callback but the toggle either throws in its state update, leaving the state as it
was, or ends with the call `crunch()` on the updated state, whose gate is the one it found. -/
theorem dispatch_cases (env : Env) (s : State) (ev : Event)
    (hev : ∀ b, ev ≠ .crunchingToggled b) :
    (updateCompletes s ev = false ∧
      dispatch env s ev =
        { state := s, emitted := [], error := some "TypeError: team[slotNumber] is null" }) ∨
    (updateCompletes s ev = true ∧
      dispatch env s ev = crunchOutcome (dispatch env s ev).state ∧
      (dispatch env s ev).state.crunchingEnabled = s.crunchingEnabled) := by
  have hgate : ∀ (s : State) (n : Nat),
      (setCaptain env s n).crunchingEnabled = s.crunchingEnabled := by
    intro s n
    unfold setCaptain
    split_ifs <;> rfl
  cases ev with
  | unitPicked slotNumber unitNumber =>
    right
    simp only [dispatch, onUnitPick, crunchOutcome_state, updateCompletes, true_and]
    split_ifs
    · rw [hgate]
    · rfl
  | unitLevelChanged slotNumber level =>
    simp only [dispatch, onLevelChange, updateCompletes]
    cases s.team[slotNumber]?.join <;> simp [crunchOutcome_state]
  | merryBonusUpdated bonus =>
    right
    simp [dispatch, onMerryChange, crunchOutcome_state, updateCompletes]
  | hpChanged current max perc =>
    right
    simp [dispatch, onHpChange, crunchOutcome_state, updateCompletes]
  | defenseChanged value =>
    right
    simp [dispatch, onDefenseChanged, crunchOutcome_state, updateCompletes]
  | crunchingToggled enabled => exact absurd rfl (hev enabled)
  | orbMultiplierChanged slotNumber multiplier =>
    simp only [dispatch, onOrbMultiplierChanged, updateCompletes]
    cases s.team[slotNumber]?.join <;> simp [crunchOutcome_state]
  | unitsSwitched slotA slotB =>
    right
    simp only [dispatch, onUnitsSwitched, crunchOutcome_state, updateCompletes, true_and]
    split_ifs <;> simp only [hgate]
  | unitRemoved slotNumber =>
    right
    simp only [dispatch, onUnitRemoved, crunchOutcome_state, updateCompletes, true_and]
    split_ifs <;> rfl

theorem staticDamage_withDefense (s : State) (d : ℚ) (type : String) :
    staticDamage (withDefense s d) type = staticDamage s type := rfl

theorem applyCompatibleEffects_withDefense (s : State) (d : ℚ) (M : List String)
    (cs : List (List String × Option CaptainFn)) (damage : List DamageEntry) :
    applyCompatibleEffects (withDefense s d) M cs damage =
      applyCompatibleEffects s M cs damage := rfl

theorem chainModifierProduct_withDefense (s : State) (d : ℚ) (cs : List CaptainFn)
    (unit : UnitData) (n : Nat) (hit : Hit) :
    chainModifierProduct (withDefense s d) cs unit n hit =
      chainModifierProduct s cs unit n hit := rfl

/-- Raising the defense threshold from `d1 ≥ 0` to `d2` never raises the damage of a hit of a
unit with an integer combo of at least 2. -/
theorem computeDamageOfUnit_antitone (s : State) (unit : UnitData) (atk : ℚ) (hit : String)
    (d1 d2 : ℚ) (h0 : 0 ≤ d1) (h12 : d1 ≤ d2) (k : ℕ) (hk : 2 ≤ k) (hcombo : unit.combo = k)
    (hh : hit ∈ hitKinds) :
    ∃ v1 v2, computeDamageOfUnit (withDefense s d1) unit atk (some hit) = some v1 ∧
      computeDamageOfUnit (withDefense s d2) unit atk (some hit) = some v2 ∧ v2 ≤ v1 := by
  have hk2 : (2 : ℚ) ≤ unit.combo := by rw [hcombo]; exact_mod_cast hk
  have hbase : ((⌊max 1 (atk / unit.combo - d2)⌋ : ℤ) : ℚ) ≤
      (⌊max 1 (atk / unit.combo - d1)⌋ : ℤ) := by
    have : ⌊max 1 (atk / unit.combo - d2)⌋ ≤ ⌊max 1 (atk / unit.combo - d1)⌋ :=
      Int.floor_mono (max_le_max (le_refl 1) (by linarith))
    exact_mod_cast this
  have hbase0 : (0 : ℚ) ≤ (⌊max 1 (atk / unit.combo - d2)⌋ : ℤ) := by
    have : (1 : ℤ) ≤ ⌊max 1 (atk / unit.combo - d2)⌋ := Int.le_floor.mpr (by simp)
    have : ((1 : ℤ) : ℚ) ≤ (⌊max 1 (atk / unit.combo - d2)⌋ : ℤ) := by exact_mod_cast this
    push_cast at this
    linarith
  have hbonus : ∀ q : ℚ,
      (if (⌊atk / unit.combo / s.merryBonus * q⌋ : ℤ) * unit.combo > d2
        then ((⌊atk / unit.combo / s.merryBonus * q⌋ : ℤ) : ℚ) * unit.combo else 1) ≤
      (if (⌊atk / unit.combo / s.merryBonus * q⌋ : ℤ) * unit.combo > d1
        then ((⌊atk / unit.combo / s.merryBonus * q⌋ : ℤ) : ℚ) * unit.combo else 1) := by
    intro q
    by_cases hb2 : (⌊atk / unit.combo / s.merryBonus * q⌋ : ℤ) * unit.combo > d2
    · have hb1 : (⌊atk / unit.combo / s.merryBonus * q⌋ : ℤ) * unit.combo > d1 :=
        lt_of_le_of_lt h12 hb2
      rw [if_pos hb2, if_pos hb1]
    · rw [if_neg hb2]
      split_ifs with hb1
      · rw [hcombo] at hb1 ⊢
        have hpos : (0 : ℚ) < ((⌊atk / k / s.merryBonus * q⌋ * (k : ℤ) : ℤ) : ℚ) := by
          push_cast
          exact lt_of_le_of_lt h0 hb1
        have hint : (1 : ℤ) ≤ ⌊atk / k / s.merryBonus * q⌋ * (k : ℤ) := by
          have : (0 : ℤ) < ⌊atk / k / s.merryBonus * q⌋ * (k : ℤ) := by exact_mod_cast hpos
          omega
        have : ((1 : ℤ) : ℚ) ≤ ((⌊atk / k / s.merryBonus * q⌋ * (k : ℤ) : ℤ) : ℚ) := by
          exact_mod_cast hint
        push_cast at this
        exact this
      · exact le_refl 1
  have hmul : ∀ m : ℚ, 0 ≤ m →
      ((⌊max 1 (atk / unit.combo - d2)⌋ : ℤ) : ℚ) * m ≤
        (⌊max 1 (atk / unit.combo - d1)⌋ : ℤ) * m :=
    fun m hm => mul_le_mul_of_nonneg_right hbase hm
  simp only [hitKinds, List.mem_cons, List.mem_singleton, List.not_mem_nil, or_false] at hh
  rcases hh with rfl | rfl | rfl | rfl
  · exact ⟨(⌊max 1 (atk / unit.combo - d1)⌋ : ℤ) * unit.combo,
      (⌊max 1 (atk / unit.combo - d2)⌋ : ℤ) * unit.combo,
      by simp [computeDamageOfUnit, withDefense],
      by simp [computeDamageOfUnit, withDefense], hmul _ (by linarith)⟩
  · refine ⟨(⌊max 1 (atk / unit.combo - d1)⌋ : ℤ) * (unit.combo - 2) +
        (if (⌊atk / unit.combo / s.merryBonus * (3/10)⌋ : ℤ) * unit.combo > d1
          then ((⌊atk / unit.combo / s.merryBonus * (3/10)⌋ : ℤ) : ℚ) * unit.combo else 1),
      (⌊max 1 (atk / unit.combo - d2)⌋ : ℤ) * (unit.combo - 2) +
        (if (⌊atk / unit.combo / s.merryBonus * (3/10)⌋ : ℤ) * unit.combo > d2
          then ((⌊atk / unit.combo / s.merryBonus * (3/10)⌋ : ℤ) : ℚ) * unit.combo else 1),
      by simp [computeDamageOfUnit, withDefense], by simp [computeDamageOfUnit, withDefense],
      add_le_add (hmul _ (by linarith)) (hbonus _)⟩
  · refine ⟨(⌊max 1 (atk / unit.combo - d1)⌋ : ℤ) * (unit.combo - 1) +
        (if (⌊atk / unit.combo / s.merryBonus * (6/10)⌋ : ℤ) * unit.combo > d1
          then ((⌊atk / unit.combo / s.merryBonus * (6/10)⌋ : ℤ) : ℚ) * unit.combo else 1),
      (⌊max 1 (atk / unit.combo - d2)⌋ : ℤ) * (unit.combo - 1) +
        (if (⌊atk / unit.combo / s.merryBonus * (6/10)⌋ : ℤ) * unit.combo > d2
          then ((⌊atk / unit.combo / s.merryBonus * (6/10)⌋ : ℤ) : ℚ) * unit.combo else 1),
      by simp [computeDamageOfUnit, withDefense], by simp [computeDamageOfUnit, withDefense],
      add_le_add (hmul _ (by linarith)) (hbonus _)⟩
  · refine ⟨(⌊max 1 (atk / unit.combo - d1)⌋ : ℤ) * unit.combo +
        (if (⌊atk / unit.combo / s.merryBonus * (135/100)⌋ : ℤ) * unit.combo > d1
          then ((⌊atk / unit.combo / s.merryBonus * (135/100)⌋ : ℤ) : ℚ) * unit.combo else 1),
      (⌊max 1 (atk / unit.combo - d2)⌋ : ℤ) * unit.combo +
        (if (⌊atk / unit.combo / s.merryBonus * (135/100)⌋ : ℤ) * unit.combo > d2
          then ((⌊atk / unit.combo / s.merryBonus * (135/100)⌋ : ℤ) : ℚ) * unit.combo else 1),
      by simp [computeDamageOfUnit, withDefense], by simp [computeDamageOfUnit, withDefense],
      add_le_add (hmul _ (by linarith)) (hbonus _)⟩

/-- Raising the defense threshold never raises the sum of the hit damages of a chain run over
units with an integer combo of at least 2 and known hit modifiers. -/
theorem chainLoop_antitone (s : State) (M : List String) (cs : List CaptainFn) (d1 d2 : ℚ)
    (h0 : 0 ≤ d1) (h12 : d1 ≤ d2) :
    ∀ (l : List DamageEntry) (n : Nat) (c acc1 acc2 : ℚ), acc2 ≤ acc1 →
      (∀ x ∈ l, ∃ k : ℕ, 2 ≤ k ∧ x.unit.unit.combo = k) →
      (∀ k, k < l.length → ∃ h ∈ hitKinds, M[n + k]? = some h) →
      ∃ t1 t2,
        (chainLoop (withDefense s d1) M cs n c l).1.foldl
          (fun prev x => prev.bind fun p => x.damage.map fun d => p + d) (some acc1) = some t1 ∧
        (chainLoop (withDefense s d2) M cs n c l).1.foldl
          (fun prev x => prev.bind fun p => x.damage.map fun d => p + d) (some acc2) = some t2 ∧
        t2 ≤ t1
  | [], _, _, acc1, acc2, hacc, _, _ => ⟨acc1, acc2, by simp [chainLoop], by simp [chainLoop], hacc⟩
  | x :: rest, n, c, acc1, acc2, hacc, hcombo, h => by
    obtain ⟨hit, hmem, hhit⟩ := h 0 (by simp)
    rw [Nat.add_zero] at hhit
    obtain ⟨k, hk, hxk⟩ := hcombo x (List.mem_cons_self _ _)
    obtain ⟨v1, v2, hv1, hv2, hv⟩ :=
      computeDamageOfUnit_antitone s x.unit.unit (x.damage * c) hit d1 d2 h0 h12 k hk hxk hmem
    have hrest : ∀ k, k < rest.length → ∃ h ∈ hitKinds, M[n + 1 + k]? = some h := by
      intro k hk
      have := h (k + 1) (by simpa using hk)
      rwa [show n + (k + 1) = n + 1 + k by omega] at this
    obtain ⟨t1, t2, ht1, ht2, ht⟩ := chainLoop_antitone s M cs d1 d2 h0 h12 rest (n + 1)
      (getChainMultiplier c M[n]? (chainModifierProduct s cs x.unit.unit n M[n]?))
      (acc1 + v1) (acc2 + v2) (add_le_add hacc hv)
      (fun y hy => hcombo y (List.mem_cons_of_mem _ hy)) hrest
    refine ⟨t1, t2, ?_, ?_, ht⟩
    · simpa [chainLoop, hhit, hv1, chainModifierProduct_withDefense] using ht1
    · simpa [chainLoop, hhit, hv2, chainModifierProduct_withDefense] using ht2

/-- Raising the defense threshold changes neither whether a scenario can be scored nor the
exception thrown, and never raises its total. -/
theorem scoreScenario_antitone (s : State) (damage : List DamageEntry) (M : List String)
    (d1 d2 : ℚ) (h0 : 0 ≤ d1) (h12 : d1 ≤ d2)
    (hcombo : ∀ x ∈ damage, ∃ k : ℕ, 2 ≤ k ∧ x.unit.unit.combo = k)
    (hM : ∀ k, k < damage.length → ∃ h ∈ hitKinds, M[k]? = some h) :
    (∃ e, scoreScenario (withDefense s d1) damage M = .error e ∧
      scoreScenario (withDefense s d2) damage M = .error e) ∨
    (∃ sc1 sc2, scoreScenario (withDefense s d1) damage M = .ok sc1 ∧
      scoreScenario (withDefense s d2) damage M = .ok sc2 ∧ totalLe sc1 sc2) := by
  cases hd : applyCompatibleEffects s M (captainsWithHitModifiers s) damage with
  | error e =>
    left
    have h1 : applyCompatibleEffects (withDefense s d1) M
        (captainsWithHitModifiers (withDefense s d1)) damage = .error e := hd
    have h2 : applyCompatibleEffects (withDefense s d2) M
        (captainsWithHitModifiers (withDefense s d2)) damage = .error e := hd
    exact ⟨e, by simp [scoreScenario, h1, bind, Except.bind],
      by simp [scoreScenario, h2, bind, Except.bind]⟩
  | ok d =>
    right
    have h1 : applyCompatibleEffects (withDefense s d1) M
        (captainsWithHitModifiers (withDefense s d1)) damage = .ok d := hd
    have h2 : applyCompatibleEffects (withDefense s d2) M
        (captainsWithHitModifiers (withDefense s d2)) damage = .ok d := hd
    have hkeys := applyCompatibleEffects_keys s M _ damage d hd
    have hlen : d.length = damage.length := by
      have := congrArg List.length hkeys
      simpa using this
    have hcombo' : ∀ x ∈ d, ∃ k : ℕ, 2 ≤ k ∧ x.unit.unit.combo = k := by
      intro x hx
      have hmem : (x.order, x.unit) ∈ damage.map (fun y => (y.order, y.unit)) := by
        rw [← hkeys]
        exact List.mem_map_of_mem (fun y : DamageEntry => (y.order, y.unit)) hx
      obtain ⟨y, hy, hxy⟩ := List.mem_map.mp hmem
      have hu : y.unit = x.unit := congrArg Prod.snd hxy
      rw [← hu]
      exact hcombo y hy
    obtain ⟨t1, t2, ht1, ht2, ht⟩ := chainLoop_antitone s M (captainsWithChainModifiers s)
      d1 d2 h0 h12 d 0 1 0 0 (le_refl 0) hcombo'
      (by
        intro k hk
        rw [Nat.zero_add]
        exact hM k (by rwa [hlen] at hk))
    have hs1 : scoreScenario (withDefense s d1) damage M = .ok
        { damage := applyChainAndBonusMultipliers (withDefense s d1) d M
            (captainsWithChainModifiers s)
          overall := overallDamage (applyChainAndBonusMultipliers (withDefense s d1) d M
            (captainsWithChainModifiers s)).result
          hitModifiers := M } := by
      simp only [scoreScenario, h1, bind, Except.bind, pure, Except.pure]
      rfl
    have hs2 : scoreScenario (withDefense s d2) damage M = .ok
        { damage := applyChainAndBonusMultipliers (withDefense s d2) d M
            (captainsWithChainModifiers s)
          overall := overallDamage (applyChainAndBonusMultipliers (withDefense s d2) d M
            (captainsWithChainModifiers s)).result
          hitModifiers := M } := by
      simp only [scoreScenario, h2, bind, Except.bind, pure, Except.pure]
      rfl
    exact ⟨_, _, hs1, hs2, t1, t2, ht1, ht2, ht⟩

/-- Two runs of `mapM` whose steps throw alike or return related values throw alike or return
related lists. -/
theorem mapM_related {α β : Type} (R : β → β → Prop) (f g : α → Except String β) :
    ∀ (cs : List α),
      (∀ c ∈ cs, (∃ e, f c = .error e ∧ g c = .error e) ∨
        (∃ a b, f c = .ok a ∧ g c = .ok b ∧ R a b)) →
      (∃ e, cs.mapM f = .error e ∧ cs.mapM g = .error e) ∨
      (∃ as bs, cs.mapM f = .ok as ∧ cs.mapM g = .ok bs ∧ List.Forall₂ R as bs)
  | [], _ => Or.inr ⟨[], [], rfl, rfl, List.Forall₂.nil⟩
  | c :: cs, h => by
    rw [List.mapM_cons, List.mapM_cons]
    rcases h c (List.mem_cons_self _ _) with ⟨e, hf, hg⟩ | ⟨a, b, hf, hg, hab⟩
    · left
      exact ⟨e, by rw [hf]; rfl, by rw [hg]; rfl⟩
    · rcases mapM_related R f g cs (fun c' hc' => h c' (List.mem_cons_of_mem _ hc')) with
        ⟨e, hfs, hgs⟩ | ⟨as, bs, hfs, hgs, hrel⟩
      · left
        exact ⟨e, by rw [hf, hfs]; rfl, by rw [hg, hgs]; rfl⟩
      · right
        exact ⟨a :: as, b :: bs, by rw [hf, hfs]; rfl, by rw [hg, hgs]; rfl,
          List.Forall₂.cons hab hrel⟩

/-- Raising the defense threshold changes neither whether the candidate scenarios can be
scored nor the exception thrown, and never raises the total of a candidate. -/
theorem scoreScenarios_antitone (s : State) (damage : List DamageEntry) (d1 d2 : ℚ)
    (h0 : 0 ≤ d1) (h12 : d1 ≤ d2)
    (hcombo : ∀ x ∈ damage, ∃ k : ℕ, 2 ≤ k ∧ x.unit.unit.combo = k)
    (hM : ∀ M ∈ DEFAULT_HIT_MODIFIERS :: (captainsWithHitModifiers s).map (·.1),
      ∀ k, k < damage.length → ∃ h ∈ hitKinds, M[k]? = some h) :
    (∃ e, scoreScenarios (withDefense s d1) damage = .error e ∧
      scoreScenarios (withDefense s d2) damage = .error e) ∨
    (∃ a0 as b0 bs, scoreScenarios (withDefense s d1) damage = .ok (a0, as) ∧
      scoreScenarios (withDefense s d2) damage = .ok (b0, bs) ∧
      List.Forall₂ totalLe (a0 :: as) (b0 :: bs)) := by
  have hcw1 : captainsWithHitModifiers (withDefense s d1) = captainsWithHitModifiers s := rfl
  have hcw2 : captainsWithHitModifiers (withDefense s d2) = captainsWithHitModifiers s := rfl
  unfold scoreScenarios
  rw [hcw1, hcw2]
  rcases scoreScenario_antitone s damage DEFAULT_HIT_MODIFIERS d1 d2 h0 h12 hcombo
      (hM _ (List.mem_cons_self _ _)) with ⟨e, hf, hg⟩ | ⟨a0, b0, hf, hg, h00⟩
  · left
    exact ⟨e, by rw [hf]; rfl, by rw [hg]; rfl⟩
  · rcases mapM_related totalLe
        (fun c : List String × Option CaptainFn => scoreScenario (withDefense s d1) damage c.1)
        (fun c => scoreScenario (withDefense s d2) damage c.1) (captainsWithHitModifiers s)
        (fun c hc => scoreScenario_antitone s damage c.1 d1 d2 h0 h12 hcombo
          (hM _ (List.mem_cons_of_mem _ (List.mem_map_of_mem (·.1) hc)))) with
      ⟨e, hfs, hgs⟩ | ⟨as, bs, hfs, hgs, hrel⟩
    · left
      exact ⟨e, by rw [hf, hfs]; rfl, by rw [hg, hgs]; rfl⟩
    · right
      exact ⟨a0, as, b0, bs, by rw [hf, hfs]; rfl, by rw [hg, hgs]; rfl,
        List.Forall₂.cons h00 hrel⟩

/-- The loop that keeps the greatest total ends with a smaller or equal value when every
total is replaced by a smaller or equal one. -/
theorem maxLoop_antitone (a0 b0 : Scenario) (as bs : List Scenario)
    (hrel : List.Forall₂ totalLe (a0 :: as) (b0 :: bs)) :
    ∃ v1 v2, (maxLoop as 1 0 a0.overall).2 = some v1 ∧
      (maxLoop bs 1 0 b0.overall).2 = some v2 ∧ v2 ≤ v1 := by
  have hnumA : ∀ d ∈ a0 :: as, ∃ t, d.overall = some t := by
    intro d hd
    obtain ⟨i, hi⟩ := List.getElem?_of_mem hd
    obtain ⟨c, _, t1, t2, hd1, _, _⟩ :=
      forall₂_getElem_some (fun b a => totalLe a b) _ _ hrel.flip i d hi
    exact ⟨_, hd1⟩
  have hnumB : ∀ d ∈ b0 :: bs, ∃ t, d.overall = some t := by
    intro d hd
    obtain ⟨i, hi⟩ := List.getElem?_of_mem hd
    obtain ⟨c, _, t1, t2, _, hd2, _⟩ := forall₂_getElem_some totalLe _ _ hrel i d hi
    exact ⟨_, hd2⟩
  obtain ⟨i1, best1, v1, hmax1, _, _, hall1⟩ := maxLoop_select a0 as hnumA
  obtain ⟨i2, best2, v2, hmax2, hbest2, hover2, _⟩ := maxLoop_select b0 bs hnumB
  refine ⟨v1, v2, by rw [hmax1], by rw [hmax2], ?_⟩
  obtain ⟨c, hc, t1, t2, hct1, hbt2, hle⟩ := forall₂_getElem_some totalLe _ _ hrel i2 best2 hbest2
  obtain ⟨t, ht, htv, _⟩ := hall1 i2 c hc
  rw [hct1] at ht
  rw [hover2] at hbt2
  cases ht
  cases hbt2
  exact le_trans hle htv

/-- The units of the occupied slots, read off the indexed list. -/
theorem occupiedEntries_units (s : State) :
    (occupiedEntries s).map (·.2) = occupiedSlots s := by
  rw [← teamDamage_keys s "STR", ← teamDamage_units s "STR"]
  simp

/-- The data contract, from its parts. -/
theorem wellFormed_of_parts (s : State) (hteam : s.team.length = 6)
    (hmods : ∀ a ∈ abilities s, ∀ m, a.hitModifiers = some m →
      m.length = 6 ∧ ∀ h ∈ m, h ∈ hitKinds)
    (hatk : ∀ a ∈ abilities s, a.hitModifiers ≠ none → a.hitAtk ≠ none) :
    wellFormed s = true := by
  simp only [wellFormed, hteam, beq_self_eq_true, Bool.true_and, List.all_eq_true]
  intro a ha
  unfold wellFormedAbility
  cases hm : a.hitModifiers with
  | none => rfl
  | some m =>
    obtain ⟨hlen, hall⟩ := hmods a ha m hm
    have hatk' := hatk a ha (by simp [hm])
    simp only [Bool.and_eq_true, beq_iff_eq, List.all_eq_true, hlen, and_true]
    refine ⟨Option.isSome_iff_ne_none.mpr hatk', ?_⟩
    intro h hh
    simpa using hall h hh

/-! ### Evaluation of the example states -/

/-- The example slot attacks for 1000. -/
theorem getAttackOfUnit_exampleSlot : getAttackOfUnit exampleSlot = 1000 := by
  norm_num [getAttackOfUnit, exampleSlot, exampleUnit]

/-- Static stage of `brokenState` against STR. -/
theorem staticDamage_brokenState :
    staticDamage brokenState "STR" = .ok [exampleEntry0] := by
  simp [staticDamage, abilities, brokenState, brokenCaptain, initialState, teamDamage,
    applyStaticAtk, getAttackOfUnit_exampleSlot, getOrbMultiplierOfUnit, getTypeMultiplierOfUnit,
    List.enum, List.enumFrom, bind, Except.bind, pure, Except.pure]
  simp [exampleEntry0, exampleSlot, exampleUnit]

/-- The one captain of `brokenState` has hit modifiers and no `hitAtk`. -/
theorem captainsWithHitModifiers_brokenState :
    captainsWithHitModifiers brokenState = [(allGood, none)] := rfl

/-- Static stage of `tieState` against STR. -/
theorem staticDamage_tieState :
    staticDamage tieState "STR" = .ok [exampleEntry0] := by
  simp [staticDamage, abilities, tieState, tieCaptain, initialState, teamDamage,
    applyStaticAtk, getAttackOfUnit_exampleSlot, getOrbMultiplierOfUnit, getTypeMultiplierOfUnit,
    List.enum, List.enumFrom, bind, Except.bind, pure, Except.pure]
  simp [exampleEntry0, exampleSlot, exampleUnit]

/-- A Perfect hit of the example unit from 1000 attack in `tieState`. -/
theorem computeDamageOfUnit_tieState :
    computeDamageOfUnit tieState exampleSlot.unit 1000 (some "Perfect") = some 2348 := by
  simp only [computeDamageOfUnit, tieState, initialState, exampleSlot, exampleUnit]
  rw [if_neg (by decide), if_neg (by decide), if_neg (by decide)]
  norm_num

/-- The one captain of `tieState` has hit modifiers and a constant `hitAtk`. -/
theorem captainsWithHitModifiers_tieState :
    captainsWithHitModifiers tieState = [(perfectThenGood, some fun _ _ _ _ _ _ => 1)] := rfl

/-- No captain of `tieState` has a chain modifier. -/
theorem captainsWithChainModifiers_tieState : captainsWithChainModifiers tieState = [] := rfl

/-- The default scenario of `tieState` totals 2348. -/
theorem scoreScenario_tieState_default :
    scoreScenario tieState [exampleEntry0]
      DEFAULT_HIT_MODIFIERS =
      .ok { damage := { result := [{ unit := exampleSlot, damage := some 2348, order := 0 }]
                        chainMultipliers := [1] }
            overall := some 2348
            hitModifiers := DEFAULT_HIT_MODIFIERS } := by
  have hne : arraysAreEqual DEFAULT_HIT_MODIFIERS perfectThenGood = false := by
    rw [Bool.eq_false_iff]
    intro hc
    have := (arraysAreEqual_iff _ _).mp hc
    simp [DEFAULT_HIT_MODIFIERS, perfectThenGood] at this
  have hP : DEFAULT_HIT_MODIFIERS[0]? = some "Perfect" := rfl
  simp [scoreScenario, applyCompatibleEffects, captainsWithHitModifiers_tieState,
    captainsWithChainModifiers_tieState, applyCompatibleEffect, hne,
    applyChainAndBonusMultipliers, chainLoop, hP, exampleEntry0, computeDamageOfUnit_tieState,
    overallDamage, bind, Except.bind, pure, Except.pure]

/-- The captain scenario of `tieState` totals 2348 as well. -/
theorem scoreScenario_tieState_captain :
    scoreScenario tieState [exampleEntry0]
      perfectThenGood =
      .ok { damage := { result := [{ unit := exampleSlot, damage := some 2348, order := 0 }]
                        chainMultipliers := [1] }
            overall := some 2348
            hitModifiers := perfectThenGood } := by
  have heq : arraysAreEqual perfectThenGood perfectThenGood = true :=
    (arraysAreEqual_iff _ _).mpr rfl
  have hP : perfectThenGood[0]? = some "Perfect" := rfl
  simp [scoreScenario, applyCompatibleEffects, captainsWithHitModifiers_tieState,
    captainsWithChainModifiers_tieState, applyCompatibleEffect, heq,
    applyCaptainEffectToDamage_some,
    applyChainAndBonusMultipliers, chainLoop, hP, exampleEntry0, computeDamageOfUnit_tieState,
    overallDamage, bind, Except.bind, pure, Except.pure]

/-- The scenario of the captain of `brokenState` cannot be scored on a non-empty array: the
absent `hitAtk` is called. -/
theorem scoreScenario_brokenState_allGood (x : DamageEntry) (rest : List DamageEntry) :
    scoreScenario brokenState (x :: rest) allGood =
      .error "TypeError: func is not a function" := by
  have heq : arraysAreEqual allGood allGood = true := (arraysAreEqual_iff _ _).mpr rfl
  simp only [scoreScenario, applyCompatibleEffects, captainsWithHitModifiers_brokenState,
    List.foldlM_cons, List.foldlM_nil, applyCompatibleEffect, heq, if_true,
    applyCaptainEffectToDamage, bind, Except.bind]

/-- The default scenario of `brokenState` totals 2348. -/
theorem scoreScenario_brokenState_default :
    scoreScenario brokenState [exampleEntry0] DEFAULT_HIT_MODIFIERS =
      .ok { damage := { result := [{ unit := exampleSlot, damage := some 2348, order := 0 }]
                        chainMultipliers := [1] }
            overall := some 2348
            hitModifiers := DEFAULT_HIT_MODIFIERS } := by
  have hne : arraysAreEqual DEFAULT_HIT_MODIFIERS allGood = false := by
    rw [Bool.eq_false_iff]
    intro hc
    have := (arraysAreEqual_iff _ _).mp hc
    simp [DEFAULT_HIT_MODIFIERS, allGood] at this
  have hP : DEFAULT_HIT_MODIFIERS[0]? = some "Perfect" := rfl
  have hcap : captainsWithChainModifiers brokenState = [] := rfl
  have hdmg : computeDamageOfUnit brokenState exampleSlot.unit 1000 (some "Perfect") =
      some 2348 := by
    simp only [computeDamageOfUnit, brokenState, initialState, exampleSlot, exampleUnit]
    rw [if_neg (by decide), if_neg (by decide), if_neg (by decide)]
    norm_num
  simp [scoreScenario, applyCompatibleEffects, captainsWithHitModifiers_brokenState, hcap,
    applyCompatibleEffect, hne, applyChainAndBonusMultipliers, chainLoop, hP, exampleEntry0,
    hdmg, overallDamage, bind, Except.bind, pure, Except.pure]

/-- Crunching `brokenState` throws, with or without details. -/
theorem crunchForType_brokenState (withDetails : Bool) :
    crunchForType brokenState "STR" withDetails =
      .error "TypeError: func is not a function" := by
  have hdata : scoreScenarios brokenState [exampleEntry0] =
      .error "TypeError: func is not a function" := by
    simp only [scoreScenarios, scoreScenario_brokenState_default,
      captainsWithHitModifiers_brokenState, List.mapM_cons, scoreScenario_brokenState_allGood,
      bind, Except.bind]
  simp only [crunchForType, staticDamage_brokenState, hdata, bind, Except.bind]

/-- Static stage of the example unit alone against STR. -/
theorem staticDamage_soloState :
    staticDamage (soloState exampleSlot) "STR" = .ok [exampleEntry0] := by
  simp [staticDamage, abilities, soloState, initialState, teamDamage,
    getAttackOfUnit_exampleSlot, getOrbMultiplierOfUnit, getTypeMultiplierOfUnit,
    List.enum, List.enumFrom, bind, Except.bind, pure, Except.pure]
  simp [exampleEntry0, exampleSlot, exampleUnit]

/-- A Perfect hit of the example unit from 1000 attack, without captains. -/
theorem computeDamageOfUnit_soloState :
    computeDamageOfUnit (soloState exampleSlot) exampleSlot.unit 1000 (some "Perfect") =
      some 2348 := by
  simp only [computeDamageOfUnit, soloState, initialState, exampleSlot, exampleUnit]
  rw [if_neg (by decide), if_neg (by decide), if_neg (by decide)]
  norm_num

/-- The details of the example unit alone against STR: the default scenario, one chain
multiplier, one entry. -/
theorem crunchForType_soloState_details :
    crunchForType (soloState exampleSlot) "STR" true =
      .ok (.details
        { modifiers := DEFAULT_HIT_MODIFIERS
          multipliers := [1]
          order := [{ unit := exampleSlot, damage := some 2348, order := 0 }] }) := by
  have hcw : captainsWithHitModifiers (soloState exampleSlot) = [] := rfl
  have hcc : captainsWithChainModifiers (soloState exampleSlot) = [] := rfl
  have hP : DEFAULT_HIT_MODIFIERS[0]? = some "Perfect" := rfl
  have hscore : scoreScenario (soloState exampleSlot) [exampleEntry0] DEFAULT_HIT_MODIFIERS =
      .ok { damage := { result := [{ unit := exampleSlot, damage := some 2348, order := 0 }]
                        chainMultipliers := [1] }
            overall := some 2348
            hitModifiers := DEFAULT_HIT_MODIFIERS } := by
    simp [scoreScenario, applyCompatibleEffects, hcw, hcc, applyChainAndBonusMultipliers,
      chainLoop, hP, exampleEntry0, computeDamageOfUnit_soloState, overallDamage, bind,
      Except.bind, pure, Except.pure]
  simp only [crunchForType, staticDamage_soloState, scoreScenarios, hscore, hcw, List.mapM_nil,
    bind, Except.bind, pure, Except.pure]
  simp [maxLoop]

/-! ### Claims -/

/-- C1: for a unit with integer combo at least 1 and a non-zero Merry bonus,
`computeDamageOfUnit` returns, with `baseDamage = floor(max(1, atk/combo - defenseThreshold))`
and `bonus(k) = floor(atk/combo/merryBonus*k)*combo`: `baseDamage*combo` on a Miss,
`baseDamage*(combo-2) + (bonus(0.3) > defenseThreshold ? bonus(0.3) : 1)` on a Good,
`baseDamage*(combo-1) + (bonus(0.6) > defenseThreshold ? bonus(0.6) : 1)` on a Great and
`baseDamage*combo + (bonus(1.35) > defenseThreshold ? bonus(1.35) : 1)` on a Perfect. -/
theorem computeDamageOfUnit_formula (s : State) (unit : UnitData) (atk : ℚ) (c : ℕ)
    (hc : unit.combo = c) (_ : 1 ≤ c) (_ : s.merryBonus ≠ 0) :
    computeDamageOfUnit s unit atk (some "Miss") =
        some (specBaseDamage atk c s.defenseThreshold * c) ∧
    computeDamageOfUnit s unit atk (some "Good") =
        some (specBaseDamage atk c s.defenseThreshold * (c - 2) +
          (if specBonus atk c s.merryBonus (3/10) > s.defenseThreshold
            then specBonus atk c s.merryBonus (3/10) else 1)) ∧
    computeDamageOfUnit s unit atk (some "Great") =
        some (specBaseDamage atk c s.defenseThreshold * (c - 1) +
          (if specBonus atk c s.merryBonus (6/10) > s.defenseThreshold
            then specBonus atk c s.merryBonus (6/10) else 1)) ∧
    computeDamageOfUnit s unit atk (some "Perfect") =
        some (specBaseDamage atk c s.defenseThreshold * c +
          (if specBonus atk c s.merryBonus (135/100) > s.defenseThreshold
            then specBonus atk c s.merryBonus (135/100) else 1)) := by
  refine ⟨?_, ?_, ?_, ?_⟩ <;>
    simp [computeDamageOfUnit, specBaseDamage, specBonus, hc]

/-- Witness of C1: the example unit (combo 4) with attack 100, no defense and Merry bonus 1
misses for `floor(max(1,25)) * 4 = 100`. -/
theorem computeDamageOfUnit_formula_witness :
    computeDamageOfUnit initialState exampleUnit 100 (some "Miss") = some 100 := by
  have h := (computeDamageOfUnit_formula initialState exampleUnit 100 4
    (by norm_num [exampleUnit]) (by decide) (by norm_num [initialState])).1
  rw [h]
  norm_num [specBaseDamage, initialState]

/-- C2, as stated, fails: with a captain that has `hitModifiers` but no `hitAtk`, the default
scenario alone totals 2348, yet `crunchForType(type,false)` returns no value at all (it throws
while scoring the captain's own scenario). -/
theorem summary_missing_without_hitAtk :
    staticDamage brokenState "STR" = .ok [exampleEntry0] ∧
    (∃ d0, scoreScenario brokenState [exampleEntry0] DEFAULT_HIT_MODIFIERS = .ok d0 ∧
      d0.overall = some 2348) ∧
    crunchForType brokenState "STR" false = .error "TypeError: func is not a function" :=
  ⟨staticDamage_brokenState, ⟨_, scoreScenario_brokenState_default, rfl⟩,
    crunchForType_brokenState false⟩

/-- C2 (amended): on a state that meets the data contract (six slots; every `hitModifiers` has
six of the four hit modifiers and comes with `hitAtk`), `crunchForType(type,false)` returns
the maximum of the totals of the candidate scenarios, the default one (`d0`) and one per
captain with hit modifiers (`rest`): the value is the total of one of them, and no candidate,
the default one included, has a greater total. -/
theorem crunchForType_summary_max (s : State) (type : String) (hwf : wellFormed s = true) :
    ∃ damage d0 rest v,
      staticDamage s type = .ok damage ∧
      scoreScenario s damage DEFAULT_HIT_MODIFIERS = .ok d0 ∧
      List.Forall₂ (fun c d => scoreScenario s damage c.1 = .ok d)
        (captainsWithHitModifiers s) rest ∧
      crunchForType s type false = .ok (.summary (some v)) ∧
      (∃ d ∈ d0 :: rest, d.overall = some v) ∧
      (∀ d ∈ d0 :: rest, ∃ t, d.overall = some t ∧ t ≤ v) ∧
      (∃ t0, d0.overall = some t0 ∧ t0 ≤ v) := by
  obtain ⟨damage, d0, rest, index, best, v, h1, h2, h3, h4, h5, h6, h7, h8⟩ :=
    scenarioSearch_spec s type hwf
  have hall : ∀ d ∈ d0 :: rest, ∃ t, d.overall = some t ∧ t ≤ v := by
    intro d hd
    obtain ⟨j, hj⟩ := List.getElem?_of_mem hd
    obtain ⟨t, ht, hle, _⟩ := h8 j d hj
    exact ⟨t, ht, hle⟩
  refine ⟨damage, d0, rest, v, h1, h2, h3, ?_, ⟨best, List.getElem?_mem h6, h7⟩, hall,
    hall d0 (List.mem_cons_self _ _)⟩
  simp [crunchForType, h1, h4, h5, bind, Except.bind, pure, Except.pure]

/-- Witness of C2 (amended): `tieState` meets the data contract and is crunched to a number. -/
theorem crunchForType_summary_max_witness :
    wellFormed tieState = true ∧
    ∃ v, crunchForType tieState "STR" false = .ok (.summary (some v)) := by
  have hwf : wellFormed tieState = true := by
    simp [wellFormed, wellFormedAbility, abilities, tieState, tieCaptain, perfectThenGood,
      hitKinds]
  obtain ⟨_, _, _, v, _, _, _, h, _⟩ := crunchForType_summary_max tieState "STR" hwf
  exact ⟨hwf, v, h⟩

/-- C3, as stated, fails: in `tieState` the default scenario and the captain's scenario reach
the same total, and the details report the captain's scenario, enumerated second. -/
theorem tie_keeps_later_scenario :
    staticDamage tieState "STR" = .ok [exampleEntry0] ∧
    captainsWithHitModifiers tieState = [(perfectThenGood, some fun _ _ _ _ _ _ => 1)] ∧
    (∃ d0 d1 t,
      scoreScenario tieState [exampleEntry0] DEFAULT_HIT_MODIFIERS = .ok d0 ∧
      scoreScenario tieState [exampleEntry0] perfectThenGood = .ok d1 ∧
      d0.overall = some t ∧ d1.overall = some t) ∧
    crunchForType tieState "STR" true =
      .ok (.details
        { modifiers := perfectThenGood
          multipliers := [1]
          order := [{ unit := exampleSlot, damage := some 2348, order := 0 }] }) ∧
    perfectThenGood ≠ DEFAULT_HIT_MODIFIERS := by
  refine ⟨staticDamage_tieState, rfl,
    ⟨_, _, 2348, scoreScenario_tieState_default, scoreScenario_tieState_captain, rfl, rfl⟩,
    ?_, by simp [perfectThenGood, DEFAULT_HIT_MODIFIERS]⟩
  simp only [crunchForType, staticDamage_tieState, scoreScenarios,
    scoreScenario_tieState_default, captainsWithHitModifiers_tieState, List.mapM_cons,
    List.mapM_nil, scoreScenario_tieState_captain, bind, Except.bind, pure, Except.pure]
  simp [maxLoop, jsLt]

/-- C3 (amended): when the candidate scenarios are scored to numeric totals, the details
returned by `crunchForType(type,true)` are those of a candidate scenario `best` of greatest
total, and every scenario enumerated after `best` has a strictly smaller total: among the
scenarios that reach the greatest total the latest-enumerated one is reported. -/
theorem crunchForType_details_latest (s : State) (type : String) (damage : List DamageEntry)
    (d0 : Scenario) (rest : List Scenario)
    (hdamage : staticDamage s type = .ok damage)
    (hdata : scoreScenarios s damage = .ok (d0, rest))
    (hnum : ∀ d ∈ d0 :: rest, ∃ t, d.overall = some t) :
    ∃ index best v,
      (d0 :: rest)[index]? = some best ∧ best.overall = some v ∧
      crunchForType s type true =
        .ok (.details
          { modifiers := best.hitModifiers
            multipliers := best.damage.chainMultipliers
            order := best.damage.result }) ∧
      ∀ (j : Nat) (d : Scenario), (d0 :: rest)[j]? = some d →
        ∃ t, d.overall = some t ∧ t ≤ v ∧ (index < j → t < v) := by
  obtain ⟨index, best, v, g1, g2, g3, g4⟩ := maxLoop_select d0 rest hnum
  refine ⟨index, best, v, g2, g3, ?_, g4⟩
  simp [crunchForType, hdamage, hdata, g1, g2, bind, Except.bind, pure, Except.pure]

/-- Witness of C3 (amended): the two scenarios of `tieState`, both of total 2348; the details
are those of one of them. -/
theorem crunchForType_details_latest_witness :
    ∃ best : Scenario, crunchForType tieState "STR" true =
      .ok (.details
        { modifiers := best.hitModifiers
          multipliers := best.damage.chainMultipliers
          order := best.damage.result }) := by
  obtain ⟨_, best, _, _, _, h, _⟩ :=
    crunchForType_details_latest tieState "STR" [exampleEntry0]
      { damage := { result := [{ unit := exampleSlot, damage := some 2348, order := 0 }]
                    chainMultipliers := [1] }
        overall := some 2348
        hitModifiers := DEFAULT_HIT_MODIFIERS }
      [{ damage := { result := [{ unit := exampleSlot, damage := some 2348, order := 0 }]
                     chainMultipliers := [1] }
         overall := some 2348
         hitModifiers := perfectThenGood }]
      staticDamage_tieState
      (by
        simp only [scoreScenarios, scoreScenario_tieState_default,
          captainsWithHitModifiers_tieState, List.mapM_cons, List.mapM_nil,
          scoreScenario_tieState_captain, bind, Except.bind, pure, Except.pure])
      (by
        intro d hd
        simp only [List.mem_cons, List.mem_singleton, List.not_mem_nil, or_false] at hd
        rcases hd with rfl | rfl <;> exact ⟨2348, rfl⟩)
  exact ⟨best, h⟩

/-- C4, as stated, fails: a captain that has `hitModifiers` but no `hitAtk` makes the scoring
of its own scenario throw, and `crunchForType` with it. -/
theorem missing_hitAtk_throws :
    abilities brokenState = [brokenCaptain] ∧
    brokenCaptain.hitModifiers = some allGood ∧ brokenCaptain.hitAtk = none ∧
    staticDamage brokenState "STR" = .ok [exampleEntry0] ∧
    scoreScenario brokenState [exampleEntry0] allGood =
      .error "TypeError: func is not a function" ∧
    crunchForType brokenState "STR" true = .error "TypeError: func is not a function" :=
  ⟨rfl, rfl, rfl, staticDamage_brokenState, scoreScenario_brokenState_allGood _ _,
    crunchForType_brokenState true⟩

/-- C4 (amended): for a sequence `M` such that every captain whose own `hitModifiers` equals
`M` defines `hitAtk`, scoring `M` multiplies every unit's sorted contribution by the `hitAtk`
of exactly the captains whose own `hitModifiers` equals `M` (whichever captain contributed
`M`), and runs the chain engine on the outcome; a captain whose `hitModifiers` differs from
`M` contributes no factor and causes no failure, with or without `hitAtk`. -/
theorem scoreScenario_hitAtk (s : State) (damage : List DamageEntry) (M : List String)
    (h : ∀ a ∈ abilities s, a.hitModifiers = some M → a.hitAtk ≠ none) :
    applyCompatibleEffects s M (captainsWithHitModifiers s) damage =
      .ok (damage.mapIdx fun n x =>
        { x with damage := x.damage * hitAtkProduct s (abilities s) M x.unit.unit n 1 }) ∧
    scoreScenario s damage M =
      .ok { damage := applyChainAndBonusMultipliers s
              (damage.mapIdx fun n x =>
                { x with damage := x.damage * hitAtkProduct s (abilities s) M x.unit.unit n 1 })
              M (captainsWithChainModifiers s)
            overall := overallDamage (applyChainAndBonusMultipliers s
              (damage.mapIdx fun n x =>
                { x with damage := x.damage * hitAtkProduct s (abilities s) M x.unit.unit n 1 })
              M (captainsWithChainModifiers s)).result
            hitModifiers := M } := by
  have hfold := compatFold_eq s M (abilities s) damage h
  have hprod : ∀ (n : Nat) (x : DamageEntry),
      hitAtkProduct s (abilities s) M x.unit.unit n x.damage =
        x.damage * hitAtkProduct s (abilities s) M x.unit.unit n 1 := by
    intro n x
    unfold hitAtkProduct
    exact foldl_mul_init (fun f : CaptainFn => f x.unit.unit n s.currentHP s.maxHP s.percHP none)
      _ _
  simp only [hprod] at hfold
  have happly : applyCompatibleEffects s M (captainsWithHitModifiers s) damage =
      .ok (damage.mapIdx fun n x =>
        { x with damage := x.damage * hitAtkProduct s (abilities s) M x.unit.unit n 1 }) := by
    simpa only [applyCompatibleEffects, captainsWithHitModifiers] using hfold
  refine ⟨happly, ?_⟩
  simp only [scoreScenario, happly, bind, Except.bind, pure, Except.pure]

/-- Witness of C4 (amended): in `goodState` the captain's own sequence `allGood` multiplies
the contribution 1000 by the captain's `hitAtk` of 1.5. -/
theorem scoreScenario_hitAtk_witness :
    applyCompatibleEffects goodState allGood (captainsWithHitModifiers goodState)
      [exampleEntry0] = .ok [{ exampleEntry0 with damage := 1000 * (1 * (3/2)) }] := by
  have h := (scoreScenario_hitAtk goodState [exampleEntry0] allGood (by
    intro a ha hm
    simp only [abilities, goodState, Option.toList, List.append_nil, List.mem_singleton] at ha
    subst ha
    simp [goodCaptain])).1
  rw [h]
  simp [hitAtkProduct, abilities, goodState, goodCaptain, initialState, exampleEntry0]

/-- C5: the recorded chain-multiplier trace holds the value used going into each hit. For the
hit at position `n` on entry `x` the run records a multiplier `c`, computes the hit from
`x.damage * c`, has `c = 1` at position 0, and (when a next hit exists) records for it
`c + 0.3*P` after a Perfect, `c + 0.1*P` after a Great and `c` after a Good, `P` being the
product of the captains' `chainModifier` at that position. With two units, no captains and
the default sequence the trace is `[1, 1.3]` and the second unit is computed from
`damage * 1.3`. -/
theorem chain_trace (s : State) (damage : List DamageEntry) (M : List String)
    (captains : List CaptainFn) (x0 x1 : DamageEntry) :
    (∀ (n : Nat) (x : DamageEntry), damage[n]? = some x →
      ∃ c, (applyChainAndBonusMultipliers s damage M captains).chainMultipliers[n]? = some c ∧
        (applyChainAndBonusMultipliers s damage M captains).result[n]? =
          some { unit := x.unit
                 damage := computeDamageOfUnit s x.unit.unit (x.damage * c) M[n]?
                 order := x.order } ∧
        (n = 0 → c = 1) ∧
        (n + 1 < damage.length →
          (M[n]? = some "Perfect" →
            (applyChainAndBonusMultipliers s damage M captains).chainMultipliers[n + 1]? =
              some (c + 3/10 * chainModifierProduct s captains x.unit.unit n M[n]?)) ∧
          (M[n]? = some "Great" →
            (applyChainAndBonusMultipliers s damage M captains).chainMultipliers[n + 1]? =
              some (c + 1/10 * chainModifierProduct s captains x.unit.unit n M[n]?)) ∧
          (M[n]? = some "Good" →
            (applyChainAndBonusMultipliers s damage M captains).chainMultipliers[n + 1]? =
              some c))) ∧
    (applyChainAndBonusMultipliers s [x0, x1] DEFAULT_HIT_MODIFIERS []).chainMultipliers =
      [1, 13/10] ∧
    (applyChainAndBonusMultipliers s [x0, x1] DEFAULT_HIT_MODIFIERS []).result =
      [{ unit := x0.unit
         damage := computeDamageOfUnit s x0.unit.unit (x0.damage * 1) (some "Perfect")
         order := x0.order },
       { unit := x1.unit
         damage := computeDamageOfUnit s x1.unit.unit (x1.damage * (13/10)) (some "Perfect")
         order := x1.order }] := by
  refine ⟨?_, ?_, ?_⟩
  · intro n x hx
    obtain ⟨c, h1, h2, h3, h4⟩ := chainLoop_get s M captains damage 0 1 n x hx
    simp only [Nat.zero_add] at h2 h4
    refine ⟨c, h1, h2, h3, ?_⟩
    intro hlen
    have h := h4 hlen
    refine ⟨?_, ?_, ?_⟩ <;> intro hM <;>
      simpa [applyChainAndBonusMultipliers, getChainMultiplier, hM] using h
  · simp [applyChainAndBonusMultipliers, chainLoop, DEFAULT_HIT_MODIFIERS, getChainMultiplier,
      chainModifierProduct]
    norm_num
  · simp [applyChainAndBonusMultipliers, chainLoop, DEFAULT_HIT_MODIFIERS, getChainMultiplier,
      chainModifierProduct]
    norm_num

/-- Witness of C5: for the two example entries under the default sequence and no captains the
multiplier recorded for the second hit is `1.3`. -/
theorem chain_trace_witness :
    (applyChainAndBonusMultipliers initialState [exampleEntry0, exampleEntry1]
      DEFAULT_HIT_MODIFIERS []).chainMultipliers[1]? = some (13/10) := by
  obtain ⟨c, _, _, h3, h4⟩ :=
    (chain_trace initialState [exampleEntry0, exampleEntry1] DEFAULT_HIT_MODIFIERS []
      exampleEntry0 exampleEntry1).1 0 exampleEntry0 rfl
  have h := (h4 (by simp)).1 (by simp [DEFAULT_HIT_MODIFIERS])
  rw [h3 rfl] at h
  rw [h]
  norm_num [chainModifierProduct]

/-- C6: on a Miss `getChainMultiplier` returns exactly 1 whatever the prior multiplier and the
chain-modifier factor, and in every run whose sequence has a Miss at position `n` the
multiplier recorded for, and used by, the hit at position `n + 1` is exactly 1. -/
theorem chain_reset_after_miss (s : State) (damage : List DamageEntry) (M : List String)
    (captains : List CaptainFn) (c m : ℚ) (n : Nat) (y : DamageEntry)
    (hM : M[n]? = some "Miss") (hy : damage[n + 1]? = some y) :
    getChainMultiplier c (some "Miss") m = 1 ∧
    (applyChainAndBonusMultipliers s damage M captains).chainMultipliers[n + 1]? = some 1 ∧
    (applyChainAndBonusMultipliers s damage M captains).result[n + 1]? =
      some { unit := y.unit
             damage := computeDamageOfUnit s y.unit.unit (y.damage * 1) M[n + 1]?
             order := y.order } := by
  have hlen : n + 1 < damage.length := by
    by_contra hge
    rw [List.getElem?_eq_none (Nat.le_of_not_lt hge)] at hy
    exact Option.noConfusion hy
  have hn : n < damage.length := by omega
  obtain ⟨ck, _, _, _, h4⟩ :=
    chainLoop_get s M captains damage 0 1 n damage[n] (List.getElem?_eq_getElem hn)
  have hnext := h4 hlen
  simp only [Nat.zero_add, hM] at hnext
  have hone : ∀ a b : ℚ, getChainMultiplier a (some "Miss") b = 1 := by
    intro a b
    simp [getChainMultiplier]
  rw [hone] at hnext
  obtain ⟨c1, g1, g2, _, _⟩ := chainLoop_get s M captains damage 0 1 (n + 1) y hy
  simp only [Nat.zero_add] at g2
  have hc1 : c1 = 1 := by
    rw [hnext] at g1
    exact (Option.some.inj g1).symm
  subst hc1
  exact ⟨hone c m, hnext, g2⟩

/-- Witness of C6: after a Miss on the first of the two example entries, the second hit uses
the chain multiplier 1. -/
theorem chain_reset_after_miss_witness :
    (applyChainAndBonusMultipliers initialState [exampleEntry0, exampleEntry1]
      ["Miss", "Perfect", "Perfect", "Perfect", "Perfect", "Perfect"] []).chainMultipliers[1]? =
      some 1 :=
  (chain_reset_after_miss initialState [exampleEntry0, exampleEntry1]
    ["Miss", "Perfect", "Perfect", "Perfect", "Perfect", "Perfect"] [] 5 7 0 exampleEntry1
    rfl rfl).2.1

/-- In exact arithmetic, for a unit template with integer `minATK` and `maxATK` and
`maxLevel > 1`, the attack formula gives `minATK` at level 1 and `maxATK` at level
`maxLevel`. -/
theorem getAttackOfUnit_endpoints (unit : UnitData) (orb : ℚ) (a b : ℤ)
    (hmin : unit.minATK = a) (hmax : unit.maxATK = b) (hlevel : 1 < unit.maxLevel) :
    getAttackOfUnit { unit := unit, level := 1, orb := orb } = a ∧
    getAttackOfUnit { unit := unit, level := unit.maxLevel, orb := orb } = b := by
  have hne : unit.maxLevel ≠ 1 := ne_of_gt hlevel
  have hsub : unit.maxLevel - 1 ≠ 0 := sub_ne_zero.mpr hne
  constructor
  · simp [getAttackOfUnit, hmin]
  · have h : (a : ℚ) + ((b : ℚ) - a) / (unit.maxLevel - 1) * (unit.maxLevel - 1) = (b : ℤ) := by
      rw [div_mul_cancel₀ _ hsub]; ring
    simp only [getAttackOfUnit, hmin, hmax, if_neg hne, h, Int.floor_intCast]

/-- The double nearest to `q` when `2^k ≤ |q| < 2^(k+1)`. -/
theorem roundDouble_eq (q : ℚ) (k : ℤ) (h1 : (2 : ℚ) ^ k ≤ |q|) (h2 : |q| < (2 : ℚ) ^ (k + 1)) :
    roundDouble q = roundHalfEven (q / 2 ^ (k - 52)) * 2 ^ (k - 52) := by
  have hpos : 0 < |q| := lt_of_lt_of_le (by positivity) h1
  have hq : q ≠ 0 := abs_pos.mp hpos
  have hlog : Int.log 2 |q| = k := by
    apply le_antisymm
    · have hlt := (Int.lt_zpow_iff_log_lt (b := 2) (by norm_num) hpos (x := k + 1)).mp
        (by exact_mod_cast h2)
      omega
    · exact (Int.zpow_le_iff_le_log (b := 2) (by norm_num) hpos).mp (by exact_mod_cast h1)
  simp only [roundDouble, if_neg hq, hlog]

/-- The integer 99 is a double. -/
theorem roundDouble_99 : roundDouble 99 = 99 := by
  rw [roundDouble_eq 99 6 (by norm_num) (by norm_num)]
  norm_num [roundHalfEven]

/-- The integer 20 is a double. -/
theorem roundDouble_20 : roundDouble 20 = 20 := by
  rw [roundDouble_eq 20 4 (by norm_num) (by norm_num)]
  norm_num [roundHalfEven]

/-- The integer 49 is a double. -/
theorem roundDouble_49 : roundDouble 49 = 49 := by
  rw [roundDouble_eq 49 5 (by norm_num) (by norm_num)]
  norm_num [roundHalfEven]

/-- The double `99 / 49` is `2.020408163265306`, below the exact quotient. -/
theorem roundDouble_99_div_49 : roundDouble (99 / 49) = 2274777362804485 / 2 ^ 50 := by
  rw [roundDouble_eq (99 / 49) 1 (by rw [abs_of_pos (by norm_num)]; norm_num)
    (by rw [abs_of_pos (by norm_num)]; norm_num)]
  norm_num [roundHalfEven]

/-- The double `99 / 49 * 49` is `98.99999999999999`. -/
theorem roundDouble_quotient_mul_49 :
    roundDouble (2274777362804485 / 2 ^ 50 * 49) = 6966505673588735 / 2 ^ 46 := by
  rw [roundDouble_eq _ 6 (by rw [abs_of_pos (by norm_num)]; norm_num)
    (by rw [abs_of_pos (by norm_num)]; norm_num)]
  norm_num [roundHalfEven]

/-- The double `20 + 99 / 49 * 49` is `118.99999999999999`. -/
theorem roundDouble_20_add :
    roundDouble (20 + 6966505673588735 / 2 ^ 46) = 8373880557142015 / 2 ^ 46 := by
  rw [roundDouble_eq _ 6 (by rw [abs_of_pos (by norm_num)]; norm_num)
    (by rw [abs_of_pos (by norm_num)]; norm_num)]
  norm_num [roundHalfEven]

/-- C7 fails on the code as JavaScript runs it: for the unit template with `minATK = 20`,
`maxATK = 119` and `maxLevel = 50`, the attack at level 1 is 20, but in doubles
`(119 - 20) / 49 * 49` is `98.99999999999999`, so the attack at level `maxLevel` is 118 and
not `maxATK`. -/
theorem getAttackOfUnitDouble_maxLevel_below_maxATK :
    roundingUnit.minATK = 20 ∧ roundingUnit.maxATK = 119 ∧ 1 < roundingUnit.maxLevel ∧
    getAttackOfUnitDouble { unit := roundingUnit, level := 1, orb := 1 } = 20 ∧
    getAttackOfUnitDouble { unit := roundingUnit, level := roundingUnit.maxLevel, orb := 1 } =
      118 := by
  have h1 : (119 : ℚ) - 20 = 99 := by norm_num
  have h2 : (50 : ℚ) - 1 = 49 := by norm_num
  have h3 : ¬ ((50 : ℚ) = 1) := by norm_num
  have h4 : (1 : ℚ) - 1 = 0 := by norm_num
  have h5 : roundDouble 0 = 0 := by simp [roundDouble]
  refine ⟨rfl, rfl, by norm_num [roundingUnit], ?_, ?_⟩
  · simp only [getAttackOfUnitDouble, roundingUnit, h1, h2, h4, h5, if_neg h3, roundDouble_99,
      roundDouble_49, mul_zero, add_zero, roundDouble_20]
    norm_num
  · simp only [getAttackOfUnitDouble, roundingUnit, h1, h2, if_neg h3, roundDouble_99,
      roundDouble_49]
    rw [roundDouble_99_div_49, roundDouble_quotient_mul_49, roundDouble_20_add]
    norm_num

/-- C8, as stated, fails: for a table entry with `minATK = 10`, `maxATK = 5` and
`maxLevel = 2` the attack at level 1 is 10 and the attack at level 2 is 5. -/
theorem getAttackOfUnit_not_mono :
    1 < decreasingUnit.maxLevel ∧ (1 : ℚ) ≤ 2 ∧
    ¬ (getAttackOfUnit { unit := decreasingUnit, level := 1, orb := 1 } ≤
        getAttackOfUnit { unit := decreasingUnit, level := 2, orb := 1 }) := by
  have h1 : getAttackOfUnit { unit := decreasingUnit, level := 1, orb := 1 } = 10 := by
    norm_num [getAttackOfUnit, decreasingUnit]
  have h2 : getAttackOfUnit { unit := decreasingUnit, level := 2, orb := 1 } = 5 := by
    norm_num [getAttackOfUnit, decreasingUnit]
  rw [h1, h2]
  norm_num [decreasingUnit]

/-- C8 (amended): for a unit template with `maxLevel > 1` and `minATK ≤ maxATK`, and levels
`l1 ≤ l2`, `getAttackOfUnit` at `l1` is at most `getAttackOfUnit` at `l2`. -/
theorem getAttackOfUnit_mono (unit : UnitData) (orb1 orb2 l1 l2 : ℚ)
    (hlevel : 1 < unit.maxLevel) (hatk : unit.minATK ≤ unit.maxATK) (hl : l1 ≤ l2) :
    getAttackOfUnit { unit := unit, level := l1, orb := orb1 } ≤
      getAttackOfUnit { unit := unit, level := l2, orb := orb2 } := by
  have hne : unit.maxLevel ≠ 1 := ne_of_gt hlevel
  have hpos : 0 < unit.maxLevel - 1 := sub_pos.mpr hlevel
  have hslope : 0 ≤ (unit.maxATK - unit.minATK) / (unit.maxLevel - 1) :=
    div_nonneg (sub_nonneg.mpr hatk) hpos.le
  simp only [getAttackOfUnit, if_neg hne]
  apply Int.floor_mono
  have hsub : l1 - 1 ≤ l2 - 1 := by linarith
  have hmul := mul_le_mul_of_nonneg_left hsub hslope
  linarith

/-- Witness of C8 (amended): the example unit at levels 10 and 20. -/
theorem getAttackOfUnit_mono_witness :
    getAttackOfUnit { unit := exampleUnit, level := 10, orb := 1 } ≤
      getAttackOfUnit { unit := exampleUnit, level := 20, orb := 1 } :=
  getAttackOfUnit_mono exampleUnit 1 1 10 20 (by norm_num [exampleUnit])
    (by norm_num [exampleUnit]) (by norm_num)

/-- C9: for attacker and target types among STR, QCK, DEX, PSY and INT,
`getTypeMultiplierOfUnit` returns 2 for (STR,DEX), (QCK,STR), (DEX,QCK), (INT,PSY) and
(PSY,INT), 0.5 for (STR,QCK), (QCK,DEX) and (DEX,STR), and 1 for every other pair. -/
theorem getTypeMultiplierOfUnit_table (data : Slot) (against : String)
    (ht : data.unit.type ∈ elementalTypes) (ha : against ∈ elementalTypes) :
    getTypeMultiplierOfUnit data against =
      if (data.unit.type, against) ∈
          [("STR", "DEX"), ("QCK", "STR"), ("DEX", "QCK"), ("INT", "PSY"), ("PSY", "INT")] then 2
      else if (data.unit.type, against) ∈ [("STR", "QCK"), ("QCK", "DEX"), ("DEX", "STR")]
        then 1/2
      else 1 := by
  simp only [elementalTypes, List.mem_cons, List.mem_singleton, List.not_mem_nil, or_false]
    at ht ha
  rcases ht with h | h | h | h | h <;> rcases ha with h' | h' | h' | h' | h' <;>
    simp [getTypeMultiplierOfUnit, h, h']

/-- Witness of C9: the STR example unit against DEX. -/
theorem getTypeMultiplierOfUnit_table_witness :
    getTypeMultiplierOfUnit exampleSlot "DEX" = 2 := by
  have h := getTypeMultiplierOfUnit_table exampleSlot "DEX"
    (by simp [exampleSlot, exampleUnit, elementalTypes]) (by simp [elementalTypes])
  rw [h]
  simp [exampleSlot, exampleUnit]

/-- C10, as stated, fails: the product of the two multipliers is also 1 for a type of the
triangle paired with itself (1 * 1), which is no matchup pair; and the multiplier is symmetric
on pairs other than INT/PSY, such as STR against PSY (1 both ways). -/
theorem typeMultiplier_product_one_on_equal_types :
    ¬ (∀ x y : Slot, x.unit.type ∈ triangleTypes → y.unit.type ∈ triangleTypes →
        getTypeMultiplierOfUnit x y.unit.type * getTypeMultiplierOfUnit y x.unit.type = 1 →
        x.unit.type ≠ y.unit.type) ∧
    getTypeMultiplierOfUnit exampleSlot "PSY" =
      getTypeMultiplierOfUnit { exampleSlot with unit := { exampleUnit with type := "PSY" } }
        exampleSlot.unit.type := by
  constructor
  · intro h
    have hp : getTypeMultiplierOfUnit exampleSlot exampleSlot.unit.type *
        getTypeMultiplierOfUnit exampleSlot exampleSlot.unit.type = 1 := by
      simp [getTypeMultiplierOfUnit, exampleSlot, exampleUnit]
    exact h exampleSlot exampleSlot (by simp [exampleSlot, exampleUnit, triangleTypes])
      (by simp [exampleSlot, exampleUnit, triangleTypes]) hp rfl
  · simp [getTypeMultiplierOfUnit, exampleSlot, exampleUnit]

/-- C10 (amended): over the five types the multiplier of `a` against `b` differs from the one
of `b` against `a` exactly when `a` and `b` are two distinct types of the triangle; for all
`a`, `b` of the triangle the product of the two is 1 (2 * 0.5 for distinct types, 1 * 1 for
`a = b`); and INT against PSY and PSY against INT are both 2. -/
theorem typeMultiplier_symmetry (x y : Slot)
    (hx : x.unit.type ∈ elementalTypes) (hy : y.unit.type ∈ elementalTypes) :
    (getTypeMultiplierOfUnit x y.unit.type ≠ getTypeMultiplierOfUnit y x.unit.type ↔
      x.unit.type ≠ y.unit.type ∧ x.unit.type ∈ triangleTypes ∧ y.unit.type ∈ triangleTypes) ∧
    (x.unit.type ∈ triangleTypes → y.unit.type ∈ triangleTypes →
      getTypeMultiplierOfUnit x y.unit.type * getTypeMultiplierOfUnit y x.unit.type = 1) ∧
    (x.unit.type = "INT" → y.unit.type = "PSY" →
      getTypeMultiplierOfUnit x y.unit.type = 2 ∧ getTypeMultiplierOfUnit y x.unit.type = 2) := by
  simp only [elementalTypes, List.mem_cons, List.mem_singleton, List.not_mem_nil, or_false]
    at hx hy
  rcases hx with h | h | h | h | h <;> rcases hy with h' | h' | h' | h' | h' <;>
    simp [getTypeMultiplierOfUnit, h, h', triangleTypes] <;> norm_num

/-- Witness of C10 (amended): the STR example unit against a QCK unit: the multipliers 0.5 and
2 have product 1. -/
theorem typeMultiplier_symmetry_witness :
    getTypeMultiplierOfUnit exampleSlot "QCK" *
      getTypeMultiplierOfUnit { exampleSlot with unit := { exampleUnit with type := "QCK" } }
        "STR" = 1 :=
  (typeMultiplier_symmetry exampleSlot
    { exampleSlot with unit := { exampleUnit with type := "QCK" } }
    (by simp [exampleSlot, exampleUnit, elementalTypes]) (by simp [elementalTypes])).2.1
    (by simp [exampleSlot, exampleUnit, triangleTypes]) (by simp [triangleTypes])

/-- C11, as stated, fails on its example: a STR unit with a single level keeps its `minATK`, so
with `minATK = 5`, `maxATK = 10`, level 1 = `maxLevel`, orb 2, no captains and `merryBonus = 1`
the contribution against DEX is 20, not `maxATK * 2 * 2 * 1 = 40`. -/
theorem contribution_at_single_level :
    ({ unit := singleLevelUnit, level := 1, orb := 2 } : Slot).level = singleLevelUnit.maxLevel ∧
    teamDamage (soloState { unit := singleLevelUnit, level := 1, orb := 2 }) "DEX" =
      [{ unit := { unit := singleLevelUnit, level := 1, orb := 2 }, damage := 20, order := 0 }] ∧
    (20 : ℚ) ≠ singleLevelUnit.maxATK * 2 * 2 * 1 := by
  refine ⟨rfl, ?_, by norm_num [singleLevelUnit]⟩
  have hatk : getAttackOfUnit { unit := singleLevelUnit, level := 1, orb := 2 } = 5 := by
    norm_num [getAttackOfUnit, singleLevelUnit]
  simp [teamDamage, soloState, initialState, List.enum, List.enumFrom, getOrbMultiplierOfUnit,
    getTypeMultiplierOfUnit, hatk]
  norm_num [singleLevelUnit]

/-- C11 (amended): for every team and target type the contribution built for each occupied slot
is `attack(unit, level) * orbMultiplier * typeMultiplier(unit.type, target) * merryBonus`, where
`orbMultiplier` is `orb(unit, slotOrb)` of the first captain in slot order that defines `orb`,
else the own orb value of the slot; for one STR unit with orb 2, no captains and
`merryBonus = 1`, against DEX, this is `attack(unit, level) * 2 * 2 * 1`. -/
theorem teamDamage_contribution (s : State) (type : String) (x : Slot)
    (hx : x.unit.type = "STR") (horb : x.orb = 2) :
    teamDamage s type =
      (s.team.enum.filterMap fun p =>
        p.2.map fun y =>
          { unit := y
            damage := getAttackOfUnit y * specOrbMultiplier s y *
              getTypeMultiplierOfUnit y type * s.merryBonus
            order := p.1 }) ∧
    teamDamage (soloState x) "DEX" =
      [{ unit := x, damage := getAttackOfUnit x * 2 * 2 * 1, order := 0 }] := by
  constructor
  · simp only [teamDamage, getOrbMultiplierOfUnit_eq]
  · simp [teamDamage, soloState, initialState, List.enum, List.enumFrom, getOrbMultiplierOfUnit,
      getTypeMultiplierOfUnit, hx, horb]

/-- Witness of C11 (amended): the example unit at level 50 with orb 2 contributes
`1000 * 2 * 2 * 1` against DEX. -/
theorem teamDamage_contribution_witness :
    teamDamage (soloState { exampleSlot with orb := 2 }) "DEX" =
      [{ unit := { exampleSlot with orb := 2 }, damage := 1000 * 2 * 2 * 1, order := 0 }] := by
  have h := (teamDamage_contribution initialState "DEX" { exampleSlot with orb := 2 } rfl rfl).2
  have hatk : getAttackOfUnit { exampleSlot with orb := 2 } = 1000 := by
    norm_num [getAttackOfUnit, exampleSlot, exampleUnit]
  rw [h, hatk]
  norm_num

/-- C12: for a team whose units have a positive whole `maxLevel`, the HP of every consolidated
result `crunch` emits is `max(1, sum over the occupied slots of
floor(minHP + (maxHP - minHP) / max(1, maxLevel - 1) * (level - 1)) * product of hp(unit) over
the captains that define hp)`, hence at least 1; with crunching enabled an empty roster gives a
result whose HP is exactly 1, and every state that meets the data contract gives a result. -/
theorem consolidated_HP (s : State)
    (htype : ∀ x ∈ occupiedSlots s, ∃ k : ℕ, 1 ≤ k ∧ x.unit.maxLevel = k) :
    (∀ r, crunch s = .ok (some r) → r.HP = specTeamHP s ∧ 1 ≤ r.HP) ∧
    (s.crunchingEnabled = true → occupiedSlots s = [] →
      ∃ r, crunch s = .ok (some r) ∧ r.HP = 1) ∧
    (s.crunchingEnabled = true → wellFormed s = true → ∃ r, crunch s = .ok (some r)) := by
  have hHP : ∀ r, crunch s = .ok (some r) → r.HP = specTeamHP s ∧ 1 ≤ r.HP := by
    intro r hr
    have h := fullRecompute_HP s r ((crunch_some s r).mp hr).2
    rw [h, teamHP_eq s htype]
    exact ⟨rfl, le_max_left _ _⟩
  refine ⟨hHP, ?_, ?_⟩
  · intro hen hempty
    obtain ⟨r, hr⟩ := fullRecompute_ok s (fun type => crunchForType_empty s type hempty)
    have hc : crunch s = .ok (some r) := (crunch_some s r).mpr ⟨hen, hr⟩
    refine ⟨r, hc, ?_⟩
    rw [(hHP r hc).1]
    simp [specTeamHP, hempty]
  · intro hen hwf
    obtain ⟨r, hr⟩ := fullRecompute_ok s (fun type => crunchForType_wellFormed s type hwf)
    exact ⟨r, (crunch_some s r).mpr ⟨hen, hr⟩⟩

/-- Witness of C12: the example unit alone at level 50 gives a consolidated result with
2000 HP. -/
theorem consolidated_HP_witness :
    ∃ r, crunch (soloState exampleSlot) = .ok (some r) ∧ r.HP = 2000 := by
  have h := consolidated_HP (soloState exampleSlot) (by
    intro x hx
    have hx' : x = exampleSlot := by
      simpa [occupiedSlots, soloState, initialState] using hx
    subst hx'
    exact ⟨50, by norm_num, by norm_num [exampleSlot, exampleUnit]⟩)
  obtain ⟨r, hr⟩ := h.2.2 rfl rfl
  refine ⟨r, hr, ?_⟩
  rw [(h.1 r hr).1]
  have hocc : occupiedSlots (soloState exampleSlot) = [exampleSlot] := rfl
  have hhp : specHp exampleSlot = 2000 := by
    norm_num [specHp, exampleSlot, exampleUnit]
  have hprod : hpProduct (soloState exampleSlot) exampleSlot.unit = 1 := rfl
  simp only [specTeamHP, hocc, List.map_cons, List.map_nil, List.sum_cons, List.sum_nil, hhp,
    hprod]
  norm_num

/-- C13: starting from the initial state, after any sequence of events whose slot arguments
lie in 0..5 (among them every sequence of `onUnitPick`, `onLevelChange`,
`onOrbMultiplierChanged`, `onUnitsSwitched` and `onUnitRemoved`), the team has exactly 6 slots
and, for each captain slot, `captainAbilities` is null when the slot is empty or the captain
table has no entry under the key `unit.number + 1`, and else the ability compiled from that
entry for the unit in the slot. -/
theorem captainAbilities_derived (env : Env) (evs : List Event)
    (hslots : ∀ ev ∈ evs, slotsInRange ev = true) :
    (run env initialState evs).team.length = 6 ∧
    (run env initialState evs).captainAbilities.1 =
      derivedAbility env (run env initialState evs).team[0]?.join ∧
    (run env initialState evs).captainAbilities.2 =
      derivedAbility env (run env initialState evs).team[1]?.join :=
  run_captainsDerived env evs initialState ⟨rfl, rfl, rfl⟩ hslots

/-- Witness of C13: a pick into slot 0, a level change, a swap of the slots 0 and 1 and a
removal. -/
theorem captainAbilities_derived_witness :
    (run exampleEnv initialState
      [.unitPicked 0 0, .unitLevelChanged 0 50, .unitsSwitched 0 1, .unitRemoved 3]).team.length
        = 6 ∧
    (run exampleEnv initialState
      [.unitPicked 0 0, .unitLevelChanged 0 50, .unitsSwitched 0 1,
        .unitRemoved 3]).captainAbilities.1 =
      derivedAbility exampleEnv (run exampleEnv initialState
        [.unitPicked 0 0, .unitLevelChanged 0 50, .unitsSwitched 0 1,
          .unitRemoved 3]).team[0]?.join ∧
    (run exampleEnv initialState
      [.unitPicked 0 0, .unitLevelChanged 0 50, .unitsSwitched 0 1,
        .unitRemoved 3]).captainAbilities.2 =
      derivedAbility exampleEnv (run exampleEnv initialState
        [.unitPicked 0 0, .unitLevelChanged 0 50, .unitsSwitched 0 1,
          .unitRemoved 3]).team[1]?.join :=
  captainAbilities_derived exampleEnv
    [.unitPicked 0 0, .unitLevelChanged 0 50, .unitsSwitched 0 1, .unitRemoved 3]
    (by simp [slotsInRange])

/-- C14: for every state and type, `crunchForType(type,false)` returns a summary exactly when
`crunchForType(type,true)` returns details (else both throw), and then the summary value is the
sum of the damage entries of `order`, while `modifiers`, `multipliers` and `order` are the hit
modifiers, the chain multipliers and the result of one and the same scored candidate. -/
theorem summary_eq_details_sum (s : State) (type : String) :
    ((∃ v, crunchForType s type false = .ok (.summary v)) ↔
      ∃ r, crunchForType s type true = .ok (.details r)) ∧
    ∀ v r, crunchForType s type false = .ok (.summary v) →
      crunchForType s type true = .ok (.details r) →
      v = overallDamage r.order ∧
      ∃ damage M sc,
        staticDamage s type = .ok damage ∧
        M ∈ DEFAULT_HIT_MODIFIERS :: (captainsWithHitModifiers s).map (·.1) ∧
        scoreScenario s damage M = .ok sc ∧
        r.modifiers = M ∧ r.multipliers = sc.damage.chainMultipliers ∧
        r.order = sc.damage.result := by
  obtain ⟨damage, hdamage, _⟩ := staticDamage_ok s type
  cases hdata : scoreScenarios s damage with
  | error e =>
    have hf := crunchForType_of_error s type false damage e hdamage hdata
    have ht := crunchForType_of_error s type true damage e hdamage hdata
    simp [hf, ht]
  | ok data =>
    obtain ⟨d0, rest⟩ := data
    have hf := crunchForType_of_scores s type false damage d0 rest hdamage hdata
    have ht := crunchForType_of_scores s type true damage d0 rest hdamage hdata
    simp only [Bool.not_false, Bool.not_true, if_true, Bool.false_eq_true, if_false] at hf ht
    refine ⟨⟨fun _ => ⟨_, ht⟩, fun _ => ⟨_, hf⟩⟩, ?_⟩
    intro v r hv hr
    rw [hf] at hv
    rw [ht] at hr
    simp only [Except.ok.injEq, CrunchResult.summary.injEq, CrunchResult.details.injEq] at hv hr
    obtain ⟨d', hd', hover⟩ := maxLoop_consistent rest [d0] 0 d0.overall d0 (by simp) rfl
    simp only [List.length_singleton, List.singleton_append] at hd' hover
    have hget : (d0 :: rest).getD (maxLoop rest 1 0 d0.overall).1 d0 = d' := by
      rw [List.getD_eq_getElem?_getD, hd']
      rfl
    rw [hget] at hr
    obtain ⟨M, hM, hscore⟩ :=
      forall₂_getElem_some _ _ _ (scoreScenarios_candidates s damage d0 rest hdata) _ d' hd'
    obtain ⟨hmods, hsum⟩ := scoreScenario_fields s damage M d' hscore
    subst hv hr
    refine ⟨?_, damage, M, d', hdamage, List.getElem?_mem hM, hscore, hmods, rfl, rfl⟩
    rw [← hover, hsum]

/-- C15: for every state and type the list handed to the scenario search is the base
contributions of the occupied slots, each multiplied by the `atk` of every captain that defines
one (slot 0, then slot 1), sorted ascending by value; entries of equal value keep their slot
order, and each entry carries the index of the slot its unit occupies. -/
theorem staticDamage_sorted_stable (s : State) (type : String) :
    ∃ sorted, staticDamage s type = .ok sorted ∧
      sorted.Perm (scaledDamage s type) ∧
      sorted.Sorted (fun x y => x.damage ≤ y.damage) ∧
      (∀ v : ℚ, sorted.filter (fun x => decide (x.damage = v)) =
        (scaledDamage s type).filter (fun x => decide (x.damage = v))) ∧
      ((scaledDamage s type).map (·.order)).Sorted (· < ·) ∧
      (scaledDamage s type).map (·.unit) = occupiedSlots s ∧
      ∀ e ∈ sorted, s.team[e.order]? = some (some e.unit) := by
  haveI : IsTotal DamageEntry (fun x y => x.damage ≤ y.damage) :=
    ⟨fun a b => le_total a.damage b.damage⟩
  haveI : IsTrans DamageEntry (fun x y => x.damage ≤ y.damage) :=
    ⟨fun a b c hab hbc => le_trans hab hbc⟩
  have hperm : ((scaledDamage s type).insertionSort fun x y => x.damage ≤ y.damage).Perm
      (scaledDamage s type) := List.perm_insertionSort _ _
  have hfields := scaledDamage_fields s type
  have horder := teamDamage_order s type
  refine ⟨_, staticDamage_eq s type, hperm, List.sorted_insertionSort _ _, ?_, ?_, ?_, ?_⟩
  · intro v
    have hsub : List.Sublist ((scaledDamage s type).filter (fun x => decide (x.damage = v)))
        ((scaledDamage s type).insertionSort fun x y => x.damage ≤ y.damage) := by
      apply List.sublist_insertionSort _ (List.filter_sublist _)
      apply List.pairwise_of_forall_mem_list
      intro a ha b hb
      have ha' := (List.mem_filter.mp ha).2
      have hb' := (List.mem_filter.mp hb).2
      simp only [decide_eq_true_eq] at ha' hb'
      rw [ha', hb']
    have hsub2 := hsub.filter (fun x => decide (x.damage = v))
    rw [List.filter_filter] at hsub2
    simp only [Bool.and_self] at hsub2
    exact (hsub2.eq_of_length ((hperm.filter _).length_eq).symm).symm
  · rw [hfields.1]
    exact horder.2
  · rw [hfields.2]
    exact teamDamage_units s type
  · intro e he
    have he' : e ∈ scaledDamage s type := hperm.mem_iff.mp he
    simp only [scaledDamage, List.mem_mapIdx] at he'
    obtain ⟨i, hi, rfl⟩ := he'
    exact horder.1 ((teamDamage s type)[i]) (List.getElem_mem _)

/-- C16, as stated, fails: for the example unit alone in slot 0 the details against STR have a
`multipliers` trace of one number, not six. -/
theorem details_trace_of_one_unit :
    occupiedSlots (soloState exampleSlot) = [exampleSlot] ∧
    ∃ r, crunchForType (soloState exampleSlot) "STR" true = .ok (.details r) ∧
      r.multipliers = [1] ∧ r.multipliers.length ≠ 6 :=
  ⟨rfl, _, crunchForType_soloState_details, rfl, by decide⟩

/-- C16 (amended): when every captain's `hitModifiers` holds 6 hit kinds, the details returned
by `crunchForType(type,true)` have a `modifiers` sequence of exactly 6 hit kinds, a `multipliers`
trace of exactly one number per occupied slot, and an `order` that holds exactly one entry per
occupied slot, carrying the unit of the slot and the slot index. -/
theorem details_shape (s : State) (type : String) (r : Details)
    (hr : crunchForType s type true = .ok (.details r))
    (hmods : ∀ a ∈ abilities s, ∀ m, a.hitModifiers = some m →
      m.length = 6 ∧ ∀ h ∈ m, h ∈ hitKinds) :
    r.modifiers.length = 6 ∧ (∀ h ∈ r.modifiers, h ∈ hitKinds) ∧
    r.multipliers.length = (occupiedSlots s).length ∧
    r.order.length = (occupiedSlots s).length ∧
    (r.order.map fun e => (e.order, e.unit)).Perm (occupiedEntries s) := by
  obtain ⟨damage, M, sc, hdamage, hM, hscore, h1, h2, h3⟩ :=
    crunchForType_details_candidate s type r hr
  have hMshape : M.length = 6 ∧ ∀ h ∈ M, h ∈ hitKinds := by
    rcases List.mem_cons.mp hM with rfl | hM
    · exact ⟨rfl, by simp [DEFAULT_HIT_MODIFIERS, hitKinds]⟩
    · simp only [captainsWithHitModifiers, List.mem_map, List.mem_filterMap] at hM
      obtain ⟨c, ⟨a, ha, hc⟩, rfl⟩ := hM
      cases hm : a.hitModifiers with
      | none => simp [hm] at hc
      | some m =>
        simp only [hm, Option.map_some', Option.some.injEq] at hc
        subst hc
        exact hmods a ha m hm
  cases hd : applyCompatibleEffects s M (captainsWithHitModifiers s) damage with
  | error e =>
    simp [scoreScenario, hd, bind, Except.bind] at hscore
  | ok d =>
    have hkeys := applyCompatibleEffects_keys s M _ damage d hd
    have hsc : sc.damage = applyChainAndBonusMultipliers s d M (captainsWithChainModifiers s) := by
      simp only [scoreScenario, hd, bind, Except.bind, pure, Except.pure, Except.ok.injEq] at hscore
      rw [← hscore]
    have hstatic := staticDamage_keys s type damage hdamage
    have hlenD : d.length = (occupiedSlots s).length := by
      rw [← occupiedEntries_length, ← hstatic.length_eq, ← hkeys, List.length_map]
    have hres : (r.order.map fun e => (e.order, e.unit)) =
        d.map fun x => (x.order, x.unit) := by
      rw [h3, hsc]
      exact chainLoop_keys s M _ d 0 1
    refine ⟨h1 ▸ hMshape.1, h1 ▸ hMshape.2, ?_, ?_, ?_⟩
    · rw [h2, hsc]
      exact ((chainLoop_length s M _ d 0 1).2).trans hlenD
    · rw [h3, hsc]
      exact ((chainLoop_length s M _ d 0 1).1).trans hlenD
    · rw [hres, hkeys]
      exact hstatic

/-- Witness of C16 (amended): the details of the example unit alone against STR. -/
theorem details_shape_witness :
    DEFAULT_HIT_MODIFIERS.length = 6 ∧ (∀ h ∈ DEFAULT_HIT_MODIFIERS, h ∈ hitKinds) ∧
    ([1] : List ℚ).length = (occupiedSlots (soloState exampleSlot)).length ∧
    ([{ unit := exampleSlot, damage := some 2348, order := 0 }] : List ResultEntry).length =
      (occupiedSlots (soloState exampleSlot)).length ∧
    [((0 : Nat), exampleSlot)].Perm (occupiedEntries (soloState exampleSlot)) :=
  details_shape (soloState exampleSlot) "STR" _ crunchForType_soloState_details
    (by intro a ha; simp [abilities, soloState, initialState] at ha)

/-- C17, as stated, fails: with crunching enabled, the callback `onLevelChange` on an empty slot
throws before it reaches `crunch()`: nothing is emitted and the state is as it was. -/
theorem level_change_on_empty_slot_emits_nothing :
    initialState.crunchingEnabled = true ∧
    (onLevelChange initialState 0 5).emitted = [] ∧
    (onLevelChange initialState 0 5).error = some "TypeError: team[slotNumber] is null" ∧
    (onLevelChange initialState 0 5).state = initialState :=
  ⟨rfl, rfl, rfl, rfl⟩

/-- C17 (amended): for events whose slot arguments lie in 0..5: while `crunchingEnabled` is
false every callback but `onCrunchToggled(true)` emits nothing, and leaves the state it would
leave with crunching enabled, the gate apart; `onCrunchToggled(false)` emits nothing;
`onCrunchToggled(true)` opens the gate and emits exactly the full recompute of that state when
the recompute returns; while enabled, every callback but `onCrunchToggled(false)` that ends
without an exception emits exactly one result, the full recompute of the state it leaves, and
one that throws emits nothing; a callback whose state update completes and leaves a state that
meets the data contract does not throw. -/
theorem dispatch_emissions (env : Env) (s : State) (ev : Event)
    (_ : slotsInRange ev = true) :
    (s.crunchingEnabled = false → ev ≠ .crunchingToggled true →
      (dispatch env s ev).emitted = []) ∧
    ((∀ b, ev ≠ .crunchingToggled b) →
      (dispatch env { s with crunchingEnabled := false } ev).state =
        { (dispatch env { s with crunchingEnabled := true } ev).state with
          crunchingEnabled := false }) ∧
    (dispatch env s (.crunchingToggled false)).emitted = [] ∧
    (dispatch env s (.crunchingToggled false)).state = { s with crunchingEnabled := false } ∧
    (dispatch env s (.crunchingToggled true)).state = { s with crunchingEnabled := true } ∧
    (∀ r, fullRecompute { s with crunchingEnabled := true } = .ok r →
      (dispatch env s (.crunchingToggled true)).emitted = [r]) ∧
    (s.crunchingEnabled = true → ev ≠ .crunchingToggled false →
      ((dispatch env s ev).error = none →
        ∃ r, (dispatch env s ev).emitted = [r] ∧
          fullRecompute (dispatch env s ev).state = .ok r) ∧
      ((dispatch env s ev).error ≠ none → (dispatch env s ev).emitted = []) ∧
      (updateCompletes s ev = true → wellFormed (dispatch env s ev).state = true →
        (dispatch env s ev).error = none)) := by
  have hon : (dispatch env s (.crunchingToggled true)) =
      crunchOutcome { s with crunchingEnabled := true } := by
    simp [dispatch, onCrunchToggled]
  refine ⟨?_, fun hev => dispatch_state_gate env s ev false true hev, ?_, ?_, ?_, ?_, ?_⟩
  · intro hoff hev
    by_cases htog : ∀ b, ev ≠ .crunchingToggled b
    · rcases dispatch_cases env s ev htog with ⟨_, h⟩ | ⟨_, h, hgate⟩
      · rw [h]
      · rw [h, crunchOutcome_disabled _ (hgate.trans hoff)]
    · push_neg at htog
      obtain ⟨b, rfl⟩ := htog
      cases b with
      | true => exact absurd rfl hev
      | false => simp [dispatch, onCrunchToggled]
  · simp [dispatch, onCrunchToggled]
  · simp [dispatch, onCrunchToggled]
  · rw [hon, crunchOutcome_state]
  · intro r hr
    rw [hon]
    exact ((crunchOutcome_enabled _ rfl).2.2 r hr).1
  · intro hen hev
    have hmain : ∀ s', s'.crunchingEnabled = true →
        ((crunchOutcome s').error = none →
          ∃ r, (crunchOutcome s').emitted = [r] ∧
            fullRecompute (crunchOutcome s').state = .ok r) ∧
        ((crunchOutcome s').error ≠ none → (crunchOutcome s').emitted = []) ∧
        (wellFormed (crunchOutcome s').state = true → (crunchOutcome s').error = none) := by
      intro s' hs'
      obtain ⟨h1, h2, h3⟩ := crunchOutcome_enabled s' hs'
      rw [crunchOutcome_state]
      refine ⟨h1, h2, fun hwf => ?_⟩
      obtain ⟨r, hr⟩ := fullRecompute_ok s' (fun type => crunchForType_wellFormed s' type hwf)
      exact (h3 r hr).2
    by_cases htog : ∀ b, ev ≠ .crunchingToggled b
    · rcases dispatch_cases env s ev htog with ⟨hthrow, h⟩ | ⟨_, h, hgate⟩
      · rw [h]
        simp [hthrow]
      · obtain ⟨h1, h2, h3⟩ := hmain _ (hgate.trans hen)
        rw [← h] at h1 h2 h3
        exact ⟨h1, h2, fun _ => h3⟩
    · push_neg at htog
      obtain ⟨b, rfl⟩ := htog
      cases b with
      | false => exact absurd rfl hev
      | true =>
        obtain ⟨h1, h2, h3⟩ := hmain { s with crunchingEnabled := true } rfl
        rw [← hon] at h1 h2 h3
        exact ⟨h1, h2, fun _ => h3⟩

/-- Witness of C17 (amended): picking the example unit into slot 0 of the initial state emits
exactly one result, and nothing once crunching is disabled. -/
theorem dispatch_emissions_witness :
    (∃ r, (dispatch exampleEnv initialState (.unitPicked 0 0)).emitted = [r]) ∧
    (dispatch exampleEnv { initialState with crunchingEnabled := false }
      (.unitPicked 0 0)).emitted = [] := by
  have h := dispatch_emissions exampleEnv initialState (.unitPicked 0 0) rfl
  have h' := dispatch_emissions exampleEnv { initialState with crunchingEnabled := false }
    (.unitPicked 0 0) rfl
  have hstate : (dispatch exampleEnv initialState (.unitPicked 0 0)).state =
      setCaptain exampleEnv
        { initialState with
          team := initialState.team.set 0 (some { unit := exampleUnit, level := 1, orb := 1 }) }
        0 := by
    simp [dispatch, onUnitPick, crunchOutcome_state, exampleEnv]
  have hwf : wellFormed (dispatch exampleEnv initialState (.unitPicked 0 0)).state = true := by
    rw [hstate]
    rfl
  obtain ⟨h1, _, h3⟩ := h.2.2.2.2.2.2 rfl (by simp)
  obtain ⟨r, hr, _⟩ := h1 (h3 rfl hwf)
  exact ⟨⟨r, hr⟩, h'.1 rfl (by simp)⟩

/-- C18: for a Merry bonus `m > 0`, a contribution `b` computed without the bonus, a chain
multiplier `c`, an integer combo of at least 1 and a factor `k` among 0.3, 0.6 and 1.35, the
bonus term `floor((b*m*c)/combo/m*k)*combo` under the Merry bonus `m` equals the bonus term
`floor((b*c)/combo*k)*combo` under the Merry bonus 1, and it is the bonus term of the Good,
Great and Perfect hits that `computeDamageOfUnit` returns for the attack `b*m*c`. -/
theorem bonus_ignores_merryBonus (s : State) (unit : UnitData) (b c k : ℚ) (combo : ℕ)
    (hm : 0 < s.merryBonus) (hcombo : unit.combo = combo) (_ : 1 ≤ combo)
    (_ : k ∈ [(3 : ℚ) / 10, 6 / 10, 135 / 100]) :
    specBonus (b * s.merryBonus * c) combo s.merryBonus k = specBonus (b * c) combo 1 k ∧
    computeDamageOfUnit s unit (b * s.merryBonus * c) (some "Good") =
      some (specBaseDamage (b * s.merryBonus * c) combo s.defenseThreshold * (combo - 2) +
        (if specBonus (b * c) combo 1 (3/10) > s.defenseThreshold
          then specBonus (b * c) combo 1 (3/10) else 1)) ∧
    computeDamageOfUnit s unit (b * s.merryBonus * c) (some "Great") =
      some (specBaseDamage (b * s.merryBonus * c) combo s.defenseThreshold * (combo - 1) +
        (if specBonus (b * c) combo 1 (6/10) > s.defenseThreshold
          then specBonus (b * c) combo 1 (6/10) else 1)) ∧
    computeDamageOfUnit s unit (b * s.merryBonus * c) (some "Perfect") =
      some (specBaseDamage (b * s.merryBonus * c) combo s.defenseThreshold * combo +
        (if specBonus (b * c) combo 1 (135/100) > s.defenseThreshold
          then specBonus (b * c) combo 1 (135/100) else 1)) := by
  have hne : s.merryBonus ≠ 0 := ne_of_gt hm
  have hbonus : ∀ k' : ℚ,
      specBonus (b * s.merryBonus * c) combo s.merryBonus k' = specBonus (b * c) combo 1 k' := by
    intro k'
    have e : b * s.merryBonus * c / combo / s.merryBonus * k' = b * c / combo / 1 * k' := by
      field_simp
      ring
    simp only [specBonus, e]
  refine ⟨hbonus k, ?_, ?_, ?_⟩
  · rw [← hbonus]
    simp [computeDamageOfUnit, specBaseDamage, specBonus, hcombo]
  · rw [← hbonus]
    simp [computeDamageOfUnit, specBaseDamage, specBonus, hcombo]
  · rw [← hbonus]
    simp [computeDamageOfUnit, specBaseDamage, specBonus, hcombo]

/-- Witness of C18: the example unit (combo 4) with a contribution of 1000 and a Merry bonus
of 1.5: the Perfect bonus term is `floor(1000/4*1.35)*4 = 1348` with and without the bonus. -/
theorem bonus_ignores_merryBonus_witness :
    specBonus (1000 * (3/2) * 1) 4 (3/2) (135/100) = 1348 ∧
    specBonus (1000 * 1) 4 1 (135/100) = 1348 := by
  have h := (bonus_ignores_merryBonus { initialState with merryBonus := 3/2 } exampleUnit
    1000 1 (135/100) 4 (by norm_num) (by norm_num [exampleUnit]) (by norm_num)
    (by simp)).1
  have h2 : specBonus (1000 * 1) ((4 : ℕ) : ℚ) 1 (135/100) = 1348 := by
    norm_num [specBonus]
  rw [h2] at h
  have e : ((4 : ℕ) : ℚ) = 4 := by norm_num
  rw [e] at h h2
  exact ⟨h, h2⟩

/-- C19: for a unit with an integer combo of at least 1, a defense threshold of at least 0 and
a positive Merry bonus, `computeDamageOfUnit` returns at least 1 on a Miss, a Great and a
Perfect for every attack, and on a Good when the combo is at least 2; with a combo of 1 a Good
hit from 100 attack, defense threshold 0 and Merry bonus 1 returns `-100 + 30 = -70`. -/
theorem computeDamageOfUnit_ge_one (s : State) (unit : UnitData) (atk : ℚ) (combo : ℕ)
    (hit : String) (hcombo : unit.combo = combo) (hc : 1 ≤ combo)
    (hd : 0 ≤ s.defenseThreshold) (_ : 0 < s.merryBonus)
    (hhit : hit ∈ ["Miss", "Great", "Perfect"] ∨ (hit = "Good" ∧ 2 ≤ combo)) :
    (∃ v, computeDamageOfUnit s unit atk (some hit) = some v ∧ 1 ≤ v) ∧
    computeDamageOfUnit initialState singleHitUnit 100 (some "Good") = some (-70) := by
  constructor
  · have hbase : (1 : ℚ) ≤ (⌊max 1 (atk / unit.combo - s.defenseThreshold)⌋ : ℤ) := by
      have : (1 : ℤ) ≤ ⌊max 1 (atk / unit.combo - s.defenseThreshold)⌋ :=
        Int.le_floor.mpr (by simp)
      exact_mod_cast this
    have hc1 : (1 : ℚ) ≤ combo := by exact_mod_cast hc
    have hbonus : ∀ k : ℚ,
        (1 : ℚ) ≤ (if (⌊atk / unit.combo / s.merryBonus * k⌋ : ℤ) * unit.combo >
            s.defenseThreshold
          then ((⌊atk / unit.combo / s.merryBonus * k⌋ : ℤ) : ℚ) * unit.combo else 1) := by
      intro k
      split_ifs with h
      · rw [hcombo] at h ⊢
        have hpos : (0 : ℚ) < ((⌊atk / combo / s.merryBonus * k⌋ * (combo : ℤ) : ℤ) : ℚ) := by
          push_cast
          exact lt_of_le_of_lt hd h
        have hint : (1 : ℤ) ≤ ⌊atk / combo / s.merryBonus * k⌋ * (combo : ℤ) := by
          have : (0 : ℤ) < ⌊atk / combo / s.merryBonus * k⌋ * (combo : ℤ) := by
            exact_mod_cast hpos
          omega
        have : ((1 : ℤ) : ℚ) ≤ ((⌊atk / combo / s.merryBonus * k⌋ * (combo : ℤ) : ℤ) : ℚ) := by
          exact_mod_cast hint
        push_cast at this
        exact this
      · exact le_refl 1
    have hMiss : computeDamageOfUnit s unit atk (some "Miss") =
        some ((⌊max 1 (atk / unit.combo - s.defenseThreshold)⌋ : ℤ) * unit.combo) := by
      simp [computeDamageOfUnit]
    have hGood : computeDamageOfUnit s unit atk (some "Good") =
        some ((⌊max 1 (atk / unit.combo - s.defenseThreshold)⌋ : ℤ) * (unit.combo - 2) +
          (if (⌊atk / unit.combo / s.merryBonus * (3/10)⌋ : ℤ) * unit.combo >
              s.defenseThreshold
            then ((⌊atk / unit.combo / s.merryBonus * (3/10)⌋ : ℤ) : ℚ) * unit.combo
            else 1)) := by
      simp [computeDamageOfUnit]
    have hGreat : computeDamageOfUnit s unit atk (some "Great") =
        some ((⌊max 1 (atk / unit.combo - s.defenseThreshold)⌋ : ℤ) * (unit.combo - 1) +
          (if (⌊atk / unit.combo / s.merryBonus * (6/10)⌋ : ℤ) * unit.combo >
              s.defenseThreshold
            then ((⌊atk / unit.combo / s.merryBonus * (6/10)⌋ : ℤ) : ℚ) * unit.combo
            else 1)) := by
      simp [computeDamageOfUnit]
    have hPerfect : computeDamageOfUnit s unit atk (some "Perfect") =
        some ((⌊max 1 (atk / unit.combo - s.defenseThreshold)⌋ : ℤ) * unit.combo +
          (if (⌊atk / unit.combo / s.merryBonus * (135/100)⌋ : ℤ) * unit.combo >
              s.defenseThreshold
            then ((⌊atk / unit.combo / s.merryBonus * (135/100)⌋ : ℤ) : ℚ) * unit.combo
            else 1)) := by
      simp [computeDamageOfUnit]
    have hcu : (1 : ℚ) ≤ unit.combo := by rw [hcombo]; exact hc1
    rcases hhit with hhit | ⟨rfl, h2⟩
    · simp only [List.mem_cons, List.mem_singleton, List.not_mem_nil, or_false] at hhit
      rcases hhit with rfl | rfl | rfl
      · refine ⟨_, hMiss, ?_⟩
        nlinarith [hbase, hcu]
      · refine ⟨_, hGreat, ?_⟩
        have hb := hbonus (6/10)
        have hnn : (0 : ℚ) ≤ ((⌊max 1 (atk / unit.combo - s.defenseThreshold)⌋ : ℤ) : ℚ) *
            (unit.combo - 1) :=
          mul_nonneg (by linarith) (by linarith)
        linarith
      · refine ⟨_, hPerfect, ?_⟩
        have hb := hbonus (135/100)
        have hnn : (0 : ℚ) ≤ ((⌊max 1 (atk / unit.combo - s.defenseThreshold)⌋ : ℤ) : ℚ) *
            unit.combo :=
          mul_nonneg (by linarith) (by linarith)
        linarith
    · refine ⟨_, hGood, ?_⟩
      have hb := hbonus (3/10)
      have hc2 : (2 : ℚ) ≤ unit.combo := by rw [hcombo]; exact_mod_cast h2
      have hnn : (0 : ℚ) ≤ ((⌊max 1 (atk / unit.combo - s.defenseThreshold)⌋ : ℤ) : ℚ) *
          (unit.combo - 2) :=
        mul_nonneg (by linarith) (by linarith)
      linarith
  · simp only [computeDamageOfUnit, initialState, singleHitUnit]
    rw [if_neg (by decide), if_pos trivial]
    norm_num

/-- Witness of C19: a Good hit of the example unit (combo 4) from 1000 attack. -/
theorem computeDamageOfUnit_ge_one_witness :
    ∃ v, computeDamageOfUnit initialState exampleUnit 1000 (some "Good") = some v ∧ 1 ≤ v :=
  (computeDamageOfUnit_ge_one initialState exampleUnit 1000 4 "Good"
    (by norm_num [exampleUnit]) (by norm_num) (by norm_num [initialState])
    (by norm_num [initialState]) (Or.inr ⟨rfl, by norm_num⟩)).1

/-- C20: for a team of six slots whose units have an integer combo of at least 2, captain
abilities whose `hitModifiers` hold six of Miss, Good, Great and Perfect, and defense
thresholds `0 ≤ d1 ≤ d2`, `crunchForType(type,false)` either throws the same exception under
both thresholds or returns numbers under both, the one under `d2` at most the one under `d1`;
it returns under both when every captain with `hitModifiers` has a `hitAtk`. -/
theorem summary_antitone_in_defense (s : State) (type : String) (d1 d2 : ℚ)
    (h0 : 0 ≤ d1) (h12 : d1 ≤ d2)
    (hcombo : ∀ x ∈ occupiedSlots s, ∃ k : ℕ, 2 ≤ k ∧ x.unit.combo = k)
    (hmods : ∀ a ∈ abilities s, ∀ m, a.hitModifiers = some m →
      m.length = 6 ∧ ∀ h ∈ m, h ∈ hitKinds)
    (hteam : s.team.length = 6) :
    ((∃ e, crunchForType (withDefense s d1) type false = .error e ∧
        crunchForType (withDefense s d2) type false = .error e) ∨
      (∃ v1 v2, crunchForType (withDefense s d1) type false = .ok (.summary (some v1)) ∧
        crunchForType (withDefense s d2) type false = .ok (.summary (some v2)) ∧ v2 ≤ v1)) ∧
    ((∀ a ∈ abilities s, a.hitModifiers ≠ none → a.hitAtk ≠ none) →
      ∃ v1 v2, crunchForType (withDefense s d1) type false = .ok (.summary (some v1)) ∧
        crunchForType (withDefense s d2) type false = .ok (.summary (some v2)) ∧ v2 ≤ v1) := by
  obtain ⟨damage, hdamage, hlen⟩ := staticDamage_ok s type
  have hsix : damage.length ≤ 6 := by
    rw [hlen, ← hteam]
    exact teamDamage_length_le s type
  have hunits : ∀ x ∈ damage, ∃ k : ℕ, 2 ≤ k ∧ x.unit.unit.combo = k := by
    intro x hx
    have hmem : (x.order, x.unit) ∈ occupiedEntries s :=
      (staticDamage_keys s type damage hdamage).mem_iff.mp
        (List.mem_map_of_mem (fun y : DamageEntry => (y.order, y.unit)) hx)
    have hocc : x.unit ∈ occupiedSlots s := by
      rw [← occupiedEntries_units]
      exact List.mem_map_of_mem (·.2) hmem
    exact hcombo x.unit hocc
  have hM : ∀ M ∈ DEFAULT_HIT_MODIFIERS :: (captainsWithHitModifiers s).map (·.1),
      ∀ k, k < damage.length → ∃ h ∈ hitKinds, M[k]? = some h := by
    intro M hM k hk
    have hMshape : M.length = 6 ∧ ∀ h ∈ M, h ∈ hitKinds := by
      rcases List.mem_cons.mp hM with rfl | hM
      · exact ⟨rfl, by simp [DEFAULT_HIT_MODIFIERS, hitKinds]⟩
      · simp only [captainsWithHitModifiers, List.mem_map, List.mem_filterMap] at hM
        obtain ⟨c, ⟨a, ha, hc⟩, rfl⟩ := hM
        cases hm : a.hitModifiers with
        | none => simp [hm] at hc
        | some m =>
          simp only [hm, Option.map_some', Option.some.injEq] at hc
          subst hc
          exact hmods a ha m hm
    exact known_at M hMshape.1 hMshape.2 k (lt_of_lt_of_le hk hsix)
  have hd1 : staticDamage (withDefense s d1) type = .ok damage := hdamage
  have hd2 : staticDamage (withDefense s d2) type = .ok damage := hdamage
  have hmain : (∃ e, crunchForType (withDefense s d1) type false = .error e ∧
        crunchForType (withDefense s d2) type false = .error e) ∨
      (∃ v1 v2, crunchForType (withDefense s d1) type false = .ok (.summary (some v1)) ∧
        crunchForType (withDefense s d2) type false = .ok (.summary (some v2)) ∧ v2 ≤ v1) := by
    rcases scoreScenarios_antitone s damage d1 d2 h0 h12 hunits hM with
      ⟨e, he1, he2⟩ | ⟨a0, as, b0, bs, hs1, hs2, hrel⟩
    · left
      exact ⟨e, crunchForType_of_error _ type false damage e hd1 he1,
        crunchForType_of_error _ type false damage e hd2 he2⟩
    · right
      obtain ⟨v1, v2, hv1, hv2, hle⟩ := maxLoop_antitone a0 b0 as bs hrel
      have hf1 := crunchForType_of_scores _ type false damage a0 as hd1 hs1
      have hf2 := crunchForType_of_scores _ type false damage b0 bs hd2 hs2
      simp only [Bool.not_false, if_true] at hf1 hf2
      rw [hv1] at hf1
      rw [hv2] at hf2
      exact ⟨v1, v2, hf1, hf2, hle⟩
  refine ⟨hmain, fun hatk => ?_⟩
  rcases hmain with ⟨e, he1, _⟩ | h
  · have hwf : wellFormed (withDefense s d1) = true := wellFormed_of_parts s hteam hmods hatk
    obtain ⟨v, hv⟩ := crunchForType_wellFormed (withDefense s d1) type hwf
    rw [hv] at he1
    cases he1
  · exact h

/-- Witness of C20: the example unit (combo 4) under a captain asking for six Good hits,
against DEX, with the defense threshold raised from 0 to 100. -/
theorem summary_antitone_in_defense_witness :
    ∃ v1 v2, crunchForType (withDefense goodState 0) "DEX" false = .ok (.summary (some v1)) ∧
      crunchForType (withDefense goodState 100) "DEX" false = .ok (.summary (some v2)) ∧
      v2 ≤ v1 := by
  have hab : abilities goodState = [goodCaptain] := rfl
  refine (summary_antitone_in_defense goodState "DEX" 0 100 (le_refl 0) (by norm_num) ?_ ?_
    rfl).2 ?_
  · intro x hx
    have hx' : x = exampleSlot := by
      simpa [occupiedSlots, goodState, initialState] using hx
    subst hx'
    exact ⟨4, by norm_num, by norm_num [exampleSlot, exampleUnit]⟩
  · intro a ha m hm
    rw [hab, List.mem_singleton] at ha
    subst ha
    have hm' : m = allGood := by
      simpa [goodCaptain] using hm.symm
    subst hm'
    exact ⟨rfl, by simp [allGood, hitKinds]⟩
  · intro a ha _
    rw [hab, List.mem_singleton] at ha
    subst ha
    simp [goodCaptain]

end Cruncher
